import Mathlib

/-!
# Resynchronisation of VPP interfaces (plugins/defaultplugins/ifplugin/data_resync.go)

A shallow embedding of `InterfaceConfigurator.Resync`.  The Go method is stateful and
talks to collaborators whose bodies live outside the embedded file (the VPP dump, the
persistence helper, the three mutating configurator methods and the af-packet
predicate).  The embedding passes the plugin state explicitly, takes the collaborators
as a record of functions over an arbitrary world type, and records every call that
`Resync` itself makes in a trace, so that statements about "which calls were made, in
which order, with which result" become statements about a list.
-/

namespace ifplugin

/-- Go `error` values; the nil error is `none`. -/
abbrev Err := String

/-- Modelled from the spec: the type discriminator of an interface (`intf.InterfaceType`);
only `ETHERNET_CSMACD`, the physical kind, is named by the resync code. -/
inductive InterfaceType where
  | SOFTWARE_LOOPBACK
  | ETHERNET_CSMACD
  | MEMORY_INTERFACE
  | TAP_INTERFACE
  | AF_PACKET_INTERFACE
  | VXLAN_TUNNEL
deriving DecidableEq, Repr

/-- Modelled from the spec: a desired-state interface (`intf.Interfaces_Interface`): a stable
name, the type discriminator (the Go field Type) and the remaining descriptor fields, which
the resync code never inspects. -/
structure Interfaces_Interface where
  Name : String
  Type_ : InterfaceType
  Enabled : Bool
  Mtu : Nat
deriving DecidableEq, Repr

/-- Modelled from the spec: a live-state interface (`vppdump.Interface`): the descriptor as
the forwarder sees it plus the forwarder-internal name. -/
structure Interface where
  VPPInternalName : String
  Interfaces_Interface : Interfaces_Interface
deriving DecidableEq, Repr

/-- Go field promotion: `vppIface.Type_` is the type of the embedded descriptor. -/
def Interface.Type_ (v : Interface) : InterfaceType := v.Interfaces_Interface.Type_

/-- One entry of a name-to-index registry. -/
structure Entry where
  name : String
  idx : Nat
  metadata : Option Interfaces_Interface
deriving DecidableEq, Repr

/-- Modelled from the spec: the Identity Registry (`nametoidx.NameToIdxRW`), section 4.1, as the
list of its entries. -/
abbrev NameToIdx := List Entry

/-- Modelled from the spec: `nametoidx.NewNameToIdx`, a fresh empty registry. -/
def NewNameToIdx : NameToIdx := []

/-- Modelled from the spec: `registerName` upserts an entry, replacing any existing entry with
the same name or the same handle; it never fails. -/
def RegisterName (r : NameToIdx) (name : String) (idx : Nat)
    (metadata : Option Interfaces_Interface) : NameToIdx :=
  ⟨name, idx, metadata⟩ :: r.filter (fun e => decide (e.name ≠ name) && decide (e.idx ≠ idx))

/-- Modelled from the spec: `lookupByName(name) → (handle, metadata, found)`; the zero values
are returned when nothing is found, as Go does. -/
def LookupIdx (r : NameToIdx) (name : String) : Nat × Option Interfaces_Interface × Bool :=
  match r.find? (fun e => decide (e.name = name)) with
  | some e => (e.idx, e.metadata, true)
  | none => (0, none, false)

/-- Modelled from the spec: `lookupByHandle(handle) → (name, metadata, found)`. -/
def LookupName (r : NameToIdx) (idx : Nat) : String × Option Interfaces_Interface × Bool :=
  match r.find? (fun e => decide (e.idx = idx)) with
  | some e => (e.name, e.metadata, true)
  | none => ("", none, false)

/-- Modelled from the spec: unregistering by handle removes the entry of a handle if present. -/
def UnregisterIdx (r : NameToIdx) (idx : Nat) : NameToIdx :=
  r.filter (fun e => decide (e.idx ≠ idx))

/-- The state of an `InterfaceConfigurator` that `Resync` reads or writes: the registry
`swIfIndexes`, the flag `resyncDoneOnce`, and everything else reachable from the plugin (the
VPP channel and the forwarder behind it, the service label, the af-packet configurator, the
persisted file), kept abstract as the world `vpp`. -/
structure InterfaceConfigurator (ω : Type) where
  swIfIndexes : NameToIdx
  resyncDoneOnce : Bool
  vpp : ω

/-- What a mutating configurator method hands back: its error, and the registry and world it
leaves behind. -/
structure Outcome (ω : Type) where
  err : Option Err
  swIfIndexes : NameToIdx
  vpp : ω

/-- What `persist.Marshalling` hands back: its error, the entries it loaded for the temporary
registry, and the world it leaves behind. -/
structure Loaded (ω : Type) where
  err : Option Err
  entries : List Entry
  vpp : ω

/-- The collaborators `Resync` calls and whose bodies are not part of the embedded file.  They
are parameters of the embedding; a Go map is a list of key/value pairs in iteration order. -/
structure Collaborators (ω : Type) where
  GetAgentLabel : ω → String
  DumpInterfaces : ω → Except Err (List (Nat × Interface))
  Marshalling : String → NameToIdx → ω → Loaded ω
  deleteVPPInterface : Interfaces_Interface → Nat → NameToIdx → ω → Outcome ω
  modifyVPPInterface :
    Interfaces_Interface → Interfaces_Interface → Nat → InterfaceType → NameToIdx → ω → Outcome ω
  ConfigureVPPInterface : Interfaces_Interface → NameToIdx → ω → Outcome ω
  IsPendingAfPacket : Interfaces_Interface → ω → Bool

/-- The calls `Resync` makes, with their arguments. -/
inductive Call where
  | DumpInterfaces
  | Marshalling (label : String) (mapping : NameToIdx)
  | deleteVPPInterface (oldConfig : Interfaces_Interface) (ifIdx : Nat)
  | modifyVPPInterface (newConfig oldConfig : Interfaces_Interface) (ifIdx : Nat)
      (ifaceType : InterfaceType)
  | ConfigureVPPInterface (iface : Interfaces_Interface)
  | RegisterName (name : String) (idx : Nat) (metadata : Option Interfaces_Interface)
deriving DecidableEq, Repr

/-- A call together with the error it returned (`none` for nil; registrations never fail). -/
structure Event where
  call : Call
  result : Option Err
deriving DecidableEq, Repr

/-- The running state of one pass: the plugin, the local variable `wasError`, and the trace of
the calls made so far. -/
structure Pass (ω : Type) where
  plugin : InterfaceConfigurator ω
  wasError : Option Err
  trace : List Event

/-- The assignment guarded by the Go idiom `if err != nil then wasError = err`. -/
def recordError (wasError err : Option Err) : Option Err :=
  match err with
  | some e => some e
  | none => wasError

/-- The call `plugin.swIfIndexes.RegisterName(name, idx, metadata)`, traced. -/
def Pass.register {ω : Type} (p : Pass ω) (name : String) (idx : Nat)
    (metadata : Option Interfaces_Interface) : Pass ω :=
  { plugin := { p.plugin with swIfIndexes := RegisterName p.plugin.swIfIndexes name idx metadata }
    wasError := p.wasError
    trace := p.trace ++ [⟨Call.RegisterName name idx metadata, none⟩] }

/-- The effect of a mutating configurator call that returned `o`: the plugin takes over the
registry and world, the error is recorded in `wasError`, and the call is traced. -/
def Pass.invoke {ω : Type} (p : Pass ω) (c : Call) (o : Outcome ω) : Pass ω :=
  { plugin := { p.plugin with swIfIndexes := o.swIfIndexes, vpp := o.vpp }
    wasError := recordError p.wasError o.err
    trace := p.trace ++ [⟨c, o.err⟩] }

/-- Step 1, lines 65-70: every northbound interface whose name the temporary registry knows is
copied into the correlation registry. -/
def correlate (tmpCorr : NameToIdx) : List Interfaces_Interface → NameToIdx → NameToIdx
  | [], corr => corr
  | nbIface :: rest, corr =>
    let look := LookupIdx tmpCorr nbIface.Name
    if look.2.2 then correlate tmpCorr rest (RegisterName corr nbIface.Name look.1 look.2.1)
    else correlate tmpCorr rest corr

/-- Modelled from the spec: `persist.Marshalling` fills the temporary registry by registering
the entries of the previously persisted snapshot one by one. -/
def seed : List Entry → NameToIdx → NameToIdx
  | [], r => r
  | e :: rest, r => seed rest (RegisterName r e.name e.idx e.metadata)

/-- The result of Step 1: either the pass is aborted with an error, or the correlation
registry `corr` is known. -/
inductive Step1 (ω : Type) where
  | aborted (err : Err) (p : Pass ω)
  | correlated (corr : NameToIdx) (p : Pass ω)

/-- Step 1, lines 50-71. -/
def step1 {ω : Type} (env : Collaborators ω) (nbIfaces : List Interfaces_Interface)
    (p : Pass ω) : Step1 ω :=
  let corr := NewNameToIdx
  if !p.plugin.resyncDoneOnce then
    let label := env.GetAgentLabel p.plugin.vpp
    let m := env.Marshalling label p.plugin.swIfIndexes p.plugin.vpp
    let tmpCorr := seed m.entries NewNameToIdx
    let tr := p.trace ++ [⟨Call.Marshalling label p.plugin.swIfIndexes, m.err⟩]
    match m.err with
    | some e =>
      Step1.aborted e { plugin := { p.plugin with vpp := m.vpp }, wasError := p.wasError, trace := tr }
    | none =>
      Step1.correlated (correlate tmpCorr nbIfaces corr)
        { plugin := { p.plugin with vpp := m.vpp, resyncDoneOnce := true }
          wasError := p.wasError
          trace := tr }
  else Step1.correlated corr p

/-- The body of the Step 2 loop, lines 76-93. -/
def step2Body {ω : Type} (env : Collaborators ω) (corr : NameToIdx) (p : Pass ω)
    (vppSwIfIdx : Nat) (vppIface : Interface) : Pass ω :=
  let found := (LookupName corr vppSwIfIdx).2.2
  if vppSwIfIdx = 0 then
    p.register vppIface.VPPInternalName vppSwIfIdx (some vppIface.Interfaces_Interface)
  else if vppIface.Type_ = InterfaceType.ETHERNET_CSMACD then
    p.register vppIface.VPPInternalName vppSwIfIdx (some vppIface.Interfaces_Interface)
  else if !found then
    p.invoke (Call.deleteVPPInterface vppIface.Interfaces_Interface vppSwIfIdx)
      (env.deleteVPPInterface vppIface.Interfaces_Interface vppSwIfIdx
        p.plugin.swIfIndexes p.plugin.vpp)
  else p

/-- Step 2, lines 75-94: the loop over the dump. -/
def step2 {ω : Type} (env : Collaborators ω) (corr : NameToIdx) :
    List (Nat × Interface) → Pass ω → Pass ω
  | [], p => p
  | kv :: rest, p => step2 env corr rest (step2Body env corr p kv.1 kv.2)

/-- The map access `vppIfaces[swIfIdx]` with its comma-ok result. -/
def lookupDump (vppIfaces : List (Nat × Interface)) (swIfIdx : Nat) : Option Interface :=
  (vppIfaces.find? (fun kv => decide (kv.1 = swIfIdx))).map Prod.snd

/-- The body of the Step 3 loop, lines 100-113, for an interface that is correlated and
dumped: modify, then register unless the af-packet is pending. -/
def step3Modify {ω : Type} (env : Collaborators ω) (p : Pass ω)
    (nbIface : Interfaces_Interface) (swIfIdx : Nat) (vppIface : Interface) : Pass ω :=
  let q := p.invoke
    (Call.modifyVPPInterface nbIface vppIface.Interfaces_Interface swIfIdx vppIface.Type_)
    (env.modifyVPPInterface nbIface vppIface.Interfaces_Interface swIfIdx vppIface.Type_
      p.plugin.swIfIndexes p.plugin.vpp)
  if !env.IsPendingAfPacket nbIface q.plugin.vpp then
    q.register nbIface.Name swIfIdx (some nbIface)
  else q

/-- Step 3, lines 99-114: the loop over the northbound interfaces, which also collects
`toBeConfigured`. -/
def step3 {ω : Type} (env : Collaborators ω) (corr : NameToIdx)
    (vppIfaces : List (Nat × Interface)) :
    List Interfaces_Interface → Pass ω → List Interfaces_Interface →
      Pass ω × List Interfaces_Interface
  | [], p, toBeConfigured => (p, toBeConfigured)
  | nbIface :: rest, p, toBeConfigured =>
    let look := LookupIdx corr nbIface.Name
    match look.2.2, lookupDump vppIfaces look.1 with
    | true, some vppIface =>
      step3 env corr vppIfaces rest (step3Modify env p nbIface look.1 vppIface) toBeConfigured
    | _, _ => step3 env corr vppIfaces rest p (toBeConfigured ++ [nbIface])

/-- Step 4, lines 117-122: the loop over `toBeConfigured`. -/
def step4 {ω : Type} (env : Collaborators ω) : List Interfaces_Interface → Pass ω → Pass ω
  | [], p => p
  | nbIface :: rest, p =>
    step4 env rest (p.invoke (Call.ConfigureVPPInterface nbIface)
      (env.ConfigureVPPInterface nbIface p.plugin.swIfIndexes p.plugin.vpp))

/-- Steps 2 to 4, lines 72-126, once the dump and the correlation registry are known. -/
def reconcile {ω : Type} (env : Collaborators ω) (corr : NameToIdx)
    (vppIfaces : List (Nat × Interface)) (nbIfaces : List Interfaces_Interface)
    (p : Pass ω) : Pass ω :=
  let p2 := step2 env corr vppIfaces { p with wasError := none }
  let p3 := step3 env corr vppIfaces nbIfaces p2 []
  step4 env p3.2 p3.1

/-- The method `InterfaceConfigurator.Resync`, lines 34-127: the returned error, the plugin
afterwards and the trace of the calls made. -/
def Resync {ω : Type} (env : Collaborators ω) (nbIfaces : List Interfaces_Interface)
    (plugin : InterfaceConfigurator ω) : Pass ω :=
  match env.DumpInterfaces plugin.vpp with
  | Except.error e =>
    { plugin := plugin, wasError := some e, trace := [⟨Call.DumpInterfaces, some e⟩] }
  | Except.ok vppIfaces =>
    match step1 env nbIfaces
      { plugin := plugin, wasError := none, trace := [⟨Call.DumpInterfaces, none⟩] } with
    | Step1.aborted e p => { p with wasError := some e }
    | Step1.correlated corr p => reconcile env corr vppIfaces nbIfaces p

/-! ## Reading a trace

The vocabulary in which the properties of a pass are stated. -/

/-- A call of `deleteVPPInterface`. -/
def Call.isDelete : Call → Bool
  | Call.deleteVPPInterface _ _ => true
  | _ => false

/-- A call of `modifyVPPInterface`. -/
def Call.isModify : Call → Bool
  | Call.modifyVPPInterface _ _ _ _ => true
  | _ => false

/-- A call of `ConfigureVPPInterface`, the create operation. -/
def Call.isCreate : Call → Bool
  | Call.ConfigureVPPInterface _ => true
  | _ => false

/-- A call of one of the three mutating configurator methods. -/
def Call.isConfigurator (c : Call) : Bool := c.isDelete || c.isModify || c.isCreate

/-- A registration in `swIfIndexes` made by `Resync` itself. -/
def Call.isRegister : Call → Bool
  | Call.RegisterName _ _ _ => true
  | _ => false

/-- The configurator calls of a trace, in the order they were made. -/
def configuratorCalls (t : List Event) : List Call :=
  (t.map Event.call).filter Call.isConfigurator

/-- The events of the configurator calls of a trace, in the order they were made. -/
def configuratorEvents (t : List Event) : List Event :=
  t.filter (fun e => e.call.isConfigurator)

/-- The most recent error of a sequence of events, starting from `init`: a later nil result
neither clears nor restores anything. -/
def lastErrorFrom (init : Option Err) (t : List Event) : Option Err :=
  t.foldl (fun acc e => recordError acc e.result) init

/-- The most recent error of a sequence of events, nil if none failed. -/
def lastError (t : List Event) : Option Err := lastErrorFrom none t

/-- A dump entry is obsolete when it is neither the reserved handle 0 nor physical and the
correlation registry has no entry for its handle. -/
def obsolete (corr : NameToIdx) (kv : Nat × Interface) : Bool :=
  decide (kv.1 ≠ 0) && decide (kv.2.Type_ ≠ InterfaceType.ETHERNET_CSMACD) &&
    !(LookupName corr kv.1).2.2

/-- The delete calls the specification prescribes for Step 2: one per obsolete dump entry, in
dump order. -/
def expectedDeletes (corr : NameToIdx) (vppIfaces : List (Nat × Interface)) : List Call :=
  (vppIfaces.filter (obsolete corr)).map
    (fun kv => Call.deleteVPPInterface kv.2.Interfaces_Interface kv.1)

/-- The call the specification prescribes for a desired object: modify when the correlation
registry maps its name to a handle that is a key of the dump, create otherwise. -/
def classify (corr : NameToIdx) (vppIfaces : List (Nat × Interface))
    (nbIface : Interfaces_Interface) : Call :=
  match (LookupIdx corr nbIface.Name).2.2, lookupDump vppIfaces (LookupIdx corr nbIface.Name).1 with
  | true, some vppIface =>
    Call.modifyVPPInterface nbIface vppIface.Interfaces_Interface
      (LookupIdx corr nbIface.Name).1 vppIface.Type_
  | _, _ => Call.ConfigureVPPInterface nbIface

/-- The modify calls the specification prescribes for Step 3, in the order of the desired
list. -/
def expectedModifies (corr : NameToIdx) (vppIfaces : List (Nat × Interface))
    (nbIfaces : List Interfaces_Interface) : List Call :=
  (nbIfaces.map (classify corr vppIfaces)).filter Call.isModify

/-- The create calls the specification prescribes for Step 4, in the order of the desired
list. -/
def expectedCreates (corr : NameToIdx) (vppIfaces : List (Nat × Interface))
    (nbIfaces : List Interfaces_Interface) : List Call :=
  (nbIfaces.map (classify corr vppIfaces)).filter Call.isCreate

/-- The correlation registry that Step 1 leaves for Steps 2 and 3: empty when the first pass
is already done (or the pass is aborted), otherwise the desired names that the temporary
registry knows. -/
def correlation {ω : Type} (env : Collaborators ω) (nbIfaces : List Interfaces_Interface)
    (plugin : InterfaceConfigurator ω) : NameToIdx :=
  match step1 env nbIfaces { plugin := plugin, wasError := none, trace := [] } with
  | Step1.correlated corr _ => corr
  | Step1.aborted _ _ => NewNameToIdx

/-- The persistence step of a pass does not fail: either it is skipped because the first pass
is already done, or `persist.Marshalling` returns nil. -/
def PersistenceSucceeds {ω : Type} (env : Collaborators ω) (plugin : InterfaceConfigurator ω) :
    Prop :=
  plugin.resyncDoneOnce = true ∨
    (env.Marshalling (env.GetAgentLabel plugin.vpp) plugin.swIfIndexes plugin.vpp).err = none

/-- A stretch of a pass from `p` to `q` that emitted the events `t`: the trace grew by `t`,
`wasError` is the most recent error of `t` (or what it was), the flag did not move, and every
event is a configurator call or a successful registration. -/
structure Emits {ω : Type} (p q : Pass ω) (t : List Event) : Prop where
  trace_eq : q.trace = p.trace ++ t
  error_eq : q.wasError = lastErrorFrom p.wasError t
  flag_eq : q.plugin.resyncDoneOnce = p.plugin.resyncDoneOnce
  kinds : ∀ e ∈ t, e.call.isConfigurator = true ∨ (e.call.isRegister = true ∧ e.result = none)

/-- A registry is well formed when no two of its entries share a name or a handle. -/
def RegistryWF (r : NameToIdx) : Prop :=
  r.Pairwise (fun a b => a.name ≠ b.name ∧ a.idx ≠ b.idx)

/-- The registry `r` maps the name `n` to the handle `h`. -/
def MapsTo (r : NameToIdx) (n : String) (h : Nat) : Prop :=
  (LookupIdx r n).1 = h ∧ (LookupIdx r n).2.2 = true

/-- The registry `r` has an entry for the name `n`. -/
def HasName (r : NameToIdx) (n : String) : Prop := (LookupIdx r n).2.2 = true

/-- Modelled from the spec: the contract of section 4.3 for the mutating configurator methods,
whose bodies are not part of the embedded file.  `delete` unregisters the handle on success and
leaves the registry unmodified on failure; `modify` leaves the registry to its caller; `create`
either leaves the registry unmodified (always so on failure) or registers
`(desired.name, newHandle, desired)` under a handle no entry holds, and does register when it
succeeds for an interface that is not pending. -/
structure ConfiguratorContract {ω : Type} (env : Collaborators ω) : Prop where
  delete_success : ∀ i h r w, (env.deleteVPPInterface i h r w).err = none →
    (env.deleteVPPInterface i h r w).swIfIndexes = UnregisterIdx r h
  delete_failure : ∀ i h r w, (env.deleteVPPInterface i h r w).err ≠ none →
    (env.deleteVPPInterface i h r w).swIfIndexes = r
  modify_registry : ∀ d o h t r w, (env.modifyVPPInterface d o h t r w).swIfIndexes = r
  create_registry : ∀ d r w, (env.ConfigureVPPInterface d r w).swIfIndexes = r ∨
    ∃ h, (∀ e ∈ r, e.idx ≠ h) ∧
      (env.ConfigureVPPInterface d r w).swIfIndexes = RegisterName r d.Name h (some d)
  create_failure : ∀ d r w, (env.ConfigureVPPInterface d r w).err ≠ none →
    (env.ConfigureVPPInterface d r w).swIfIndexes = r
  create_success : ∀ d r w, (env.ConfigureVPPInterface d r w).err = none →
    env.IsPendingAfPacket d (env.ConfigureVPPInterface d r w).vpp = false →
    ∃ h, (∀ e ∈ r, e.idx ≠ h) ∧
      (env.ConfigureVPPInterface d r w).swIfIndexes = RegisterName r d.Name h (some d)

/-- The collaborators that change the world keep the property `Inv` of it.  It is the means
to say that something holds of the world at every point of a pass. -/
structure Preserves {ω : Type} (env : Collaborators ω) (Inv : ω → Prop) : Prop where
  marshalling : ∀ l r w, Inv w → Inv (env.Marshalling l r w).vpp
  delete : ∀ i h r w, Inv w → Inv (env.deleteVPPInterface i h r w).vpp
  modify : ∀ d o h t r w, Inv w → Inv (env.modifyVPPInterface d o h t r w).vpp
  create : ∀ d r w, Inv w → Inv (env.ConfigureVPPInterface d r w).vpp

/-- Convergence of one pass as the specification words it: whatever the dump, afterwards every
desired name has a registry entry and every obsolete live interface has been deleted (a delete
call on it returned nil). -/
def Convergence {ω : Type} (env : Collaborators ω) (nbIfaces : List Interfaces_Interface)
    (plugin : InterfaceConfigurator ω) : Prop :=
  ∀ vppIfaces, env.DumpInterfaces plugin.vpp = Except.ok vppIfaces →
    (∀ d ∈ nbIfaces, HasName (Resync env nbIfaces plugin).plugin.swIfIndexes d.Name) ∧
    (∀ kv ∈ vppIfaces, obsolete (correlation env nbIfaces plugin) kv = true →
      (⟨Call.deleteVPPInterface kv.2.Interfaces_Interface kv.1, none⟩ : Event) ∈
        (Resync env nbIfaces plugin).trace)

/-- Idempotence as the specification words it: when two passes run in succession on the same
configurator with the same desired list and every call of both succeeds, the second pass makes
no create call and no delete call. -/
def Idempotence {ω : Type} (env : Collaborators ω) (nbIfaces : List Interfaces_Interface)
    (plugin : InterfaceConfigurator ω) : Prop :=
  (∀ e ∈ (Resync env nbIfaces plugin).trace, e.result = none) →
  (∀ e ∈ (Resync env nbIfaces (Resync env nbIfaces plugin).plugin).trace, e.result = none) →
  ∀ e ∈ (Resync env nbIfaces (Resync env nbIfaces plugin).plugin).trace,
    e.call.isCreate = false ∧ e.call.isDelete = false

/-- The outcome that the specification asks of a first pass for a name `n` that the temporary
registry maps to a live handle `h`: no delete call on `h`, no create call for `n`, and the
registry maps `n` to `h` at the end. -/
def IdentityKept {ω : Type} (env : Collaborators ω) (nbIfaces : List Interfaces_Interface)
    (plugin : InterfaceConfigurator ω) (n : String) (h : Nat) : Prop :=
  (∀ e ∈ (Resync env nbIfaces plugin).trace, ∀ i, e.call ≠ Call.deleteVPPInterface i h) ∧
  (∀ e ∈ (Resync env nbIfaces plugin).trace, ∀ d, e.call = Call.ConfigureVPPInterface d →
    d.Name ≠ n) ∧
  MapsTo (Resync env nbIfaces plugin).plugin.swIfIndexes n h

/-- The situation of a restart for the name `n` and the handle `h`: a first pass whose dump
holds `h`, whose save succeeds, whose temporary registry maps `n` to `h`, and a desired list
that holds an interface named `n`. -/
def RestartOf {ω : Type} (env : Collaborators ω) (nbIfaces : List Interfaces_Interface)
    (plugin : InterfaceConfigurator ω) (n : String) (h : Nat) : Prop :=
  plugin.resyncDoneOnce = false ∧
  (∃ vppIfaces, env.DumpInterfaces plugin.vpp = Except.ok vppIfaces ∧
    (lookupDump vppIfaces h).isSome = true) ∧
  (env.Marshalling (env.GetAgentLabel plugin.vpp) plugin.swIfIndexes plugin.vpp).err = none ∧
  MapsTo (seed (env.Marshalling (env.GetAgentLabel plugin.vpp) plugin.swIfIndexes
    plugin.vpp).entries NewNameToIdx) n h ∧
  ∃ d ∈ nbIfaces, d.Name = n

/-! ## A forwarder to run the pass against

The mutating configurator methods, the dump and the persistence helper are not part of the
embedded file.  The definitions below follow sections 4.2 and 4.3 of the specification and give
one concrete world in which a pass can be evaluated. -/

/-- Modelled from the spec: the world behind the plugin: the interfaces programmed in the
forwarder keyed by handle, the snapshot persisted by the previous run, the af-packet
interfaces that are pending, and what currently fails (the dump, the save, the removal of
some handles, the programming of some names). -/
structure Vpp where
  label : String
  ifaces : List (Nat × Interface)
  snapshot : List Entry
  pendingAfPackets : List String
  dumpError : Option Err
  persistError : Option Err
  undeletable : List Nat
  rejected : List String
deriving DecidableEq, Repr

/-- Modelled from the spec: the handle the forwarder assigns to a new object: one larger than
every handle programmed in the forwarder or held by the registry. -/
def newHandle (r : NameToIdx) (ifaces : List (Nat × Interface)) : Nat :=
  ((r.map Entry.idx) ++ (ifaces.map Prod.fst)).foldr max 0 + 1

/-- Modelled from the spec: `lookupLiveState` fails with a transport error or returns the
interfaces programmed in the forwarder. -/
def Vpp.DumpInterfaces (w : Vpp) : Except Err (List (Nat × Interface)) :=
  match w.dumpError with
  | some e => Except.error e
  | none => Except.ok w.ifaces

/-- Modelled from the spec: `persist.Marshalling` hands back the snapshot of the previous run
and overwrites it with the current mapping; a failure to save is propagated. -/
def Vpp.Marshalling (_label : String) (mapping : NameToIdx) (w : Vpp) : Loaded Vpp :=
  match w.persistError with
  | some e => { err := some e, entries := [], vpp := w }
  | none => { err := none, entries := w.snapshot, vpp := { w with snapshot := mapping } }

/-- Modelled from the spec: `delete` removes the object from the dataplane and unregisters its
handle; on failure the registry is left unmodified. -/
def Vpp.deleteVPPInterface (_oldConfig : Interfaces_Interface) (ifIdx : Nat) (r : NameToIdx)
    (w : Vpp) : Outcome Vpp :=
  if ifIdx ∈ w.undeletable then { err := some "delete rejected", swIfIndexes := r, vpp := w }
  else
    { err := none
      swIfIndexes := UnregisterIdx r ifIdx
      vpp := { w with ifaces := w.ifaces.filter (fun kv => decide (kv.1 ≠ ifIdx)) } }

/-- Modelled from the spec: `modify` reconciles the object at the live handle with the desired
descriptor; the registry is updated by the caller, not here. -/
def Vpp.modifyVPPInterface (newConfig _oldConfig : Interfaces_Interface) (ifIdx : Nat)
    (_ifaceType : InterfaceType) (r : NameToIdx) (w : Vpp) : Outcome Vpp :=
  if newConfig.Name ∈ w.rejected then
    { err := some "modify rejected", swIfIndexes := r, vpp := w }
  else
    { err := none
      swIfIndexes := r
      vpp := { w with ifaces := w.ifaces.map (fun kv =>
        if kv.1 = ifIdx then (kv.1, { kv.2 with Interfaces_Interface := newConfig }) else kv) } }

/-- Modelled from the spec: `create` programs a new object and registers
`(desired.name, newHandle, desired)` on success; on failure the registry is left unmodified;
a pending af-packet is accepted without a handle. -/
def Vpp.ConfigureVPPInterface (iface : Interfaces_Interface) (r : NameToIdx) (w : Vpp) :
    Outcome Vpp :=
  if iface.Name ∈ w.rejected then { err := some "create rejected", swIfIndexes := r, vpp := w }
  else if iface.Name ∈ w.pendingAfPackets then { err := none, swIfIndexes := r, vpp := w }
  else
    { err := none
      swIfIndexes := RegisterName r iface.Name (newHandle r w.ifaces) (some iface)
      vpp := { w with ifaces := w.ifaces ++
        [(newHandle r w.ifaces, { VPPInternalName := "vpp-" ++ iface.Name
                                  Interfaces_Interface := iface })] } }

/-- Modelled from the spec: the collaborators over the world `Vpp`. -/
def vppCollaborators : Collaborators Vpp where
  GetAgentLabel := fun w => w.label
  DumpInterfaces := Vpp.DumpInterfaces
  Marshalling := Vpp.Marshalling
  deleteVPPInterface := Vpp.deleteVPPInterface
  modifyVPPInterface := Vpp.modifyVPPInterface
  ConfigureVPPInterface := Vpp.ConfigureVPPInterface
  IsPendingAfPacket := fun iface w => decide (iface.Name ∈ w.pendingAfPackets)

/-! ## Concrete passes

The worlds on which the statements below are evaluated. -/

/-- A desired virtual interface. -/
def eth1 : Interfaces_Interface :=
  { Name := "eth1", Type_ := InterfaceType.TAP_INTERFACE, Enabled := true, Mtu := 1500 }

/-- A desired interface that survived a restart of the agent. -/
def eth0 : Interfaces_Interface :=
  { Name := "eth0", Type_ := InterfaceType.AF_PACKET_INTERFACE, Enabled := true, Mtu := 1500 }

/-- The default loopback interface the forwarder keeps at handle 0. -/
def local0 : Interface :=
  { VPPInternalName := "local0"
    Interfaces_Interface :=
      { Name := "", Type_ := InterfaceType.SOFTWARE_LOOPBACK, Enabled := true, Mtu := 0 } }

/-- A live virtual interface nobody asked for. -/
def hostEth1 : Interface :=
  { VPPInternalName := "host-eth1"
    Interfaces_Interface :=
      { Name := "", Type_ := InterfaceType.AF_PACKET_INTERFACE, Enabled := true, Mtu := 0 } }

/-- A live physical interface. -/
def gigabit : Interface :=
  { VPPInternalName := "GigabitEthernet0/8/0"
    Interfaces_Interface :=
      { Name := "", Type_ := InterfaceType.ETHERNET_CSMACD, Enabled := true, Mtu := 9000 } }

/-- The live interface behind `eth0`. -/
def hostEth0 : Interface :=
  { VPPInternalName := "host-eth0"
    Interfaces_Interface :=
      { Name := "eth0", Type_ := InterfaceType.AF_PACKET_INTERFACE, Enabled := false, Mtu := 1500 } }

/-- A forwarder holding the loopback at handle 0, a physical interface at handle 3 and a
stray virtual interface at handle 7; nothing persisted, nothing failing. -/
def freshVpp : Vpp :=
  { label := "vpp1"
    ifaces := [(0, local0), (3, gigabit), (7, hostEth1)]
    snapshot := []
    pendingAfPackets := []
    dumpError := none
    persistError := none
    undeletable := []
    rejected := [] }

/-- A plugin right after start on `freshVpp`: empty registry, no pass done yet. -/
def freshPlugin : InterfaceConfigurator Vpp :=
  { swIfIndexes := [], resyncDoneOnce := false, vpp := freshVpp }

/-- The same start, on a forwarder that refuses to remove handle 7 and to program `eth1`. -/
def failingPlugin : InterfaceConfigurator Vpp :=
  { swIfIndexes := []
    resyncDoneOnce := false
    vpp := { freshVpp with undeletable := [7], rejected := ["eth1"] } }

/-- The same start, with the af-packet `eth0` pending. -/
def pendingPlugin : InterfaceConfigurator Vpp :=
  { swIfIndexes := [], resyncDoneOnce := false, vpp := { freshVpp with pendingAfPackets := ["eth0"] } }

/-- A restart: the previous run persisted `eth0` at handle 5, and handle 5 is still live. -/
def restartedPlugin : InterfaceConfigurator Vpp :=
  { swIfIndexes := []
    resyncDoneOnce := false
    vpp := { freshVpp with
      ifaces := [(0, local0), (5, hostEth0), (7, hostEth1)]
      snapshot := [{ name := "eth0", idx := 5, metadata := some eth0 }] } }

/-- The same restart, with the af-packet `eth0` pending. -/
def restartedPendingPlugin : InterfaceConfigurator Vpp :=
  { restartedPlugin with vpp := { restartedPlugin.vpp with pendingAfPackets := ["eth0"] } }

/-- A start on a forwarder whose dump fails. -/
def unreachablePlugin : InterfaceConfigurator Vpp :=
  { freshPlugin with vpp := { freshVpp with dumpError := some "dump failed" } }

/-- A start on a host where the snapshot cannot be saved. -/
def unwritablePlugin : InterfaceConfigurator Vpp :=
  { freshPlugin with vpp := { freshVpp with persistError := some "save failed" } }

/-- The scenario of the specification: the loopback at handle 0 and a stray virtual interface
at handle 7, an empty registry, no pass done yet, nothing persisted, nothing failing. -/
def examplePlugin : InterfaceConfigurator Vpp :=
  { swIfIndexes := []
    resyncDoneOnce := false
    vpp := { freshVpp with ifaces := [(0, local0), (7, hostEth1)] } }

/-- A restart after which the handle persisted for `eth0` is gone from the forwarder. -/
def stalePlugin : InterfaceConfigurator Vpp :=
  { swIfIndexes := []
    resyncDoneOnce := false
    vpp := { freshVpp with
      ifaces := [(0, local0), (7, hostEth1)]
      snapshot := [{ name := "eth0", idx := 5, metadata := some eth0 }] } }

/-- The restart of `restartedPlugin` on a forwarder that rejects every change to `eth0`. -/
def rejectingPlugin : InterfaceConfigurator Vpp :=
  { restartedPlugin with vpp := { restartedPlugin.vpp with rejected := ["eth0"] } }

/-- A plugin whose first pass is done and whose registry holds `eth1` at handle 7, on the
fresh forwarder. -/
def laterPlugin : InterfaceConfigurator Vpp :=
  { swIfIndexes := [{ name := "eth1", idx := 7, metadata := some eth1 }]
    resyncDoneOnce := true
    vpp := freshVpp }

/-- The order of the configurator calls of a pass: `b` may be called after `a` when `b` being
a delete excludes `a` being a modify or a create, and `b` being a modify excludes `a` being a
create. -/
def Call.mayPrecede (a b : Call) : Prop :=
  (b.isDelete = true → a.isModify = false ∧ a.isCreate = false) ∧
    (b.isModify = true → a.isCreate = false)

/-- The pass at the moment the loop of Step 3 has gone through the first interfaces `done`
of the desired list `nbIfaces` and is about to take the next one: the same steps as `Resync`,
cut there. -/
def passBefore {ω : Type} (env : Collaborators ω) (nbIfaces done : List Interfaces_Interface)
    (plugin : InterfaceConfigurator ω) : Pass ω :=
  match env.DumpInterfaces plugin.vpp with
  | Except.error e =>
    { plugin := plugin, wasError := some e, trace := [⟨Call.DumpInterfaces, some e⟩] }
  | Except.ok vppIfaces =>
    match step1 env nbIfaces
      { plugin := plugin, wasError := none, trace := [⟨Call.DumpInterfaces, none⟩] } with
    | Step1.aborted e p => { p with wasError := some e }
    | Step1.correlated corr p =>
      (step3 env corr vppIfaces done (step2 env corr vppIfaces { p with wasError := none }) []).1

/-- What the comment of Step 1 announces for a first pass whose dump and save succeed: every
entry of the correlation registry has a handle that is a key of the dump. -/
def CorrelationLive {ω : Type} (env : Collaborators ω) (nbIfaces : List Interfaces_Interface)
    (plugin : InterfaceConfigurator ω) : Prop :=
  plugin.resyncDoneOnce = false →
  (env.Marshalling (env.GetAgentLabel plugin.vpp) plugin.swIfIndexes plugin.vpp).err = none →
  ∀ vppIfaces, env.DumpInterfaces plugin.vpp = Except.ok vppIfaces →
    ∀ e ∈ correlation env nbIfaces plugin, (lookupDump vppIfaces e.idx).isSome = true

/-! ## The BFD configurator (data_resync.go, lines 129-177) -/

/-- The methods of `BFDConfigurator` that the two resync methods call and whose bodies are not
part of the embedded file, over an arbitrary plugin state; the session and key types
(`bfd.SingleHopBFD_Session`, `bfd.SingleHopBFD_Key`) are parameters. -/
structure BFDCollaborators (ω Session Key : Type) where
  LookupBfdSessions : ω → Option Err × ω
  ConfigureBfdSession : Session → ω → Option Err × ω
  LookupBfdKeys : ω → Option Err × ω
  ConfigureBfdAuthKey : Key → ω → Option Err × ω

/-- The calls the BFD resync methods make, with their arguments. -/
inductive BFDCall (Session Key : Type) where
  | LookupBfdSessions
  | ConfigureBfdSession (bfdSession : Session)
  | LookupBfdKeys
  | ConfigureBfdAuthKey (bfdKey : Key)
deriving DecidableEq, Repr

/-- A BFD call together with the error it returned. -/
structure BFDEvent (Session Key : Type) where
  call : BFDCall Session Key
  result : Option Err
deriving DecidableEq, Repr

/-- The running state of a BFD resync: the plugin, `wasError` (the returned error at the end)
and the trace of the calls made so far. -/
structure BFDPass (ω Session Key : Type) where
  plugin : ω
  wasError : Option Err
  trace : List (BFDEvent Session Key)

/-- The loop of `ResyncSession`, lines 142-147. -/
def configureSessions {ω Session Key : Type} (env : BFDCollaborators ω Session Key) :
    List Session → BFDPass ω Session Key → BFDPass ω Session Key
  | [], p => p
  | bfdSession :: rest, p =>
    configureSessions env rest
      { plugin := (env.ConfigureBfdSession bfdSession p.plugin).2
        wasError := recordError p.wasError (env.ConfigureBfdSession bfdSession p.plugin).1
        trace := p.trace ++ [⟨BFDCall.ConfigureBfdSession bfdSession,
          (env.ConfigureBfdSession bfdSession p.plugin).1⟩] }

/-- The method `BFDConfigurator.ResyncSession`, lines 130-152. -/
def ResyncSession {ω Session Key : Type} (env : BFDCollaborators ω Session Key)
    (bfds : List Session) (plugin : ω) : BFDPass ω Session Key :=
  match (env.LookupBfdSessions plugin).1 with
  | some err =>
    { plugin := (env.LookupBfdSessions plugin).2
      wasError := some err
      trace := [⟨BFDCall.LookupBfdSessions, some err⟩] }
  | none =>
    configureSessions env bfds
      { plugin := (env.LookupBfdSessions plugin).2
        wasError := none
        trace := [⟨BFDCall.LookupBfdSessions, none⟩] }

/-- The loop of `ResyncAuthKey`, lines 167-172. -/
def configureAuthKeys {ω Session Key : Type} (env : BFDCollaborators ω Session Key) :
    List Key → BFDPass ω Session Key → BFDPass ω Session Key
  | [], p => p
  | bfdKey :: rest, p =>
    configureAuthKeys env rest
      { plugin := (env.ConfigureBfdAuthKey bfdKey p.plugin).2
        wasError := recordError p.wasError (env.ConfigureBfdAuthKey bfdKey p.plugin).1
        trace := p.trace ++ [⟨BFDCall.ConfigureBfdAuthKey bfdKey,
          (env.ConfigureBfdAuthKey bfdKey p.plugin).1⟩] }

/-- The method `BFDConfigurator.ResyncAuthKey`, lines 155-177. -/
def ResyncAuthKey {ω Session Key : Type} (env : BFDCollaborators ω Session Key)
    (bfds : List Key) (plugin : ω) : BFDPass ω Session Key :=
  match (env.LookupBfdKeys plugin).1 with
  | some err =>
    { plugin := (env.LookupBfdKeys plugin).2
      wasError := some err
      trace := [⟨BFDCall.LookupBfdKeys, some err⟩] }
  | none =>
    configureAuthKeys env bfds
      { plugin := (env.LookupBfdKeys plugin).2
        wasError := none
        trace := [⟨BFDCall.LookupBfdKeys, none⟩] }

/-- The most recent error of a sequence of results, nil if none failed. -/
def mostRecentError (results : List (Option Err)) : Option Err :=
  results.foldl recordError none

/-- What the specification asks of a BFD resync whose lookup succeeded: one configure call per
desired object, in input order, after the lookup; the returned error is the most recent error
of these calls, nil exactly when none failed, and otherwise the error of a call after which
every call succeeded. -/
def ConfiguresAll {Session Key : Type} (lookup : BFDCall Session Key)
    (configure : List (BFDCall Session Key)) (wasError : Option Err)
    (trace : List (BFDEvent Session Key)) : Prop :=
  trace.map BFDEvent.call = lookup :: configure ∧
  wasError = mostRecentError ((trace.drop 1).map BFDEvent.result) ∧
  (wasError = none ↔ ∀ e ∈ trace.drop 1, e.result = none) ∧
  (∀ err, wasError = some err → ∃ before x after,
    trace.drop 1 = before ++ x :: after ∧ x.result = some err ∧ ∀ y ∈ after, y.result = none)

/-- A BFD plugin state to run the resync against: whether the lookup fails, and the names
whose configuration the forwarder rejects. -/
structure BfdVpp where
  lookupError : Option Err
  rejected : List String
deriving DecidableEq, Repr

/-- The BFD collaborators over `BfdVpp`; sessions and keys are identified by a name. -/
def bfdCollaborators : BFDCollaborators BfdVpp String String where
  LookupBfdSessions := fun w => (w.lookupError, w)
  ConfigureBfdSession := fun s w =>
    (if s ∈ w.rejected then some ("session rejected: " ++ s) else none, w)
  LookupBfdKeys := fun w => (w.lookupError, w)
  ConfigureBfdAuthKey := fun k w =>
    (if k ∈ w.rejected then some ("key rejected: " ++ k) else none, w)

end ifplugin

/-! # SQL expressions (vendor/github.com/ligato/cn-infra/db/sql/sql_expression.go) -/

namespace sql

/-- Values of type `interface{}` (bindings, pointers to fields), represented by what
`fmt.Sprint` prints for them. -/
abbrev Value := String

/-- The implementations of the interface `Expression` in the file: `PrefixedExp` and
`FieldExpression`; the nil interface value of a field is `none`. -/
inductive Expression where
  | PrefixedExp (Prefix : String) (AfterPrefix : Option Expression) (Suffix : String)
      (Binding : List Value)
  | FieldExpression (PointerToAField : Value) (AfterField : Option Expression)
deriving Repr

/-- A label for a node: its prefix, or the field it addresses. -/
def Expression.label : Expression → String
  | Expression.PrefixedExp p _ _ _ => p
  | Expression.FieldExpression f _ => f

/-- The methods `PrefixedExp.String`, lines 50-55, and `FieldExpression.String`,
lines 74-80. -/
def Expression.String : Expression → String
  | Expression.PrefixedExp p none _ _ => p
  | Expression.PrefixedExp p (some afterPrefix) _ _ => p ++ " " ++ afterPrefix.String
  | Expression.FieldExpression f none => "<field on " ++ f ++ ">"
  | Expression.FieldExpression f (some afterField) =>
    "<field on " ++ f ++ ">" ++ " " ++ afterField.String

/-- The methods `PrefixedExp.GetBinding`, lines 58-60, and `FieldExpression.GetBinding`,
lines 83-85. -/
def Expression.GetBinding : Expression → List Value
  | Expression.PrefixedExp _ _ _ binding => binding
  | Expression.FieldExpression _ _ => []

/-- The interface `Visitor`, lines 35-38: two methods acting on the state of the visitor. -/
structure Visitor (σ : Type) where
  VisitPrefixedExp : Expression → σ → σ
  VisitFieldExpression : Expression → σ → σ

/-- The calls the body of an `Accept` method can make. -/
inductive AcceptCall where
  | VisitPrefixedExp (exp : Expression)
  | VisitFieldExpression (exp : Expression)
  | Accept (exp : Expression)
deriving Repr

/-- The methods `PrefixedExp.Accept`, lines 63-65, and `FieldExpression.Accept`, lines 88-90:
the state of the visitor afterwards and the calls the body made. -/
def Expression.Accept {σ : Type} (exp : Expression) (visitor : Visitor σ) (s : σ) :
    σ × List AcceptCall :=
  match exp with
  | Expression.PrefixedExp _ _ _ _ =>
    (visitor.VisitPrefixedExp exp s, [AcceptCall.VisitPrefixedExp exp])
  | Expression.FieldExpression _ _ =>
    (visitor.VisitFieldExpression exp s, [AcceptCall.VisitFieldExpression exp])

/-- The function `WHERE`, lines 103-105. -/
def WHERE (afterKeyword : Option Expression) : Expression :=
  Expression.PrefixedExp "WHERE" afterKeyword "" []

/-- The function `Exp`, lines 116-118. -/
def Exp (statement : String) (binding : List Value) : Expression :=
  Expression.PrefixedExp statement none "" binding

/-- The function `AND`, lines 125-127. -/
def AND (rigthOperand : Option Expression) : Expression :=
  Expression.PrefixedExp "AND" rigthOperand "" []

/-- The function `Field`, lines 143-145. -/
def Field (pointerToAField : Value) (rigthOperand : Option Expression) : Expression :=
  Expression.FieldExpression pointerToAField rigthOperand

/-- The function `EQ`, lines 168-170. -/
def EQ (binding : Value) : Expression :=
  Expression.PrefixedExp "=" (some (Exp "?" [binding])) "" []

/-- The function `Parenthesis`, lines 173-175. -/
def Parenthesis (inside : Option Expression) : Expression :=
  Expression.PrefixedExp "(" inside ")" []

/-- The nodes of the chain that starts at an expression: the expression, then what follows
its prefix or its field, and so on. -/
def Expression.chain : Expression → List Expression
  | Expression.PrefixedExp p none suffix binding => [Expression.PrefixedExp p none suffix binding]
  | Expression.PrefixedExp p (some afterPrefix) suffix binding =>
    Expression.PrefixedExp p (some afterPrefix) suffix binding :: afterPrefix.chain
  | Expression.FieldExpression f none => [Expression.FieldExpression f none]
  | Expression.FieldExpression f (some afterField) =>
    Expression.FieldExpression f (some afterField) :: afterField.chain

/-- A visitor that writes down the label of every node it is shown and does nothing else. -/
def recorder : Visitor (List String) where
  VisitPrefixedExp := fun exp s => s ++ [exp.label]
  VisitFieldExpression := fun exp s => s ++ [exp.label]

/-- What the comments of the two `Accept` methods announce for an expression that has
something after its prefix or field: the body calls the visit method on the expression and
`Accept` on what follows. -/
def AcceptDescends (exp : Expression) : Prop :=
  ∀ (σ : Type) (visitor : Visitor σ) (s : σ),
    match exp with
    | Expression.PrefixedExp _ (some afterPrefix) _ _ =>
      AcceptCall.VisitPrefixedExp exp ∈ (exp.Accept visitor s).2 ∧
        AcceptCall.Accept afterPrefix ∈ (exp.Accept visitor s).2
    | Expression.FieldExpression _ (some afterField) =>
      AcceptCall.VisitFieldExpression exp ∈ (exp.Accept visitor s).2 ∧
        AcceptCall.Accept afterField ∈ (exp.Accept visitor s).2
    | _ => True

/-- One `Accept` call shows the recorder every node of the chain of the expression. -/
def VisitsChain (exp : Expression) : Prop :=
  (exp.Accept recorder []).1 = exp.chain.map Expression.label

/-- The rendering of `Parenthesis(inside)` starts with "(", contains the rendering of
`inside` and ends with ")". -/
def ParenthesisSurrounds (inside : Expression) : Prop :=
  ∃ before after : List Char,
    (Parenthesis (some inside)).String.data =
      ['('] ++ before ++ inside.String.data ++ after ++ [')']

end sql

/-! # The phonebook editor (vendor/.../etcdv3/examples/phonebook/editor/editor.go) -/

namespace editor

/-- The constant `Put`, line 17. -/
def Put : Nat := 0

/-- The constant `PutTxn`, line 19. -/
def PutTxn : Nat := 1

/-- The constant `Delete`, line 21. -/
def Delete : Nat := 2

/-- The two functions `processArgs` calls to read the configuration and whose bodies are not
part of the embedded file; the configuration types are parameters. -/
structure ConfigReaders (Config ClientConfig : Type) where
  ParseConfigFromYamlFile : String → Except String Config
  ConfigToClientv3 : Config → Except String ClientConfig

/-- The four results of `processArgs`; a nil pointer or nil error is `none`, a nil slice is
the empty list. -/
structure Processed (ClientConfig : Type) where
  cfg : Option ClientConfig
  op : Nat
  data : List String
  err : Option String

/-- The end of `processArgs`, lines 50-60, once `cfg` and `task` are set. -/
def checkTask {ClientConfig : Type} (cfg : Option ClientConfig) (task : List String) :
    Processed ClientConfig :=
  if task.length < 2 || (decide (task[0]? = some "put") && decide (task.length < 4)) then
    { cfg := cfg, op := 0, data := [], err := some "incorrect arguments" }
  else
    { cfg := cfg
      op := if task[0]? = some "delete" then Delete
            else if task[0]? = some "puttxn" then PutTxn
            else Put
      data := task.drop 1
      err := none }

/-- The function `processArgs`, lines 24-61, on the argument vector `os.Args`.  When one of
the two readers fails, the bare `return` hands back the error with a nil `cfg`, the default
`op` and a nil `data`. -/
def processArgs {Config ClientConfig : Type} (env : ConfigReaders Config ClientConfig)
    (Args : List String) : Processed ClientConfig :=
  if Args.length > 2 then
    if Args[1]? = some "--cfg" then
      match env.ParseConfigFromYamlFile (Args.getD 2 "") with
      | Except.error e => { cfg := none, op := Put, data := [], err := some e }
      | Except.ok fileConfig =>
        match env.ConfigToClientv3 fileConfig with
        | Except.error e => { cfg := none, op := Put, data := [], err := some e }
        | Except.ok cfg => checkTask (some cfg) (Args.drop 3)
    else checkTask none (Args.drop 1)
  else { cfg := none, op := 0, data := [], err := some "incorrect arguments" }

/-- The indexes of `data` that `main` reads for an operation, lines 123-132: `put` reads
`data[0]`, `data[1]` and `data[2]` (line 68), the other two operations read `data[0]`. -/
def mainReads (op : Nat) : List Nat :=
  if op = Put then [0, 1, 2]
  else if op = PutTxn then [0]
  else if op = Delete then [0]
  else []

/-- Readers that accept every file. -/
def anyReaders : ConfigReaders Unit Unit where
  ParseConfigFromYamlFile := fun _ => Except.ok ()
  ConfigToClientv3 := fun _ => Except.ok ()

/-- Every read `main` makes of `data` is within its bounds, when `processArgs` returned a nil
error. -/
def IndexingSafe {ClientConfig : Type} (r : Processed ClientConfig) : Prop :=
  r.err = none → ∀ i ∈ mainReads r.op, i < r.data.length

/-- The dereference `*cfg` of `main`, line 114, is of a non-nil pointer, when `processArgs`
returned a nil error. -/
def ConfigUsable {ClientConfig : Type} (r : Processed ClientConfig) : Prop :=
  r.err = none → r.cfg.isSome = true

end editor

namespace ifplugin

/-! ## Lemmas on traces and registries -/


theorem lastErrorFrom_append (init : Option Err) (s t : List Event) :
    lastErrorFrom init (s ++ t) = lastErrorFrom (lastErrorFrom init s) t := by
  simp [lastErrorFrom, List.foldl_append]

theorem configuratorCalls_append (s t : List Event) :
    configuratorCalls (s ++ t) = configuratorCalls s ++ configuratorCalls t := by
  simp [configuratorCalls]

theorem Emits.refl {ω : Type} (p : Pass ω) : Emits p p [] :=
  ⟨by simp, by simp [lastErrorFrom], rfl, by simp⟩

theorem Emits.trans {ω : Type} {p q r : Pass ω} {s t : List Event} (h₁ : Emits p q s) (h₂ : Emits q r t) :
    Emits p r (s ++ t) := by
  refine ⟨?_, ?_, ?_, ?_⟩
  · rw [h₂.trace_eq, h₁.trace_eq, List.append_assoc]
  · rw [h₂.error_eq, h₁.error_eq, lastErrorFrom_append]
  · rw [h₂.flag_eq, h₁.flag_eq]
  · intro e he
    rcases List.mem_append.mp he with h | h
    · exact h₁.kinds e h
    · exact h₂.kinds e h

theorem emits_register {ω : Type} (p : Pass ω) (n : String) (i : Nat) (m : Option Interfaces_Interface) :
    Emits p (p.register n i m) [⟨Call.RegisterName n i m, none⟩] :=
  ⟨rfl, by simp [Pass.register, lastErrorFrom, recordError], rfl, by simp [Call.isRegister]⟩

theorem emits_invoke {ω : Type} (p : Pass ω) (c : Call) (o : Outcome ω) (hc : c.isConfigurator = true) :
    Emits p (p.invoke c o) [⟨c, o.err⟩] :=
  ⟨rfl, by simp [Pass.invoke, lastErrorFrom], rfl, by simp [hc]⟩

theorem step2Body_emits {ω : Type} (env : Collaborators ω) (corr : NameToIdx) (p : Pass ω)
    (kv : Nat × Interface) :
    ∃ t, Emits p (step2Body env corr p kv.1 kv.2) t ∧
      configuratorCalls t = expectedDeletes corr [kv] := by
  unfold step2Body
  by_cases h0 : kv.1 = 0
  · exact ⟨_, by simpa [h0] using emits_register p _ _ _, by
      simp [configuratorCalls, expectedDeletes, obsolete, h0, Call.isConfigurator, Call.isDelete,
        Call.isModify, Call.isCreate]⟩
  · by_cases h1 : kv.2.Type_ = InterfaceType.ETHERNET_CSMACD
    · exact ⟨_, by simpa [h0, h1] using emits_register p _ _ _, by
        simp [configuratorCalls, expectedDeletes, obsolete, h1, Call.isConfigurator,
          Call.isDelete, Call.isModify, Call.isCreate]⟩
    · by_cases h2 : (LookupName corr kv.1).2.2 = true
      · exact ⟨[], by simpa [h0, h1, h2] using Emits.refl p, by
          simp [configuratorCalls, expectedDeletes, obsolete, h2]⟩
      · simp only [Bool.not_eq_true] at h2
        exact ⟨_, by simpa [h0, h1, h2] using emits_invoke p (Call.deleteVPPInterface kv.2.Interfaces_Interface kv.1) _ rfl, by
          simp [configuratorCalls, expectedDeletes, obsolete, h0, h1, h2, Call.isConfigurator,
            Call.isDelete]⟩

theorem expectedDeletes_cons (corr : NameToIdx) (kv : Nat × Interface)
    (L : List (Nat × Interface)) :
    expectedDeletes corr (kv :: L) = expectedDeletes corr [kv] ++ expectedDeletes corr L := by
  simp only [expectedDeletes, ← List.map_append, ← List.filter_append, List.singleton_append]

theorem step2_emits {ω : Type} (env : Collaborators ω) (corr : NameToIdx) (L : List (Nat × Interface)) :
    ∀ p : Pass ω, ∃ t, Emits p (step2 env corr L p) t ∧
      configuratorCalls t = expectedDeletes corr L := by
  induction L with
  | nil => intro p; exact ⟨[], Emits.refl p, rfl⟩
  | cons kv L ih =>
    intro p
    obtain ⟨s, hs, hcs⟩ := step2Body_emits env corr p kv
    obtain ⟨t, ht, hct⟩ := ih (step2Body env corr p kv.1 kv.2)
    refine ⟨s ++ t, ?_, ?_⟩
    · simpa [step2] using hs.trans ht
    · rw [configuratorCalls_append, hcs, hct, ← expectedDeletes_cons]


theorem step3Modify_emits {ω : Type} (env : Collaborators ω) (p : Pass ω) (d : Interfaces_Interface)
    (h : Nat) (v : Interface) :
    ∃ t, Emits p (step3Modify env p d h v) t ∧
      configuratorCalls t = [Call.modifyVPPInterface d v.Interfaces_Interface h v.Type_] := by
  have hm := emits_invoke p (Call.modifyVPPInterface d v.Interfaces_Interface h v.Type_)
    (env.modifyVPPInterface d v.Interfaces_Interface h v.Type_ p.plugin.swIfIndexes p.plugin.vpp)
    rfl
  unfold step3Modify
  simp only []
  split
  · exact ⟨_, hm.trans (emits_register _ _ _ _), by
      simp [configuratorCalls, Call.isConfigurator, Call.isDelete, Call.isModify, Call.isCreate]⟩
  · exact ⟨_, hm, by simp [configuratorCalls, Call.isConfigurator, Call.isModify]⟩

theorem classify_cases (corr : NameToIdx) (L : List (Nat × Interface))
    (d : Interfaces_Interface) :
    (∃ v, (LookupIdx corr d.Name).2.2 = true ∧
        lookupDump L (LookupIdx corr d.Name).1 = some v ∧
        classify corr L d =
          Call.modifyVPPInterface d v.Interfaces_Interface (LookupIdx corr d.Name).1 v.Type_) ∨
      (((LookupIdx corr d.Name).2.2 = false ∨ lookupDump L (LookupIdx corr d.Name).1 = none) ∧
        classify corr L d = Call.ConfigureVPPInterface d) := by
  unfold classify
  cases hf : (LookupIdx corr d.Name).2.2 <;>
    cases hd : lookupDump L (LookupIdx corr d.Name).1 <;> simp

theorem step3_emits {ω : Type} (env : Collaborators ω) (corr : NameToIdx) (L : List (Nat × Interface))
    (D : List Interfaces_Interface) :
    ∀ (p : Pass ω) (tb : List Interfaces_Interface),
      ∃ t, Emits p (step3 env corr L D p tb).1 t ∧
        configuratorCalls t = expectedModifies corr L D ∧
        (step3 env corr L D p tb).2 =
          tb ++ D.filter (fun d => (classify corr L d).isCreate) := by
  induction D with
  | nil => intro p tb; exact ⟨[], Emits.refl p, rfl, by simp [step3]⟩
  | cons d D ih =>
    intro p tb
    rcases classify_cases corr L d with ⟨v, hf, hd, hc⟩ | ⟨hno, hc⟩
    · obtain ⟨s, hs, hcs⟩ := step3Modify_emits env p d (LookupIdx corr d.Name).1 v
      obtain ⟨t, ht, hct, htb⟩ := ih (step3Modify env p d (LookupIdx corr d.Name).1 v) tb
      refine ⟨s ++ t, ?_, ?_, ?_⟩
      · simpa [step3, hf, hd] using hs.trans ht
      · rw [configuratorCalls_append, hcs, hct]
        simp [expectedModifies, hc, Call.isModify]
      · simp only [step3, hf, hd]
        rw [htb]
        simp [hc, Call.isCreate]
    · obtain ⟨t, ht, hct, htb⟩ := ih p (tb ++ [d])
      have hstep : step3 env corr L (d :: D) p tb = step3 env corr L D p (tb ++ [d]) := by
        rcases hno with hf | hd
        · simp [step3, hf]
        · cases hf : (LookupIdx corr d.Name).2.2 <;> simp [step3, hf, hd]
      refine ⟨t, ?_, ?_, ?_⟩
      · rw [hstep]; exact ht
      · rw [hct]; simp [expectedModifies, hc, Call.isModify]
      · rw [hstep, htb]; simp [hc, Call.isCreate]

theorem step4_emits {ω : Type} (env : Collaborators ω) (l : List Interfaces_Interface) :
    ∀ p : Pass ω, ∃ t, Emits p (step4 env l p) t ∧
      configuratorCalls t = l.map Call.ConfigureVPPInterface := by
  induction l with
  | nil => intro p; exact ⟨[], Emits.refl p, rfl⟩
  | cons d l ih =>
    intro p
    have hs := emits_invoke p (Call.ConfigureVPPInterface d)
      (env.ConfigureVPPInterface d p.plugin.swIfIndexes p.plugin.vpp) rfl
    obtain ⟨t, ht, hct⟩ := ih (p.invoke (Call.ConfigureVPPInterface d)
      (env.ConfigureVPPInterface d p.plugin.swIfIndexes p.plugin.vpp))
    refine ⟨_ :: t, by simpa [step4] using hs.trans ht, ?_⟩
    simp only [configuratorCalls, List.map_cons, List.filter_cons] at hct ⊢
    simp [Call.isConfigurator, Call.isCreate, hct]

theorem expectedCreates_eq (corr : NameToIdx) (L : List (Nat × Interface))
    (D : List Interfaces_Interface) :
    expectedCreates corr L D =
      (D.filter (fun d => (classify corr L d).isCreate)).map Call.ConfigureVPPInterface := by
  induction D with
  | nil => rfl
  | cons d D ih =>
    simp only [expectedCreates, List.map_cons, List.filter_cons] at ih ⊢
    rcases classify_cases corr L d with ⟨v, _, _, hc⟩ | ⟨_, hc⟩
    · simp [hc, Call.isCreate, ih]
    · simp [hc, Call.isCreate, ih]

/-- The whole of Steps 2 to 4 emits exactly the prescribed configurator calls. -/
theorem reconcile_emits {ω : Type} (env : Collaborators ω) (corr : NameToIdx) (L : List (Nat × Interface))
    (D : List Interfaces_Interface) (p : Pass ω) :
    ∃ t, Emits { p with wasError := none } (reconcile env corr L D p) t ∧
      configuratorCalls t =
        expectedDeletes corr L ++ expectedModifies corr L D ++ expectedCreates corr L D := by
  obtain ⟨t2, h2, hc2⟩ := step2_emits env corr L { p with wasError := none }
  obtain ⟨t3, h3, hc3, htb⟩ := step3_emits env corr L D (step2 env corr L { p with wasError := none }) []
  obtain ⟨t4, h4, hc4⟩ := step4_emits env
    (step3 env corr L D (step2 env corr L { p with wasError := none }) []).2
    (step3 env corr L D (step2 env corr L { p with wasError := none }) []).1
  refine ⟨t2 ++ t3 ++ t4, (h2.trans h3).trans h4, ?_⟩
  rw [configuratorCalls_append, configuratorCalls_append, hc2, hc3, hc4, htb,
    expectedCreates_eq]
  simp


theorem lastErrorFrom_filter (f : Event → Bool) (t : List Event)
    (h : ∀ e ∈ t, f e = false → e.result = none) :
    ∀ init, lastErrorFrom init (t.filter f) = lastErrorFrom init t := by
  induction t with
  | nil => intro init; rfl
  | cons e t ih =>
    intro init
    have ih2 := ih (fun x hx => h x (List.mem_cons_of_mem _ hx))
    cases hf : f e
    · have hr := h e (List.mem_cons_self _ _) hf
      simp only [List.filter_cons, hf, lastErrorFrom, List.foldl_cons, hr, recordError] at ih2 ⊢
      simpa using ih2 init
    · simp only [List.filter_cons, hf, lastErrorFrom, List.foldl_cons] at ih2 ⊢
      simpa using ih2 _

/-- What Step 1 leaves behind when the persistence step does not fail. -/
theorem step1_correlated {ω : Type} (env : Collaborators ω) (D : List Interfaces_Interface) (p : Pass ω)
    (hp : PersistenceSucceeds env p.plugin) :
    ∃ q pre, step1 env D p = Step1.correlated (correlation env D p.plugin) q ∧
      q.wasError = p.wasError ∧ q.plugin.swIfIndexes = p.plugin.swIfIndexes ∧
      q.plugin.resyncDoneOnce = true ∧ q.trace = p.trace ++ pre ∧
      (p.plugin.resyncDoneOnce = true → q = p) ∧
      ∀ e ∈ pre, e.call.isConfigurator = false ∧ e.call.isRegister = false ∧ e.result = none := by
  cases hflag : p.plugin.resyncDoneOnce
  · rcases hp with hp | hp
    · rw [hflag] at hp; exact absurd hp (by simp)
    · refine ⟨{ plugin := { p.plugin with
                    vpp := (env.Marshalling (env.GetAgentLabel p.plugin.vpp) p.plugin.swIfIndexes
                      p.plugin.vpp).vpp
                    resyncDoneOnce := true }
                wasError := p.wasError
                trace := p.trace ++
                  [⟨Call.Marshalling (env.GetAgentLabel p.plugin.vpp) p.plugin.swIfIndexes,
                    none⟩] },
        [⟨Call.Marshalling (env.GetAgentLabel p.plugin.vpp) p.plugin.swIfIndexes, none⟩],
        ?_, rfl, rfl, rfl, rfl, ?_, ?_⟩
      · simp [step1, correlation, hflag, hp]
      · intro h; exact absurd h (by simp)
      · simp [Call.isConfigurator, Call.isDelete, Call.isModify, Call.isCreate, Call.isRegister]
  · refine ⟨p, [], ?_, rfl, rfl, hflag, by simp, fun _ => rfl, by simp⟩
    simp [step1, correlation, hflag]

/-- The shape of a pass that is not aborted: a prefix holding the dump (and the save, on a
first pass), both successful, then the events of Steps 2 to 4. -/
theorem resync_emits {ω : Type} (env : Collaborators ω) (D : List Interfaces_Interface)
    (plugin : InterfaceConfigurator ω) (L : List (Nat × Interface))
    (hdump : env.DumpInterfaces plugin.vpp = Except.ok L)
    (hp : PersistenceSucceeds env plugin) :
    ∃ pre t, (Resync env D plugin).trace = pre ++ t ∧
      (∀ e ∈ pre, e.call.isConfigurator = false ∧ e.call.isRegister = false ∧ e.result = none) ∧
      (∀ e ∈ t, e.call.isConfigurator = true ∨ (e.call.isRegister = true ∧ e.result = none)) ∧
      configuratorCalls t =
        expectedDeletes (correlation env D plugin) L ++
          expectedModifies (correlation env D plugin) L D ++
          expectedCreates (correlation env D plugin) L D ∧
      (Resync env D plugin).wasError = lastError t ∧
      (Resync env D plugin).plugin.resyncDoneOnce = true := by
  obtain ⟨q, pre, hq, -, -, hflag, htr, -, hpre⟩ := step1_correlated env D
    { plugin := plugin, wasError := none, trace := [⟨Call.DumpInterfaces, none⟩] } hp
  obtain ⟨t, ht, hct⟩ := reconcile_emits env (correlation env D plugin) L D q
  refine ⟨⟨Call.DumpInterfaces, none⟩ :: pre, t, ?_, ?_, ht.kinds, hct, ?_, ?_⟩
  · simp only [Resync, hdump, hq]
    rw [ht.trace_eq]
    simp [htr]
  · intro e he
    rcases List.mem_cons.mp he with rfl | h
    · simp [Call.isConfigurator, Call.isDelete, Call.isModify, Call.isCreate, Call.isRegister]
    · exact hpre e h
  · simp only [Resync, hdump, hq]
    rw [ht.error_eq]
    rfl
  · simp only [Resync, hdump, hq]
    rw [ht.flag_eq]
    exact hflag

theorem configuratorCalls_eq_nil (t : List Event)
    (h : ∀ e ∈ t, e.call.isConfigurator = false) : configuratorCalls t = [] := by
  simp only [configuratorCalls, List.filter_eq_nil_iff, List.mem_map]
  rintro c ⟨e, he, rfl⟩
  simp [h e he]

/-- The configurator calls of a pass that is not aborted, in order. -/
theorem resync_calls {ω : Type} (env : Collaborators ω) (D : List Interfaces_Interface)
    (plugin : InterfaceConfigurator ω) (L : List (Nat × Interface))
    (hdump : env.DumpInterfaces plugin.vpp = Except.ok L)
    (hp : PersistenceSucceeds env plugin) :
    configuratorCalls (Resync env D plugin).trace =
      expectedDeletes (correlation env D plugin) L ++
        expectedModifies (correlation env D plugin) L D ++
        expectedCreates (correlation env D plugin) L D := by
  obtain ⟨pre, t, htr, hpre, -, hct, -, -⟩ := resync_emits env D plugin L hdump hp
  rw [htr, configuratorCalls_append, configuratorCalls_eq_nil pre (fun e he => (hpre e he).1), hct]
  rfl



theorem mem_RegisterName {r : NameToIdx} {n : String} {h : Nat}
    {m : Option Interfaces_Interface} {e : Entry} :
    e ∈ RegisterName r n h m ↔ e = ⟨n, h, m⟩ ∨ (e ∈ r ∧ e.name ≠ n ∧ e.idx ≠ h) := by
  simp [RegisterName, List.mem_filter]

theorem find?_filter_of_pass {α : Type} (p q : α → Bool) (l : List α)
    (h : ∀ x, l.find? p = some x → q x = true) : (l.filter q).find? p = l.find? p := by
  induction l with
  | nil => rfl
  | cons a l ih =>
    by_cases hp : p a = true
    · have hq : q a = true := h a (by simp [List.find?_cons, hp])
      simp [List.filter_cons, hq, List.find?_cons, hp]
    · have hp2 : p a = false := by simpa using hp
      have ih2 := ih (fun x hx => h x (by simpa [List.find?_cons, hp2] using hx))
      by_cases hq : q a = true
      · simp [List.filter_cons, hq, List.find?_cons, hp2, ih2]
      · simp [List.filter_cons, hq, List.find?_cons, hp2, ih2]

theorem hasName_iff {r : NameToIdx} {n : String} : HasName r n ↔ ∃ e ∈ r, e.name = n := by
  unfold HasName LookupIdx
  cases hf : r.find? (fun e => decide (e.name = n)) with
  | none =>
    simp only [Bool.false_eq_true, false_iff, not_exists, not_and]
    intro e he hn
    have := List.find?_eq_none.mp hf e he
    simp [hn] at this
  | some e =>
    simp only [true_iff]
    exact ⟨e, List.mem_of_find?_eq_some hf, by simpa using List.find?_some hf⟩

theorem mapsTo_iff {r : NameToIdx} {n : String} {h : Nat} :
    MapsTo r n h ↔ ∃ e, r.find? (fun e => decide (e.name = n)) = some e ∧ e.idx = h := by
  unfold MapsTo LookupIdx
  cases hf : r.find? (fun e => decide (e.name = n)) <;> simp

theorem MapsTo.hasName {r : NameToIdx} {n : String} {h : Nat} (hm : MapsTo r n h) :
    HasName r n := hm.2

theorem MapsTo.mem {r : NameToIdx} {n : String} {h : Nat} (hm : MapsTo r n h) :
    ∃ e ∈ r, e.name = n ∧ e.idx = h := by
  obtain ⟨e, hf, hi⟩ := mapsTo_iff.mp hm
  exact ⟨e, List.mem_of_find?_eq_some hf, by simpa using List.find?_some hf, hi⟩

theorem mapsTo_register_self (r : NameToIdx) (n : String) (h : Nat)
    (m : Option Interfaces_Interface) : MapsTo (RegisterName r n h m) n h := by
  simp [MapsTo, LookupIdx, RegisterName]

theorem mapsTo_register_other {r : NameToIdx} {n n' : String} {h h' : Nat}
    (m : Option Interfaces_Interface) (hm : MapsTo r n h) (hn : n' ≠ n) (hh : h' ≠ h) :
    MapsTo (RegisterName r n' h' m) n h := by
  obtain ⟨e, hf, hi⟩ := mapsTo_iff.mp hm
  have hname : e.name = n := by simpa using List.find?_some hf
  refine mapsTo_iff.mpr ⟨e, ?_, hi⟩
  have hne : ¬ n' = n := hn
  simp only [RegisterName, List.find?_cons, hne, decide_False]
  rw [find?_filter_of_pass _ _ _ ?_, hf]
  intro x hx
  rw [hf] at hx
  cases hx
  simp [hname, hi, Ne.symm hn, Ne.symm hh]

theorem hasName_register_self (r : NameToIdx) (n : String) (h : Nat)
    (m : Option Interfaces_Interface) : HasName (RegisterName r n h m) n :=
  (mapsTo_register_self r n h m).hasName

theorem hasName_register_fresh {r : NameToIdx} {n n' : String} {h' : Nat}
    (m : Option Interfaces_Interface) (hn : HasName r n) (hfresh : ∀ e ∈ r, e.idx ≠ h') :
    HasName (RegisterName r n' h' m) n := by
  by_cases hnn : n' = n
  · subst hnn; exact hasName_register_self r _ h' m
  · obtain ⟨e, he, hname⟩ := hasName_iff.mp hn
    exact hasName_iff.mpr ⟨e, mem_RegisterName.mpr (Or.inr ⟨he, by rw [hname]; exact Ne.symm hnn,
      hfresh e he⟩), hname⟩

theorem registryWF_nil : RegistryWF NewNameToIdx := List.Pairwise.nil

theorem registryWF_register {r : NameToIdx} (hr : RegistryWF r) (n : String) (h : Nat)
    (m : Option Interfaces_Interface) : RegistryWF (RegisterName r n h m) := by
  unfold RegistryWF RegisterName
  refine List.pairwise_cons.mpr ⟨?_, List.Pairwise.filter _ hr⟩
  intro e he
  have := (List.mem_filter.mp he).2
  simp only [ne_eq, Bool.and_eq_true, decide_eq_true_eq] at this
  exact ⟨fun h1 => this.1 h1.symm, fun h1 => this.2 h1.symm⟩

theorem registryWF_seed (l : List Entry) : ∀ r, RegistryWF r → RegistryWF (seed l r) := by
  induction l with
  | nil => intro r hr; exact hr
  | cons e l ih => intro r hr; exact ih _ (registryWF_register hr _ _ _)

theorem registryWF_correlate (tmp : NameToIdx) (D : List Interfaces_Interface) :
    ∀ c, RegistryWF c → RegistryWF (correlate tmp D c) := by
  induction D with
  | nil => intro c hc; exact hc
  | cons d D ih =>
    intro c hc
    unfold correlate
    simp only []
    split
    · exact ih _ (registryWF_register hc _ _ _)
    · exact ih _ hc

/-- In a well-formed registry, distinct names sit at distinct handles. -/
theorem RegistryWF.injective {r : NameToIdx} (hr : RegistryWF r) {n n' : String} {h h' : Nat}
    (hm : MapsTo r n h) (hm' : MapsTo r n' h') (hn : n ≠ n') : h ≠ h' := by
  obtain ⟨e, he, hen, hei⟩ := hm.mem
  obtain ⟨e', he', hen', hei'⟩ := hm'.mem
  have hne : e ≠ e' := by
    intro h1; apply hn; rw [← hen, ← hen', h1]
  have hsymm : Symmetric (fun a b : Entry => a.name ≠ b.name ∧ a.idx ≠ b.idx) :=
    fun a b hab => ⟨hab.1.symm, hab.2.symm⟩
  have := List.Pairwise.forall hsymm hr he he' hne
  rw [← hei, ← hei']
  exact this.2



theorem MapsTo.unique {r : NameToIdx} {n : String} {h h' : Nat} (hm : MapsTo r n h)
    (hm' : MapsTo r n h') : h = h' := by
  rw [← hm.1, ← hm'.1]

theorem recordError_eq_none {a b : Option Err} (h : recordError a b = none) :
    a = none ∧ b = none := by
  cases b <;> simp_all [recordError]

theorem step3Modify_vpp {ω : Type} (env : Collaborators ω) (p : Pass ω) (d : Interfaces_Interface)
    (h : Nat) (v : Interface) :
    (step3Modify env p d h v).plugin.vpp =
      (env.modifyVPPInterface d v.Interfaces_Interface h v.Type_ p.plugin.swIfIndexes
        p.plugin.vpp).vpp := by
  unfold step3Modify
  simp only []
  split <;> rfl

theorem step3Modify_registry {ω : Type} (env : Collaborators ω) (hc : ConfiguratorContract env)
    (p : Pass ω) (d : Interfaces_Interface) (h : Nat) (v : Interface) :
    ((step3Modify env p d h v).plugin.swIfIndexes = p.plugin.swIfIndexes ∨
      (step3Modify env p d h v).plugin.swIfIndexes =
        RegisterName p.plugin.swIfIndexes d.Name h (some d)) ∧
    (env.IsPendingAfPacket d (env.modifyVPPInterface d v.Interfaces_Interface h v.Type_
        p.plugin.swIfIndexes p.plugin.vpp).vpp = false →
      (step3Modify env p d h v).plugin.swIfIndexes =
        RegisterName p.plugin.swIfIndexes d.Name h (some d)) := by
  unfold step3Modify
  simp only []
  refine ⟨?_, ?_⟩
  · split
    · right; simp [Pass.register, Pass.invoke, hc.modify_registry]
    · left; simp [Pass.invoke, hc.modify_registry]
  · intro hp
    simp [Pass.invoke, hp, Pass.register, hc.modify_registry]

theorem classify_modify_of_mapsTo {corr : NameToIdx} {L : List (Nat × Interface)}
    {d : Interfaces_Interface} {h : Nat} (hm : MapsTo corr d.Name h)
    (hl : (lookupDump L h).isSome = true) : (classify corr L d).isCreate = false := by
  rcases classify_cases corr L d with ⟨v, _, _, hc⟩ | ⟨hno, _⟩
  · rw [hc]; rfl
  · rcases hno with hf | hd
    · rw [hm.2] at hf; exact absurd hf (by simp)
    · rw [hm.1] at hd; rw [hd] at hl; exact absurd hl (by simp)

/-- Step 3 leaves a correlated, dumped name registered at its correlated handle, once it is
there or as soon as a desired interface of that name is not pending. -/
theorem step3_mapsTo {ω : Type} (env : Collaborators ω) (hc : ConfiguratorContract env)
    (Inv : ω → Prop) (hpres : Preserves env Inv) (corr : NameToIdx)
    (hwf : RegistryWF corr) (L : List (Nat × Interface)) {n : String} {h : Nat}
    (hcorr : MapsTo corr n h) (hl : (lookupDump L h).isSome = true)
    (D : List Interfaces_Interface) :
    ∀ (p : Pass ω) (tb : List Interfaces_Interface), Inv p.plugin.vpp →
      (MapsTo p.plugin.swIfIndexes n h ∨
        ∃ d ∈ D, d.Name = n ∧ ∀ w, Inv w → env.IsPendingAfPacket d w = false) →
      MapsTo (step3 env corr L D p tb).1.plugin.swIfIndexes n h := by
  induction D with
  | nil =>
    intro p tb _ hyp
    rcases hyp with hm | ⟨d, hd, _⟩
    · simpa [step3] using hm
    · simp at hd
  | cons d D ih =>
    intro p tb hinv hyp
    rcases classify_cases corr L d with ⟨v, hf, hd, _⟩ | ⟨hno, hcl⟩
    · have hstep : step3 env corr L (d :: D) p tb =
          step3 env corr L D (step3Modify env p d (LookupIdx corr d.Name).1 v) tb := by
        simp [step3, hf, hd]
      rw [hstep]
      have hinv' : Inv (step3Modify env p d (LookupIdx corr d.Name).1 v).plugin.vpp := by
        rw [step3Modify_vpp]; exact hpres.modify _ _ _ _ _ _ hinv
      apply ih _ _ hinv'
      have hmd : MapsTo corr d.Name (LookupIdx corr d.Name).1 := ⟨rfl, hf⟩
      obtain ⟨hreg, hregnp⟩ := step3Modify_registry env hc p d (LookupIdx corr d.Name).1 v
      rcases hyp with hm | ⟨d', hd', hname, hnp⟩
      · left
        rcases hreg with hreg | hreg
        · rw [hreg]; exact hm
        · rw [hreg]
          by_cases hnn : d.Name = n
          · rw [hnn] at hmd ⊢
            rw [hmd.unique hcorr]
            exact mapsTo_register_self _ _ _ _
          · exact mapsTo_register_other _ hm hnn (hwf.injective hmd hcorr hnn)
      · rcases List.mem_cons.mp hd' with rfl | hmem
        · left
          rw [hregnp (hnp _ (hpres.modify _ _ _ _ _ _ hinv))]
          rw [hname] at hmd ⊢
          rw [hmd.unique hcorr]
          exact mapsTo_register_self _ _ _ _
        · right; exact ⟨d', hmem, hname, hnp⟩
    · have hstep : step3 env corr L (d :: D) p tb = step3 env corr L D p (tb ++ [d]) := by
        rcases hno with hf | hd
        · simp [step3, hf]
        · cases hf : (LookupIdx corr d.Name).2.2 <;> simp [step3, hf, hd]
      rw [hstep]
      apply ih _ _ hinv
      rcases hyp with hm | ⟨d', hd', hname, hnp⟩
      · left; exact hm
      · rcases List.mem_cons.mp hd' with rfl | hmem
        · have := classify_modify_of_mapsTo (d := d') (by rw [hname]; exact hcorr) hl
          rw [hcl] at this
          exact absurd this (by simp [Call.isCreate])
        · right; exact ⟨d', hmem, hname, hnp⟩

theorem step2_inv {ω : Type} (env : Collaborators ω) (Inv : ω → Prop) (hpres : Preserves env Inv)
    (corr : NameToIdx) (L : List (Nat × Interface)) :
    ∀ p : Pass ω, Inv p.plugin.vpp → Inv (step2 env corr L p).plugin.vpp := by
  induction L with
  | nil => intro p h; exact h
  | cons kv L ih =>
    intro p h
    simp only [step2]
    apply ih
    unfold step2Body
    simp only []
    split
    · exact h
    · split
      · exact h
      · split
        · exact hpres.delete _ _ _ _ h
        · exact h

theorem step3_inv {ω : Type} (env : Collaborators ω) (Inv : ω → Prop) (hpres : Preserves env Inv)
    (corr : NameToIdx) (L : List (Nat × Interface)) (D : List Interfaces_Interface) :
    ∀ (p : Pass ω) (tb : List Interfaces_Interface), Inv p.plugin.vpp →
      Inv (step3 env corr L D p tb).1.plugin.vpp := by
  induction D with
  | nil => intro p tb h; exact h
  | cons d D ih =>
    intro p tb h
    rcases classify_cases corr L d with ⟨v, hf, hd, _⟩ | ⟨hno, _⟩
    · have hstep : step3 env corr L (d :: D) p tb =
          step3 env corr L D (step3Modify env p d (LookupIdx corr d.Name).1 v) tb := by
        simp [step3, hf, hd]
      rw [hstep]
      apply ih
      rw [step3Modify_vpp]
      exact hpres.modify _ _ _ _ _ _ h
    · have hstep : step3 env corr L (d :: D) p tb = step3 env corr L D p (tb ++ [d]) := by
        rcases hno with hf | hd
        · simp [step3, hf]
        · cases hf : (LookupIdx corr d.Name).2.2 <;> simp [step3, hf, hd]
      rw [hstep]
      exact ih _ _ h

theorem step4_hasName {ω : Type} (env : Collaborators ω) (hc : ConfiguratorContract env) (n : String)
    (l : List Interfaces_Interface) :
    ∀ p : Pass ω, HasName p.plugin.swIfIndexes n →
      HasName (step4 env l p).plugin.swIfIndexes n := by
  induction l with
  | nil => intro p h; exact h
  | cons d l ih =>
    intro p h
    simp only [step4]
    apply ih
    simp only [Pass.invoke]
    rcases hc.create_registry d p.plugin.swIfIndexes p.plugin.vpp with hr | ⟨h', hfresh, hr⟩
    · rw [hr]; exact h
    · rw [hr]; exact hasName_register_fresh _ h hfresh

theorem step4_wasError {ω : Type} (env : Collaborators ω) (l : List Interfaces_Interface) :
    ∀ p : Pass ω, (step4 env l p).wasError = none → p.wasError = none := by
  induction l with
  | nil => intro p h; exact h
  | cons d l ih =>
    intro p h
    have := ih _ (by simpa [step4] using h)
    exact (recordError_eq_none this).1

/-- Step 4 registers every interface it creates, when every create succeeds and nothing is
pending. -/
theorem step4_adds {ω : Type} (env : Collaborators ω) (hc : ConfiguratorContract env)
    (Inv : ω → Prop) (hpres : Preserves env Inv) (l : List Interfaces_Interface) :
    ∀ p : Pass ω, Inv p.plugin.vpp → (step4 env l p).wasError = none →
      (∀ d ∈ l, ∀ w, Inv w → env.IsPendingAfPacket d w = false) →
      ∀ d ∈ l, HasName (step4 env l p).plugin.swIfIndexes d.Name := by
  induction l with
  | nil => intro p _ _ _ d hd; simp at hd
  | cons d l ih =>
    intro p hinv hok hnp d' hd'
    have hok' : (step4 env l (p.invoke (Call.ConfigureVPPInterface d)
        (env.ConfigureVPPInterface d p.plugin.swIfIndexes p.plugin.vpp))).wasError = none := by
      simpa [step4] using hok
    have herr := (recordError_eq_none (step4_wasError env l _ hok')).2
    have hinv' : Inv (env.ConfigureVPPInterface d p.plugin.swIfIndexes p.plugin.vpp).vpp :=
      hpres.create _ _ _ hinv
    rcases List.mem_cons.mp hd' with rfl | hmem
    · simp only [step4]
      apply step4_hasName env hc
      obtain ⟨h', _, hr⟩ := hc.create_success d' p.plugin.swIfIndexes p.plugin.vpp herr
        (hnp d' (List.mem_cons_self _ _) _ hinv')
      simp only [Pass.invoke]
      rw [hr]
      exact hasName_register_self _ _ _ _
    · simp only [step4]
      exact ih _ hinv' hok' (fun x hx => hnp x (List.mem_cons_of_mem _ hx)) d' hmem

theorem step4_mapsTo {ω : Type} (env : Collaborators ω) (hc : ConfiguratorContract env) {n : String}
    {h : Nat} (l : List Interfaces_Interface) (hl : ∀ d ∈ l, d.Name ≠ n) :
    ∀ p : Pass ω, MapsTo p.plugin.swIfIndexes n h →
      MapsTo (step4 env l p).plugin.swIfIndexes n h := by
  induction l with
  | nil => intro p hm; exact hm
  | cons d l ih =>
    intro p hm
    simp only [step4]
    apply ih (fun x hx => hl x (List.mem_cons_of_mem _ hx))
    simp only [Pass.invoke]
    rcases hc.create_registry d p.plugin.swIfIndexes p.plugin.vpp with hr | ⟨h', hfresh, hr⟩
    · rw [hr]; exact hm
    · rw [hr]
      obtain ⟨e, he, _, hei⟩ := hm.mem
      refine mapsTo_register_other _ hm (hl d (List.mem_cons_self _ _)) ?_
      rw [← hei]
      exact (hfresh e he).symm


/-! ## The passes that are aborted -/

theorem resync_dump_error {ω : Type} (env : Collaborators ω) (D : List Interfaces_Interface)
    (plugin : InterfaceConfigurator ω) (e : Err)
    (hdump : env.DumpInterfaces plugin.vpp = Except.error e) :
    Resync env D plugin =
      { plugin := plugin, wasError := some e, trace := [⟨Call.DumpInterfaces, some e⟩] } := by
  simp [Resync, hdump]

theorem resync_persist_error {ω : Type} (env : Collaborators ω) (D : List Interfaces_Interface)
    (plugin : InterfaceConfigurator ω) (L : List (Nat × Interface)) (e : Err)
    (hflag : plugin.resyncDoneOnce = false)
    (hdump : env.DumpInterfaces plugin.vpp = Except.ok L)
    (hm : (env.Marshalling (env.GetAgentLabel plugin.vpp) plugin.swIfIndexes plugin.vpp).err =
      some e) :
    Resync env D plugin =
      { plugin := { plugin with
          vpp := (env.Marshalling (env.GetAgentLabel plugin.vpp) plugin.swIfIndexes
            plugin.vpp).vpp }
        wasError := some e
        trace := [⟨Call.DumpInterfaces, none⟩,
          ⟨Call.Marshalling (env.GetAgentLabel plugin.vpp) plugin.swIfIndexes, some e⟩] } := by
  simp [Resync, hdump, step1, hflag, hm]

theorem persistence_cases {ω : Type} (env : Collaborators ω) (plugin : InterfaceConfigurator ω) :
    PersistenceSucceeds env plugin ∨
      (plugin.resyncDoneOnce = false ∧ ∃ e,
        (env.Marshalling (env.GetAgentLabel plugin.vpp) plugin.swIfIndexes plugin.vpp).err =
          some e) := by
  unfold PersistenceSucceeds
  cases hflag : plugin.resyncDoneOnce
  · cases hm : (env.Marshalling (env.GetAgentLabel plugin.vpp) plugin.swIfIndexes
      plugin.vpp).err
    · left; right; rfl
    · right; exact ⟨rfl, _, rfl⟩
  · left; left; rfl

theorem mem_configuratorCalls {t : List Event} {c : Call} :
    c ∈ configuratorCalls t ↔ (∃ e ∈ t, e.call = c) ∧ c.isConfigurator = true := by
  simp [configuratorCalls, List.mem_filter]

theorem mem_expectedDeletes {corr : NameToIdx} {L : List (Nat × Interface)} {c : Call} :
    c ∈ expectedDeletes corr L ↔
      ∃ kv ∈ L, obsolete corr kv = true ∧
        c = Call.deleteVPPInterface kv.2.Interfaces_Interface kv.1 := by
  simp only [expectedDeletes, List.mem_map, List.mem_filter]
  constructor
  · rintro ⟨kv, ⟨h1, h2⟩, rfl⟩; exact ⟨kv, h1, h2, rfl⟩
  · rintro ⟨kv, h1, h2, rfl⟩; exact ⟨kv, ⟨h1, h2⟩, rfl⟩

theorem isDelete_of_mem_expectedDeletes {corr : NameToIdx} {L : List (Nat × Interface)}
    {c : Call} (h : c ∈ expectedDeletes corr L) :
    c.isDelete = true ∧ c.isModify = false ∧ c.isCreate = false := by
  obtain ⟨kv, _, _, rfl⟩ := mem_expectedDeletes.mp h
  exact ⟨rfl, rfl, rfl⟩

theorem isModify_of_mem_expectedModifies {corr : NameToIdx} {L : List (Nat × Interface)}
    {D : List Interfaces_Interface} {c : Call} (h : c ∈ expectedModifies corr L D) :
    c.isDelete = false ∧ c.isModify = true ∧ c.isCreate = false := by
  have hm := (List.mem_filter.mp h).2
  cases c <;> simp_all [Call.isModify, Call.isDelete, Call.isCreate]

theorem isCreate_of_mem_expectedCreates {corr : NameToIdx} {L : List (Nat × Interface)}
    {D : List Interfaces_Interface} {c : Call} (h : c ∈ expectedCreates corr L D) :
    c.isDelete = false ∧ c.isModify = false ∧ c.isCreate = true := by
  have hm := (List.mem_filter.mp h).2
  cases c <;> simp_all [Call.isModify, Call.isDelete, Call.isCreate]

/-- Every delete call of any pass is made on an obsolete entry of the dump. -/
theorem resync_delete_event {ω : Type} (env : Collaborators ω) (D : List Interfaces_Interface)
    (plugin : InterfaceConfigurator ω) {e : Event} (he : e ∈ (Resync env D plugin).trace)
    {i : Interfaces_Interface} {h : Nat} (hcall : e.call = Call.deleteVPPInterface i h) :
    ∃ L, env.DumpInterfaces plugin.vpp = Except.ok L ∧
      ∃ kv ∈ L, obsolete (correlation env D plugin) kv = true ∧
        i = kv.2.Interfaces_Interface ∧ h = kv.1 := by
  cases hdump : env.DumpInterfaces plugin.vpp with
  | error err =>
    rw [resync_dump_error env D plugin err hdump] at he
    simp only [List.mem_singleton] at he
    rw [he] at hcall
    exact absurd hcall (by simp)
  | ok L =>
    rcases persistence_cases env plugin with hp | ⟨hflag, err, hm⟩
    · refine ⟨L, rfl, ?_⟩
      have hmem : Call.deleteVPPInterface i h ∈ configuratorCalls (Resync env D plugin).trace :=
        mem_configuratorCalls.mpr ⟨⟨e, he, hcall⟩, rfl⟩
      rw [resync_calls env D plugin L hdump hp] at hmem
      rcases List.mem_append.mp hmem with hmem | hmem
      · rcases List.mem_append.mp hmem with hmem | hmem
        · obtain ⟨kv, hkv, hobs, heq⟩ := mem_expectedDeletes.mp hmem
          injection heq with h1 h2
          exact ⟨kv, hkv, hobs, h1, h2⟩
        · exact absurd (isModify_of_mem_expectedModifies hmem).1 (by simp [Call.isDelete])
      · exact absurd (isCreate_of_mem_expectedCreates hmem).1 (by simp [Call.isDelete])
    · rw [resync_persist_error env D plugin L err hflag hdump hm] at he
      simp only [List.mem_cons, List.mem_singleton, List.not_mem_nil, or_false] at he
      rcases he with he | he <;> rw [he] at hcall <;> exact absurd hcall (by simp)

theorem eq_of_mem_of_nodup_keys {α : Type} {L : List (Nat × α)} (hn : (L.map Prod.fst).Nodup)
    {k : Nat} {a b : α} (ha : (k, a) ∈ L) (hb : (k, b) ∈ L) : a = b := by
  induction L with
  | nil => simp at ha
  | cons x L ih =>
    rw [List.map_cons, List.nodup_cons] at hn
    rcases List.mem_cons.mp ha with ha | ha <;> rcases List.mem_cons.mp hb with hb | hb
    · rw [← ha] at hb; exact (Prod.mk.inj hb).2.symm
    · exact absurd (List.mem_map.mpr ⟨(k, b), hb, by rw [← ha]⟩) hn.1
    · exact absurd (List.mem_map.mpr ⟨(k, a), ha, by rw [← hb]⟩) hn.1
    · exact ih hn.2 ha hb

theorem obsolete_iff {corr : NameToIdx} {kv : Nat × Interface} :
    obsolete corr kv = true ↔
      kv.1 ≠ 0 ∧ kv.2.Type_ ≠ InterfaceType.ETHERNET_CSMACD ∧
        (LookupName corr kv.1).2.2 = false := by
  simp [obsolete, and_assoc]


theorem lastErrorFrom_eq_none {init : Option Err} {t : List Event} :
    lastErrorFrom init t = none ↔ init = none ∧ ∀ e ∈ t, e.result = none := by
  induction t generalizing init with
  | nil => simp [lastErrorFrom]
  | cons x t ih =>
    have : lastErrorFrom init (x :: t) = lastErrorFrom (recordError init x.result) t := rfl
    rw [this, ih]
    constructor
    · rintro ⟨h1, h2⟩
      obtain ⟨h3, h4⟩ := recordError_eq_none h1
      exact ⟨h3, fun e he => by
        rcases List.mem_cons.mp he with rfl | h
        · exact h4
        · exact h2 e h⟩
    · rintro ⟨h1, h2⟩
      refine ⟨?_, fun e he => h2 e (List.mem_cons_of_mem _ he)⟩
      rw [h1, h2 x (List.mem_cons_self _ _)]
      rfl

theorem lastErrorFrom_snoc (init : Option Err) (t : List Event) (x : Event) :
    lastErrorFrom init (t ++ [x]) = recordError (lastErrorFrom init t) x.result := by
  simp [lastErrorFrom, List.foldl_append]

theorem lastError_some_split {t : List Event} {err : Err} (h : lastError t = some err) :
    ∃ before x after, t = before ++ x :: after ∧ x.result = some err ∧
      ∀ y ∈ after, y.result = none := by
  induction t using List.reverseRecOn with
  | nil => simp [lastError, lastErrorFrom] at h
  | append_singleton t x ih =>
    unfold lastError at h ih
    rw [lastErrorFrom_snoc] at h
    cases hx : x.result with
    | some e' =>
      rw [hx] at h
      simp only [recordError, Option.some.injEq] at h
      exact ⟨t, x, [], rfl, by rw [hx, h], by simp⟩
    | none =>
      rw [hx] at h
      obtain ⟨b, y, a, hsplit, hy, ha⟩ := ih h
      refine ⟨b, y, a ++ [x], by rw [hsplit]; simp, hy, ?_⟩
      intro z hz
      rcases List.mem_append.mp hz with hz | hz
      · exact ha z hz
      · rw [List.mem_singleton.mp hz]; exact hx

/-- The returned error of a pass that is not aborted is the most recent error among its
configurator calls. -/
theorem resync_wasError {ω : Type} (env : Collaborators ω) (D : List Interfaces_Interface)
    (plugin : InterfaceConfigurator ω) (L : List (Nat × Interface))
    (hdump : env.DumpInterfaces plugin.vpp = Except.ok L)
    (hp : PersistenceSucceeds env plugin) :
    (Resync env D plugin).wasError = lastError (configuratorEvents (Resync env D plugin).trace) := by
  obtain ⟨pre, t, htr, hpre, hkinds, -, herr, -⟩ := resync_emits env D plugin L hdump hp
  rw [herr, htr]
  unfold lastError configuratorEvents
  rw [List.filter_append]
  have h1 : pre.filter (fun e => e.call.isConfigurator) = [] := by
    rw [List.filter_eq_nil_iff]
    intro e he
    simp [(hpre e he).1]
  rw [h1, List.nil_append]
  symm
  apply lastErrorFrom_filter
  intro e he hf
  rcases hkinds e he with hk | hk
  · rw [hk] at hf; exact absurd hf (by simp)
  · exact hk.2

theorem mem_configuratorEvents {t : List Event} {e : Event} :
    e ∈ configuratorEvents t ↔ e ∈ t ∧ e.call.isConfigurator = true := by
  simp [configuratorEvents, List.mem_filter]

/-- In a pass that is not aborted every prescribed call is in the trace. -/
theorem resync_call_made {ω : Type} (env : Collaborators ω) (D : List Interfaces_Interface)
    (plugin : InterfaceConfigurator ω) (L : List (Nat × Interface))
    (hdump : env.DumpInterfaces plugin.vpp = Except.ok L)
    (hp : PersistenceSucceeds env plugin) {c : Call}
    (hc : c ∈ expectedDeletes (correlation env D plugin) L ++
        expectedModifies (correlation env D plugin) L D ++
        expectedCreates (correlation env D plugin) L D) :
    ∃ e ∈ (Resync env D plugin).trace, e.call = c := by
  rw [← resync_calls env D plugin L hdump hp] at hc
  exact (mem_configuratorCalls.mp hc).1

theorem classify_mem (corr : NameToIdx) (L : List (Nat × Interface))
    {D : List Interfaces_Interface} {d : Interfaces_Interface} (hd : d ∈ D) :
    classify corr L d ∈ expectedModifies corr L D ++ expectedCreates corr L D := by
  have hmem : classify corr L d ∈ D.map (classify corr L) := List.mem_map_of_mem _ hd
  rcases classify_cases corr L d with ⟨v, _, _, hc⟩ | ⟨_, hc⟩
  · exact List.mem_append_left _ (List.mem_filter.mpr ⟨hmem, by rw [hc]; rfl⟩)
  · exact List.mem_append_right _ (List.mem_filter.mpr ⟨hmem, by rw [hc]; rfl⟩)


/-! ## Reserved and physical interfaces -/

/-- C4: reserved and physical interfaces are never deleted.  Whatever the desired list, the
plugin state and the collaborators, a `deleteVPPInterface` call of `Resync` is never on
swIfIndex 0 and never passes an interface of type `ETHERNET_CSMACD`; and since a dump, being a
Go map, holds one interface per handle, no live interface of type `ETHERNET_CSMACD` sits at a
handle on which delete is called. -/
theorem resync_never_deletes_reserved {ω : Type} (env : Collaborators ω) (D : List Interfaces_Interface)
    (plugin : InterfaceConfigurator ω) (e : Event) (he : e ∈ (Resync env D plugin).trace)
    (i : Interfaces_Interface) (h : Nat) (hcall : e.call = Call.deleteVPPInterface i h) :
    h ≠ 0 ∧ i.Type_ ≠ InterfaceType.ETHERNET_CSMACD ∧
      ∀ L, env.DumpInterfaces plugin.vpp = Except.ok L → (L.map Prod.fst).Nodup →
        ∀ v, (h, v) ∈ L → v.Type_ ≠ InterfaceType.ETHERNET_CSMACD := by
  obtain ⟨L, hdump, kv, hkv, hobs, hi, hh⟩ := resync_delete_event env D plugin he hcall
  obtain ⟨h0, hty, -⟩ := obsolete_iff.mp hobs
  refine ⟨by rw [hh]; exact h0, by rw [hi]; exact hty, ?_⟩
  intro L' hdump' hnodup v hv
  rw [hdump] at hdump'
  injection hdump' with hL
  subst hL
  have hkv' : (h, kv.2) ∈ L := by rw [hh]; exact hkv
  rw [eq_of_mem_of_nodup_keys hnodup hv hkv']
  exact hty

/-- C4 on a concrete pass: the stray interface at handle 7 is deleted, and the theorem
applies to that call: handle 7 is not 0 and no physical interface of the dump sits there. -/
theorem resync_never_deletes_reserved_witness :
    (⟨Call.deleteVPPInterface hostEth1.Interfaces_Interface 7, none⟩ : Event) ∈
        (Resync vppCollaborators [eth1] freshPlugin).trace ∧
      (7 ≠ 0 ∧ hostEth1.Interfaces_Interface.Type_ ≠ InterfaceType.ETHERNET_CSMACD ∧
        ∀ v, (7, v) ∈ freshPlugin.vpp.ifaces → v.Type_ ≠ InterfaceType.ETHERNET_CSMACD) :=
  ⟨by decide,
    (resync_never_deletes_reserved vppCollaborators [eth1] freshPlugin
      ⟨Call.deleteVPPInterface hostEth1.Interfaces_Interface 7, none⟩ (by decide)
      hostEth1.Interfaces_Interface 7 rfl).1,
    (resync_never_deletes_reserved vppCollaborators [eth1] freshPlugin
      ⟨Call.deleteVPPInterface hostEth1.Interfaces_Interface 7, none⟩ (by decide)
      hostEth1.Interfaces_Interface 7 rfl).2.1,
    (resync_never_deletes_reserved vppCollaborators [eth1] freshPlugin
      ⟨Call.deleteVPPInterface hostEth1.Interfaces_Interface 7, none⟩ (by decide)
      hostEth1.Interfaces_Interface 7 rfl).2.2 freshPlugin.vpp.ifaces rfl (by decide)⟩

/-! ## Errors -/

/-- C5: continue-on-error.  In a pass whose dump and persistence step succeed, if some
`deleteVPPInterface` call fails, then a delete call is still made for every obsolete live
interface, a modify or create call is still made for every desired object, and the returned
error is not nil. -/
theorem resync_continues_after_delete_error {ω : Type} (env : Collaborators ω)
    (D : List Interfaces_Interface) (plugin : InterfaceConfigurator ω)
    (L : List (Nat × Interface)) (hdump : env.DumpInterfaces plugin.vpp = Except.ok L)
    (hp : PersistenceSucceeds env plugin) (x : Event)
    (hx : x ∈ (Resync env D plugin).trace) (hxd : x.call.isDelete = true)
    (hxe : x.result ≠ none) :
    (∀ kv ∈ L, obsolete (correlation env D plugin) kv = true →
      ∃ e ∈ (Resync env D plugin).trace,
        e.call = Call.deleteVPPInterface kv.2.Interfaces_Interface kv.1) ∧
    (∀ d ∈ D, ∃ e ∈ (Resync env D plugin).trace,
      (∃ old h t, e.call = Call.modifyVPPInterface d old h t) ∨
        e.call = Call.ConfigureVPPInterface d) ∧
    (Resync env D plugin).wasError ≠ none := by
  refine ⟨?_, ?_, ?_⟩
  · intro kv hkv hobs
    exact resync_call_made env D plugin L hdump hp
      (List.mem_append_left _ (List.mem_append_left _
        (mem_expectedDeletes.mpr ⟨kv, hkv, hobs, rfl⟩)))
  · intro d hd
    have hmem := classify_mem (correlation env D plugin) L hd
    obtain ⟨e, he, hcall⟩ := resync_call_made env D plugin L hdump hp
      (c := classify (correlation env D plugin) L d) (by
        rw [List.append_assoc]; exact List.mem_append_right _ hmem)
    refine ⟨e, he, ?_⟩
    rcases classify_cases (correlation env D plugin) L d with ⟨v, _, _, hc⟩ | ⟨_, hc⟩
    · left; exact ⟨_, _, _, by rw [hcall, hc]⟩
    · right; rw [hcall, hc]
  · intro hnone
    rw [resync_wasError env D plugin L hdump hp] at hnone
    have hall := (lastErrorFrom_eq_none.mp hnone).2 x
      (mem_configuratorEvents.mpr ⟨hx, by simp [Call.isConfigurator, hxd]⟩)
    exact hxe hall

/-- C5 on a concrete pass: the forwarder refuses to remove handle 7, and the pass goes on. -/
theorem resync_continues_after_delete_error_witness :
    (vppCollaborators.DumpInterfaces failingPlugin.vpp = Except.ok failingPlugin.vpp.ifaces ∧
      PersistenceSucceeds vppCollaborators failingPlugin ∧
      (⟨Call.deleteVPPInterface hostEth1.Interfaces_Interface 7, some "delete rejected"⟩ : Event)
        ∈ (Resync vppCollaborators [eth1] failingPlugin).trace) ∧
    ((∀ kv ∈ failingPlugin.vpp.ifaces,
        obsolete (correlation vppCollaborators [eth1] failingPlugin) kv = true →
        ∃ e ∈ (Resync vppCollaborators [eth1] failingPlugin).trace,
          e.call = Call.deleteVPPInterface kv.2.Interfaces_Interface kv.1) ∧
      (∀ d ∈ [eth1], ∃ e ∈ (Resync vppCollaborators [eth1] failingPlugin).trace,
        (∃ old h t, e.call = Call.modifyVPPInterface d old h t) ∨
          e.call = Call.ConfigureVPPInterface d) ∧
      (Resync vppCollaborators [eth1] failingPlugin).wasError ≠ none) :=
  ⟨⟨rfl, Or.inr rfl, by decide⟩,
    resync_continues_after_delete_error vppCollaborators [eth1] failingPlugin
      failingPlugin.vpp.ifaces rfl (Or.inr rfl)
      ⟨Call.deleteVPPInterface hostEth1.Interfaces_Interface 7, some "delete rejected"⟩
      (by decide) rfl (by decide)⟩

/-- C6: a dump failure is fatal and atomic.  If `vppdump.DumpInterfaces` fails with `e`, the
pass returns exactly `e`, its only call is the dump (no persistence call, no delete, modify or
create, no registration), and the registry and `resyncDoneOnce` are as they were. -/
theorem resync_dump_failure {ω : Type} (env : Collaborators ω) (D : List Interfaces_Interface)
    (plugin : InterfaceConfigurator ω) (e : Err)
    (hdump : env.DumpInterfaces plugin.vpp = Except.error e) :
    (Resync env D plugin).wasError = some e ∧
    (Resync env D plugin).trace = [⟨Call.DumpInterfaces, some e⟩] ∧
    (Resync env D plugin).plugin.swIfIndexes = plugin.swIfIndexes ∧
    (Resync env D plugin).plugin.resyncDoneOnce = plugin.resyncDoneOnce := by
  rw [resync_dump_error env D plugin e hdump]
  exact ⟨rfl, rfl, rfl, rfl⟩

/-- C6 on a concrete pass: a forwarder that cannot be dumped. -/
theorem resync_dump_failure_witness :
    vppCollaborators.DumpInterfaces unreachablePlugin.vpp = Except.error "dump failed" ∧
    ((Resync vppCollaborators [eth0, eth1] unreachablePlugin).wasError = some "dump failed" ∧
      (Resync vppCollaborators [eth0, eth1] unreachablePlugin).trace =
        [⟨Call.DumpInterfaces, some "dump failed"⟩] ∧
      (Resync vppCollaborators [eth0, eth1] unreachablePlugin).plugin.swIfIndexes =
        unreachablePlugin.swIfIndexes ∧
      (Resync vppCollaborators [eth0, eth1] unreachablePlugin).plugin.resyncDoneOnce =
        unreachablePlugin.resyncDoneOnce) :=
  ⟨rfl, resync_dump_failure vppCollaborators [eth0, eth1] unreachablePlugin "dump failed" rfl⟩

/-- C7: a persistence failure aborts the pass.  On a first pass (`resyncDoneOnce = false`)
whose dump succeeds and whose `persist.Marshalling` fails with `e`, the pass returns exactly
`e`, its only calls are the dump and the save (no delete, modify or create, no registration),
the registry is as it was and `resyncDoneOnce` is still false. -/
theorem resync_persist_failure {ω : Type} (env : Collaborators ω) (D : List Interfaces_Interface)
    (plugin : InterfaceConfigurator ω) (L : List (Nat × Interface)) (e : Err)
    (hflag : plugin.resyncDoneOnce = false)
    (hdump : env.DumpInterfaces plugin.vpp = Except.ok L)
    (hm : (env.Marshalling (env.GetAgentLabel plugin.vpp) plugin.swIfIndexes plugin.vpp).err =
      some e) :
    (Resync env D plugin).wasError = some e ∧
    (Resync env D plugin).trace =
      [⟨Call.DumpInterfaces, none⟩,
        ⟨Call.Marshalling (env.GetAgentLabel plugin.vpp) plugin.swIfIndexes, some e⟩] ∧
    (Resync env D plugin).plugin.swIfIndexes = plugin.swIfIndexes ∧
    (Resync env D plugin).plugin.resyncDoneOnce = false := by
  rw [resync_persist_error env D plugin L e hflag hdump hm]
  exact ⟨rfl, rfl, rfl, hflag⟩

/-- C7 on a concrete pass: a host on which the snapshot cannot be saved. -/
theorem resync_persist_failure_witness :
    (unwritablePlugin.resyncDoneOnce = false ∧
      vppCollaborators.DumpInterfaces unwritablePlugin.vpp =
        Except.ok unwritablePlugin.vpp.ifaces ∧
      (vppCollaborators.Marshalling (vppCollaborators.GetAgentLabel unwritablePlugin.vpp)
        unwritablePlugin.swIfIndexes unwritablePlugin.vpp).err = some "save failed") ∧
    ((Resync vppCollaborators [eth1] unwritablePlugin).wasError = some "save failed" ∧
      (Resync vppCollaborators [eth1] unwritablePlugin).trace =
        [⟨Call.DumpInterfaces, none⟩,
          ⟨Call.Marshalling (vppCollaborators.GetAgentLabel unwritablePlugin.vpp)
            unwritablePlugin.swIfIndexes, some "save failed"⟩] ∧
      (Resync vppCollaborators [eth1] unwritablePlugin).plugin.swIfIndexes =
        unwritablePlugin.swIfIndexes ∧
      (Resync vppCollaborators [eth1] unwritablePlugin).plugin.resyncDoneOnce = false) :=
  ⟨⟨rfl, rfl, rfl⟩,
    resync_persist_failure vppCollaborators [eth1] unwritablePlugin unwritablePlugin.vpp.ifaces
      "save failed" rfl rfl rfl⟩

/-- C8: the returned error is the most recent one.  In a pass whose dump and persistence step
succeed, `Resync` returns nil exactly when every delete, modify and create call returned nil;
and when it returns an error, that is the error of the last failing configurator call in the
order the calls were made: every configurator call after it returned nil. -/
theorem resync_returns_most_recent_error {ω : Type} (env : Collaborators ω)
    (D : List Interfaces_Interface) (plugin : InterfaceConfigurator ω)
    (L : List (Nat × Interface)) (hdump : env.DumpInterfaces plugin.vpp = Except.ok L)
    (hp : PersistenceSucceeds env plugin) :
    ((Resync env D plugin).wasError = none ↔
      ∀ e ∈ (Resync env D plugin).trace, e.call.isConfigurator = true → e.result = none) ∧
    (∀ err, (Resync env D plugin).wasError = some err →
      ∃ before x after,
        configuratorEvents (Resync env D plugin).trace = before ++ x :: after ∧
        x.result = some err ∧ ∀ y ∈ after, y.result = none) := by
  have hw := resync_wasError env D plugin L hdump hp
  refine ⟨?_, ?_⟩
  · rw [hw]
    unfold lastError
    rw [lastErrorFrom_eq_none]
    constructor
    · intro h e he hc
      exact h.2 e (mem_configuratorEvents.mpr ⟨he, hc⟩)
    · intro h
      exact ⟨rfl, fun e he => h e (mem_configuratorEvents.mp he).1 (mem_configuratorEvents.mp he).2⟩
  · intro err herr
    rw [hw] at herr
    exact lastError_some_split herr

/-- C8 on a concrete pass: delete and create both fail, and the error of the create, the
later call, is returned. -/
theorem resync_returns_most_recent_error_witness :
    (vppCollaborators.DumpInterfaces failingPlugin.vpp = Except.ok failingPlugin.vpp.ifaces ∧
      PersistenceSucceeds vppCollaborators failingPlugin) ∧
    (Resync vppCollaborators [eth1] failingPlugin).wasError = some "create rejected" ∧
    (((Resync vppCollaborators [eth1] failingPlugin).wasError = none ↔
        ∀ e ∈ (Resync vppCollaborators [eth1] failingPlugin).trace,
          e.call.isConfigurator = true → e.result = none) ∧
      (∀ err, (Resync vppCollaborators [eth1] failingPlugin).wasError = some err →
        ∃ before x after,
          configuratorEvents (Resync vppCollaborators [eth1] failingPlugin).trace =
            before ++ x :: after ∧
          x.result = some err ∧ ∀ y ∈ after, y.result = none)) :=
  ⟨⟨rfl, Or.inr rfl⟩, by decide,
    resync_returns_most_recent_error vppCollaborators [eth1] failingPlugin
      failingPlugin.vpp.ifaces rfl (Or.inr rfl)⟩


/-! ## Exactly once -/

theorem filter_isDelete_calls (corr : NameToIdx) (L : List (Nat × Interface))
    (D : List Interfaces_Interface) :
    (expectedDeletes corr L ++ expectedModifies corr L D ++ expectedCreates corr L D).filter
      Call.isDelete = expectedDeletes corr L := by
  rw [List.filter_append, List.filter_append,
    List.filter_eq_self.mpr (fun c hc => (isDelete_of_mem_expectedDeletes hc).1),
    List.filter_eq_nil_iff.mpr (fun c hc => by simp [(isModify_of_mem_expectedModifies hc).1]),
    List.filter_eq_nil_iff.mpr (fun c hc => by simp [(isCreate_of_mem_expectedCreates hc).1])]
  simp

theorem filter_isModify_calls (corr : NameToIdx) (L : List (Nat × Interface))
    (D : List Interfaces_Interface) :
    (expectedDeletes corr L ++ expectedModifies corr L D ++ expectedCreates corr L D).filter
      Call.isModify = expectedModifies corr L D := by
  rw [List.filter_append, List.filter_append,
    List.filter_eq_nil_iff.mpr (fun c hc => by simp [(isDelete_of_mem_expectedDeletes hc).2.1]),
    List.filter_eq_self.mpr (fun c hc => (isModify_of_mem_expectedModifies hc).2.1),
    List.filter_eq_nil_iff.mpr (fun c hc => by simp [(isCreate_of_mem_expectedCreates hc).2.1])]
  simp

theorem filter_isCreate_calls (corr : NameToIdx) (L : List (Nat × Interface))
    (D : List Interfaces_Interface) :
    (expectedDeletes corr L ++ expectedModifies corr L D ++ expectedCreates corr L D).filter
      Call.isCreate = expectedCreates corr L D := by
  rw [List.filter_append, List.filter_append,
    List.filter_eq_nil_iff.mpr (fun c hc => by simp [(isDelete_of_mem_expectedDeletes hc).2.2]),
    List.filter_eq_nil_iff.mpr (fun c hc => by simp [(isModify_of_mem_expectedModifies hc).2.2]),
    List.filter_eq_self.mpr (fun c hc => (isCreate_of_mem_expectedCreates hc).2.2)]
  simp

theorem filter_isModify_or_isCreate_calls (corr : NameToIdx) (L : List (Nat × Interface))
    (D : List Interfaces_Interface) :
    (expectedDeletes corr L ++ expectedModifies corr L D ++ expectedCreates corr L D).filter
      (fun c => c.isModify || c.isCreate) =
      expectedModifies corr L D ++ expectedCreates corr L D := by
  rw [List.filter_append, List.filter_append,
    List.filter_eq_nil_iff.mpr (fun c hc => by
      simp [(isDelete_of_mem_expectedDeletes hc).2.1, (isDelete_of_mem_expectedDeletes hc).2.2]),
    List.filter_eq_self.mpr (fun c hc => by simp [(isModify_of_mem_expectedModifies hc).2.1]),
    List.filter_eq_self.mpr (fun c hc => by simp [(isCreate_of_mem_expectedCreates hc).2.2])]
  simp

theorem expected_perm (corr : NameToIdx) (L : List (Nat × Interface))
    (D : List Interfaces_Interface) :
    List.Perm (expectedModifies corr L D ++ expectedCreates corr L D)
      (D.map (classify corr L)) := by
  have hc : expectedCreates corr L D =
      (D.map (classify corr L)).filter (fun c => !Call.isModify c) := by
    unfold expectedCreates
    apply List.filter_congr
    intro c hc
    obtain ⟨d, _, rfl⟩ := List.mem_map.mp hc
    rcases classify_cases corr L d with ⟨v, _, _, h⟩ | ⟨_, h⟩ <;> rw [h] <;> rfl
  rw [hc]
  exact List.filter_append_perm _ _

/-- C9: modify or create, exactly once per desired object.  In a pass that is not aborted, the
modify calls are, in the order of the desired list, those of the objects whose name the
correlation registry maps to a handle that is a key of the dump (with the live interface at
that handle, the handle and the live type as arguments); the create calls are, in the order of
the desired list, those of all other objects; and the modify and create calls together are,
position by position of the desired list, one call each. -/
theorem resync_classifies_each_desired {ω : Type} (env : Collaborators ω) (D : List Interfaces_Interface)
    (plugin : InterfaceConfigurator ω) (L : List (Nat × Interface))
    (hdump : env.DumpInterfaces plugin.vpp = Except.ok L)
    (hp : PersistenceSucceeds env plugin) :
    (configuratorCalls (Resync env D plugin).trace).filter Call.isModify =
      (D.map (classify (correlation env D plugin) L)).filter Call.isModify ∧
    (configuratorCalls (Resync env D plugin).trace).filter Call.isCreate =
      (D.map (classify (correlation env D plugin) L)).filter Call.isCreate ∧
    List.Perm
      ((configuratorCalls (Resync env D plugin).trace).filter
        (fun c => c.isModify || c.isCreate))
      (D.map (classify (correlation env D plugin) L)) := by
  rw [resync_calls env D plugin L hdump hp]
  refine ⟨filter_isModify_calls _ _ _, filter_isCreate_calls _ _ _, ?_⟩
  rw [filter_isModify_or_isCreate_calls]
  exact expected_perm _ _ _

/-- C9 on a concrete pass after a restart: `eth0` is modified at handle 5, `eth1` is
created. -/
theorem resync_classifies_each_desired_witness :
    (vppCollaborators.DumpInterfaces restartedPlugin.vpp =
        Except.ok restartedPlugin.vpp.ifaces ∧
      PersistenceSucceeds vppCollaborators restartedPlugin) ∧
    [eth0, eth1].map (classify (correlation vppCollaborators [eth0, eth1] restartedPlugin)
        restartedPlugin.vpp.ifaces) =
      [Call.modifyVPPInterface eth0 hostEth0.Interfaces_Interface 5
          InterfaceType.AF_PACKET_INTERFACE,
        Call.ConfigureVPPInterface eth1] ∧
    ((configuratorCalls (Resync vppCollaborators [eth0, eth1] restartedPlugin).trace).filter
        Call.isModify =
      ([eth0, eth1].map (classify (correlation vppCollaborators [eth0, eth1] restartedPlugin)
        restartedPlugin.vpp.ifaces)).filter Call.isModify ∧
    (configuratorCalls (Resync vppCollaborators [eth0, eth1] restartedPlugin).trace).filter
        Call.isCreate =
      ([eth0, eth1].map (classify (correlation vppCollaborators [eth0, eth1] restartedPlugin)
        restartedPlugin.vpp.ifaces)).filter Call.isCreate ∧
    List.Perm
      ((configuratorCalls (Resync vppCollaborators [eth0, eth1] restartedPlugin).trace).filter
        (fun c => c.isModify || c.isCreate))
      ([eth0, eth1].map (classify (correlation vppCollaborators [eth0, eth1] restartedPlugin)
        restartedPlugin.vpp.ifaces))) :=
  ⟨⟨rfl, Or.inr rfl⟩, by decide,
    resync_classifies_each_desired vppCollaborators [eth0, eth1] restartedPlugin
      restartedPlugin.vpp.ifaces rfl (Or.inr rfl)⟩

theorem expectedDeletes_nodup (corr : NameToIdx) {L : List (Nat × Interface)}
    (hn : (L.map Prod.fst).Nodup) : (expectedDeletes corr L).Nodup := by
  apply List.Nodup.of_map (fun c => match c with
    | Call.deleteVPPInterface _ h => h
    | _ => 0)
  have : (expectedDeletes corr L).map (fun c => match c with
      | Call.deleteVPPInterface _ h => h
      | _ => 0) = (L.filter (obsolete corr)).map Prod.fst := by
    simp [expectedDeletes, Function.comp_def]
  rw [this]
  exact List.Nodup.sublist ((List.filter_sublist L).map Prod.fst) hn

/-- C10: obsolete live objects are each deleted exactly once.  In a pass that is not aborted,
the delete calls are, in dump order, those of the dump entries whose handle is not 0, whose
type is not `ETHERNET_CSMACD` and for whose handle the correlation registry has no entry; as a
dump holds one interface per handle, each such entry gets exactly one delete call in the whole
trace; and no delete call is made on a handle that has an entry in the correlation
registry. -/
theorem resync_deletes_each_obsolete_once {ω : Type} (env : Collaborators ω)
    (D : List Interfaces_Interface) (plugin : InterfaceConfigurator ω)
    (L : List (Nat × Interface)) (hdump : env.DumpInterfaces plugin.vpp = Except.ok L)
    (hp : PersistenceSucceeds env plugin) :
    (configuratorCalls (Resync env D plugin).trace).filter Call.isDelete =
      expectedDeletes (correlation env D plugin) L ∧
    ((L.map Prod.fst).Nodup → ∀ kv ∈ L, obsolete (correlation env D plugin) kv = true →
      ((Resync env D plugin).trace.map Event.call).count
        (Call.deleteVPPInterface kv.2.Interfaces_Interface kv.1) = 1) ∧
    (∀ e ∈ (Resync env D plugin).trace, ∀ i h, e.call = Call.deleteVPPInterface i h →
      (LookupName (correlation env D plugin) h).2.2 = false) := by
  have hcalls := resync_calls env D plugin L hdump hp
  refine ⟨by rw [hcalls]; exact filter_isDelete_calls _ _ _, ?_, ?_⟩
  · intro hn kv hkv hobs
    have hmem : Call.deleteVPPInterface kv.2.Interfaces_Interface kv.1 ∈
        expectedDeletes (correlation env D plugin) L :=
      mem_expectedDeletes.mpr ⟨kv, hkv, hobs, rfl⟩
    have h1 : ((Resync env D plugin).trace.map Event.call).count
        (Call.deleteVPPInterface kv.2.Interfaces_Interface kv.1) =
        (configuratorCalls (Resync env D plugin).trace).count
          (Call.deleteVPPInterface kv.2.Interfaces_Interface kv.1) := by
      unfold configuratorCalls
      rw [List.count_filter]
      rfl
    rw [h1, ← List.count_filter (p := Call.isDelete) (by rfl),
      hcalls, filter_isDelete_calls]
    exact List.count_eq_one_of_mem (expectedDeletes_nodup _ hn) hmem
  · intro e he i h hcall
    obtain ⟨L', _, kv, _, hobs, _, hh⟩ := resync_delete_event env D plugin he hcall
    rw [hh]
    exact (obsolete_iff.mp hobs).2.2

/-- C10 on a concrete pass after a restart: handle 7 is obsolete and deleted once, handle 5 is
correlated and kept. -/
theorem resync_deletes_each_obsolete_once_witness :
    (vppCollaborators.DumpInterfaces restartedPlugin.vpp =
        Except.ok restartedPlugin.vpp.ifaces ∧
      PersistenceSucceeds vppCollaborators restartedPlugin) ∧
    expectedDeletes (correlation vppCollaborators [eth0, eth1] restartedPlugin)
        restartedPlugin.vpp.ifaces =
      [Call.deleteVPPInterface hostEth1.Interfaces_Interface 7] ∧
    ((configuratorCalls (Resync vppCollaborators [eth0, eth1] restartedPlugin).trace).filter
        Call.isDelete =
      expectedDeletes (correlation vppCollaborators [eth0, eth1] restartedPlugin)
        restartedPlugin.vpp.ifaces ∧
    ((Resync vppCollaborators [eth0, eth1] restartedPlugin).trace.map Event.call).count
        (Call.deleteVPPInterface hostEth1.Interfaces_Interface 7) = 1 ∧
    (∀ e ∈ (Resync vppCollaborators [eth0, eth1] restartedPlugin).trace, ∀ i h,
      e.call = Call.deleteVPPInterface i h →
      (LookupName (correlation vppCollaborators [eth0, eth1] restartedPlugin) h).2.2 = false)) :=
  ⟨⟨rfl, Or.inr rfl⟩, by decide,
    (resync_deletes_each_obsolete_once vppCollaborators [eth0, eth1] restartedPlugin
      restartedPlugin.vpp.ifaces rfl (Or.inr rfl)).1,
    (resync_deletes_each_obsolete_once vppCollaborators [eth0, eth1] restartedPlugin
      restartedPlugin.vpp.ifaces rfl (Or.inr rfl)).2.1 (by decide) (7, hostEth1) (by decide)
      (by decide),
    (resync_deletes_each_obsolete_once vppCollaborators [eth0, eth1] restartedPlugin
      restartedPlugin.vpp.ifaces rfl (Or.inr rfl)).2.2⟩

/-! ## The correlation registry -/

theorem correlation_later {ω : Type} (env : Collaborators ω) (D : List Interfaces_Interface)
    (plugin : InterfaceConfigurator ω) (hflag : plugin.resyncDoneOnce = true) :
    correlation env D plugin = NewNameToIdx := by
  simp [correlation, step1, hflag]

theorem correlation_first {ω : Type} (env : Collaborators ω) (D : List Interfaces_Interface)
    (plugin : InterfaceConfigurator ω) (hflag : plugin.resyncDoneOnce = false)
    (hm : (env.Marshalling (env.GetAgentLabel plugin.vpp) plugin.swIfIndexes plugin.vpp).err =
      none) :
    correlation env D plugin =
      correlate (seed (env.Marshalling (env.GetAgentLabel plugin.vpp) plugin.swIfIndexes
        plugin.vpp).entries NewNameToIdx) D NewNameToIdx := by
  simp [correlation, step1, hflag, hm]

theorem correlation_wf {ω : Type} (env : Collaborators ω) (D : List Interfaces_Interface)
    (plugin : InterfaceConfigurator ω) : RegistryWF (correlation env D plugin) := by
  rcases persistence_cases env plugin with hp | ⟨hflag, err, hm⟩
  · rcases hp with hflag | hm
    · rw [correlation_later env D plugin hflag]; exact registryWF_nil
    · cases hflag : plugin.resyncDoneOnce
      · rw [correlation_first env D plugin hflag hm]
        exact registryWF_correlate _ _ _ registryWF_nil
      · rw [correlation_later env D plugin hflag]; exact registryWF_nil
  · have : correlation env D plugin = NewNameToIdx := by
      simp [correlation, step1, hflag, hm]
    rw [this]; exact registryWF_nil

/-- Step 1 copies into the correlation registry the handle of every desired name that the
temporary registry knows. -/
theorem correlate_mapsTo {tmp : NameToIdx} (hwf : RegistryWF tmp) {n : String} {h : Nat}
    (hm : MapsTo tmp n h) (D : List Interfaces_Interface) :
    ∀ c, (MapsTo c n h ∨ ∃ d ∈ D, d.Name = n) → MapsTo (correlate tmp D c) n h := by
  induction D with
  | nil =>
    intro c hyp
    rcases hyp with hc | ⟨d, hd, _⟩
    · exact hc
    · simp at hd
  | cons d D ih =>
    intro c hyp
    unfold correlate
    simp only []
    split
    · rename_i hfound
      have hmd : MapsTo tmp d.Name (LookupIdx tmp d.Name).1 := ⟨rfl, hfound⟩
      apply ih
      by_cases hnn : d.Name = n
      · left
        rw [hnn] at hmd ⊢
        rw [hmd.unique hm]
        exact mapsTo_register_self _ _ _ _
      · rcases hyp with hc | ⟨d', hd', hname⟩
        · left; exact mapsTo_register_other _ hc hnn (hwf.injective hmd hm hnn)
        · rcases List.mem_cons.mp hd' with rfl | hmem
          · exact absurd hname hnn
          · right; exact ⟨d', hmem, hname⟩
    · rename_i hfound
      apply ih
      rcases hyp with hc | ⟨d', hd', hname⟩
      · left; exact hc
      · rcases List.mem_cons.mp hd' with rfl | hmem
        · rw [hname, hm.2] at hfound; exact absurd rfl hfound
        · right; exact ⟨d', hmem, hname⟩

theorem lookupName_found {r : NameToIdx} {n : String} {h : Nat} (hm : MapsTo r n h) :
    (LookupName r h).2.2 = true := by
  obtain ⟨e, he, _, hei⟩ := hm.mem
  unfold LookupName
  cases hf : r.find? (fun e => decide (e.idx = h)) with
  | some x => rfl
  | none =>
    have := List.find?_eq_none.mp hf e he
    simp [hei] at this

theorem step1_inv {ω : Type} (env : Collaborators ω) (Inv : ω → Prop) (hpres : Preserves env Inv)
    (D : List Interfaces_Interface) (p q : Pass ω) (c : NameToIdx)
    (h : step1 env D p = Step1.correlated c q) (hinv : Inv p.plugin.vpp) :
    Inv q.plugin.vpp := by
  unfold step1 at h
  simp only [] at h
  split at h
  · split at h
    · exact absurd h (by simp)
    · injection h with _ hq
      rw [← hq]
      exact hpres.marshalling _ _ _ hinv
  · injection h with _ hq
    rw [← hq]; exact hinv

/-- A pass that is not aborted is Steps 2 to 4 run on the plugin that Step 1 leaves. -/
theorem resync_eq_reconcile {ω : Type} (env : Collaborators ω) (D : List Interfaces_Interface)
    (plugin : InterfaceConfigurator ω) (L : List (Nat × Interface))
    (hdump : env.DumpInterfaces plugin.vpp = Except.ok L)
    (hp : PersistenceSucceeds env plugin) :
    ∃ q, Resync env D plugin = reconcile env (correlation env D plugin) L D q ∧
      ∀ Inv, Preserves env Inv → Inv plugin.vpp → Inv q.plugin.vpp := by
  obtain ⟨q, pre, hq, -⟩ := step1_correlated env D
    { plugin := plugin, wasError := none, trace := [⟨Call.DumpInterfaces, none⟩] } hp
  refine ⟨q, by simp only [Resync, hdump, hq], ?_⟩
  intro Inv hpres hinv
  exact step1_inv env Inv hpres D _ q _ hq hinv

/-- Every call of a pass succeeded: then the dump and the persistence step did. -/
theorem succeeded_of_results {ω : Type} (env : Collaborators ω) (D : List Interfaces_Interface)
    (plugin : InterfaceConfigurator ω)
    (hok : ∀ e ∈ (Resync env D plugin).trace, e.result = none) :
    (∃ L, env.DumpInterfaces plugin.vpp = Except.ok L) ∧ PersistenceSucceeds env plugin := by
  cases hdump : env.DumpInterfaces plugin.vpp with
  | error err =>
    have := hok ⟨Call.DumpInterfaces, some err⟩ (by
      rw [resync_dump_error env D plugin err hdump]; simp)
    exact absurd this (by simp)
  | ok L =>
    refine ⟨⟨L, rfl⟩, ?_⟩
    rcases persistence_cases env plugin with hp | ⟨hflag, err, hm⟩
    · exact hp
    · have := hok ⟨Call.Marshalling (env.GetAgentLabel plugin.vpp) plugin.swIfIndexes, some err⟩
        (by rw [resync_persist_error env D plugin L err hflag hdump hm]; simp)
      exact absurd this (by simp)

theorem wasError_none_of_results {ω : Type} (env : Collaborators ω) (D : List Interfaces_Interface)
    (plugin : InterfaceConfigurator ω)
    (hok : ∀ e ∈ (Resync env D plugin).trace, e.result = none) :
    (Resync env D plugin).wasError = none := by
  obtain ⟨⟨L, hdump⟩, hp⟩ := succeeded_of_results env D plugin hok
  rw [resync_wasError env D plugin L hdump hp]
  exact lastErrorFrom_eq_none.mpr ⟨rfl, fun e he => hok e (mem_configuratorEvents.mp he).1⟩

/-! ## The forwarder model meets the contract -/

theorem le_foldr_max {l : List Nat} {x : Nat} (h : x ∈ l) : x ≤ l.foldr max 0 := by
  induction l with
  | nil => simp at h
  | cons a l ih =>
    rcases List.mem_cons.mp h with rfl | h
    · exact le_max_left _ _
    · exact le_trans (ih h) (le_max_right _ _)

theorem newHandle_fresh (r : NameToIdx) (ifaces : List (Nat × Interface)) :
    ∀ e ∈ r, e.idx ≠ newHandle r ifaces := by
  intro e he
  have h1 : e.idx ∈ r.map Entry.idx ++ ifaces.map Prod.fst :=
    List.mem_append_left _ (List.mem_map_of_mem _ he)
  have h2 := le_foldr_max h1
  unfold newHandle
  omega

theorem vppCollaborators_contract : ConfiguratorContract vppCollaborators where
  delete_success := by
    intro i h r w
    simp only [vppCollaborators, Vpp.deleteVPPInterface]
    split <;> simp
  delete_failure := by
    intro i h r w
    simp only [vppCollaborators, Vpp.deleteVPPInterface]
    split <;> simp
  modify_registry := by
    intro d o h t r w
    simp only [vppCollaborators, Vpp.modifyVPPInterface]
    split <;> rfl
  create_registry := by
    intro d r w
    simp only [vppCollaborators, Vpp.ConfigureVPPInterface]
    split
    · left; rfl
    · split
      · left; rfl
      · right; exact ⟨_, newHandle_fresh r w.ifaces, rfl⟩
  create_failure := by
    intro d r w
    simp only [vppCollaborators, Vpp.ConfigureVPPInterface]
    split
    · intro _; rfl
    · split <;> simp
  create_success := by
    intro d r w
    simp only [vppCollaborators, Vpp.ConfigureVPPInterface]
    split
    · simp
    · split
      · rename_i hp
        simp [hp]
      · intro _ _; exact ⟨_, newHandle_fresh r w.ifaces, rfl⟩

theorem vppCollaborators_preserves :
    Preserves vppCollaborators (fun w => w.pendingAfPackets = []) where
  marshalling := by
    intro l r w h
    simp only [vppCollaborators, Vpp.Marshalling]
    split <;> exact h
  delete := by
    intro i h r w hw
    simp only [vppCollaborators, Vpp.deleteVPPInterface]
    split <;> exact hw
  modify := by
    intro d o h t r w hw
    simp only [vppCollaborators, Vpp.modifyVPPInterface]
    split <;> exact hw
  create := by
    intro d r w hw
    simp only [vppCollaborators, Vpp.ConfigureVPPInterface]
    split
    · exact hw
    · split <;> exact hw

theorem vppCollaborators_not_pending (d : Interfaces_Interface) (w : Vpp)
    (h : w.pendingAfPackets = []) : vppCollaborators.IsPendingAfPacket d w = false := by
  simp [vppCollaborators, h]


/-! ## Convergence, idempotence, identity across a restart -/

theorem step4_trace_mem {ω : Type} (env : Collaborators ω) (l : List Interfaces_Interface) :
    ∀ (p : Pass ω) (e : Event), e ∈ p.trace → e ∈ (step4 env l p).trace := by
  induction l with
  | nil => intro p e he; exact he
  | cons d l ih =>
    intro p e he
    simp only [step4]
    apply ih
    simp only [Pass.invoke]
    exact List.mem_append_left _ he

/-- Step 4 registers every interface it creates, when every create call of the step returns
nil and nothing is pending. -/
theorem step4_registers_created {ω : Type} (env : Collaborators ω)
    (hc : ConfiguratorContract env) (Inv : ω → Prop) (hpres : Preserves env Inv)
    (l : List Interfaces_Interface) :
    ∀ p : Pass ω, Inv p.plugin.vpp →
      (∀ e ∈ (step4 env l p).trace, e.call.isCreate = true → e.result = none) →
      (∀ d ∈ l, ∀ w, Inv w → env.IsPendingAfPacket d w = false) →
      ∀ d ∈ l, HasName (step4 env l p).plugin.swIfIndexes d.Name := by
  induction l with
  | nil => intro p _ _ _ d hd; simp at hd
  | cons d l ih =>
    intro p hinv hok hnp d' hd'
    have herr : (env.ConfigureVPPInterface d p.plugin.swIfIndexes p.plugin.vpp).err = none :=
      hok ⟨Call.ConfigureVPPInterface d,
          (env.ConfigureVPPInterface d p.plugin.swIfIndexes p.plugin.vpp).err⟩
        (by
          simp only [step4]
          apply step4_trace_mem
          simp [Pass.invoke]) rfl
    have hinv' : Inv (env.ConfigureVPPInterface d p.plugin.swIfIndexes p.plugin.vpp).vpp :=
      hpres.create _ _ _ hinv
    rcases List.mem_cons.mp hd' with rfl | hmem
    · simp only [step4]
      apply step4_hasName env hc
      obtain ⟨h', _, hr⟩ := hc.create_success d' p.plugin.swIfIndexes p.plugin.vpp herr
        (hnp d' (List.mem_cons_self _ _) _ hinv')
      simp only [Pass.invoke]
      rw [hr]
      exact hasName_register_self _ _ _ _
    · simp only [step4] at hok ⊢
      exact ih _ hinv' hok (fun x hx => hnp x (List.mem_cons_of_mem _ hx)) d' hmem

/-- C1, refuted as stated: with a forwarder that refuses to remove handle 7 and to program
`eth1`, the pass ends with no registry entry for `eth1` (and handle 7 not deleted); with the
af-packet `eth0` pending, every call succeeds and yet `eth0` has no registry entry; and when
the snapshot cannot be saved, the pass is aborted before anything is registered. -/
theorem convergence_counterexample :
    ¬ Convergence vppCollaborators [eth1] failingPlugin ∧
      ((∀ e ∈ (Resync vppCollaborators [eth0] pendingPlugin).trace, e.result = none) ∧
        ¬ Convergence vppCollaborators [eth0] pendingPlugin) ∧
      ¬ Convergence vppCollaborators [eth1] unwritablePlugin := by
  refine ⟨?_, ⟨by decide, ?_⟩, ?_⟩
  · intro h
    have h1 := (h _ rfl).1 eth1 (by simp)
    revert h1
    unfold HasName
    decide
  · intro h
    have h1 := (h _ rfl).1 eth0 (by simp)
    revert h1
    unfold HasName
    decide
  · intro h
    have h1 := (h _ rfl).1 eth1 (by simp)
    revert h1
    unfold HasName
    decide

/-- C1, amended: when the save succeeds, every call of `deleteVPPInterface` and of
`ConfigureVPPInterface` of the pass returns nil, and no desired interface is pending at any
point of the pass, then, the configurator methods meeting their contract, after the pass every
desired name has an entry in `swIfIndexes`, and every live interface that is not correlated
(other than swIfIndex 0 and the `ETHERNET_CSMACD` ones) has been deleted by a call that
returned nil.  Nothing is asked of `modifyVPPInterface`: the registration that follows it is
made whatever it returns.  "At any point of the pass" is said through a property `Inv` of the
world that holds at the start, that the collaborators keep, and under which no desired
interface is pending. -/
theorem resync_converges_when_deletes_and_creates_succeed {ω : Type} (env : Collaborators ω)
    (hc : ConfiguratorContract env) (Inv : ω → Prop) (hpres : Preserves env Inv)
    (D : List Interfaces_Interface) (plugin : InterfaceConfigurator ω)
    (hinv : Inv plugin.vpp)
    (hnp : ∀ d ∈ D, ∀ w, Inv w → env.IsPendingAfPacket d w = false)
    (hp : PersistenceSucceeds env plugin)
    (hok : ∀ e ∈ (Resync env D plugin).trace,
      e.call.isDelete = true ∨ e.call.isCreate = true → e.result = none) :
    Convergence env D plugin := by
  intro L hdump
  obtain ⟨q, hq, hqinv⟩ := resync_eq_reconcile env D plugin L hdump hp
  have hwf := correlation_wf env D plugin
  generalize hcorr : correlation env D plugin = corr at hq hwf
  refine ⟨?_, ?_⟩
  · intro d hd
    have hcreate : ∀ e ∈ (Resync env D plugin).trace, e.call.isCreate = true →
        e.result = none := fun e he hc => hok e he (Or.inr hc)
    rw [hq] at hcreate ⊢
    unfold reconcile at hcreate ⊢
    simp only [] at hcreate ⊢
    have hinv2 : Inv (step2 env corr L { q with wasError := none }).plugin.vpp :=
      step2_inv env Inv hpres corr L _ (hqinv Inv hpres hinv)
    obtain ⟨t, -, -, htb⟩ := step3_emits env corr L D
      (step2 env corr L { q with wasError := none }) []
    rcases classify_cases corr L d with ⟨v, hf, hv, _⟩ | ⟨_, hcl⟩
    · apply step4_hasName env hc
      apply MapsTo.hasName (h := (LookupIdx corr d.Name).1)
      exact step3_mapsTo env hc Inv hpres corr hwf L ⟨rfl, hf⟩ (by rw [hv]; rfl) D _ _ hinv2
        (Or.inr ⟨d, hd, rfl, hnp d hd⟩)
    · have hmem : d ∈ (step3 env corr L D (step2 env corr L { q with wasError := none }) []).2 := by
        rw [htb]
        simp [hd, hcl, Call.isCreate]
      refine step4_registers_created env hc Inv hpres _ _
        (step3_inv env Inv hpres corr L D _ _ hinv2) hcreate ?_ d hmem
      intro x hx
      rw [htb, List.nil_append] at hx
      exact hnp x (List.mem_of_mem_filter hx)
  · intro kv hkv hobs
    rw [← hcorr] at hobs
    obtain ⟨e, he, hcall⟩ := resync_call_made env D plugin L hdump hp
      (List.mem_append_left _ (List.mem_append_left _
        (mem_expectedDeletes.mpr ⟨kv, hkv, hobs, rfl⟩)))
    have hres := hok e he (Or.inl (by rw [hcall]; rfl))
    have heq : e = ⟨Call.deleteVPPInterface kv.2.Interfaces_Interface kv.1, none⟩ := by
      cases e; simp_all
    rw [← heq]; exact he

/-- C1 on a concrete pass after a restart: the forwarder rejects the modification of `eth0`,
every delete and create succeeds and nothing is pending; the pass converges all the same. -/
theorem resync_converges_when_deletes_and_creates_succeed_witness :
    (rejectingPlugin.vpp.pendingAfPackets = [] ∧
      PersistenceSucceeds vppCollaborators rejectingPlugin ∧
      (∀ e ∈ (Resync vppCollaborators [eth0, eth1] rejectingPlugin).trace,
        e.call.isDelete = true ∨ e.call.isCreate = true → e.result = none) ∧
      (Resync vppCollaborators [eth0, eth1] rejectingPlugin).wasError =
        some "modify rejected") ∧
    Convergence vppCollaborators [eth0, eth1] rejectingPlugin :=
  ⟨⟨rfl, Or.inr rfl, by decide, by decide⟩,
    resync_converges_when_deletes_and_creates_succeed vppCollaborators
      vppCollaborators_contract (fun w => w.pendingAfPackets = []) vppCollaborators_preserves
      [eth0, eth1] rejectingPlugin rfl (fun d _ w hw => vppCollaborators_not_pending d w hw)
      (Or.inr rfl) (by decide)⟩

theorem classify_nil (L : List (Nat × Interface)) (d : Interfaces_Interface) :
    classify NewNameToIdx L d = Call.ConfigureVPPInterface d := by
  simp [classify, NewNameToIdx, LookupIdx]

theorem expectedModifies_nil (L : List (Nat × Interface)) (D : List Interfaces_Interface) :
    expectedModifies NewNameToIdx L D = [] := by
  simp [expectedModifies, List.filter_eq_nil_iff, classify_nil, Call.isModify]

theorem expectedCreates_nil (L : List (Nat × Interface)) (D : List Interfaces_Interface) :
    expectedCreates NewNameToIdx L D = D.map Call.ConfigureVPPInterface := by
  have hmap : D.map (classify NewNameToIdx L) = D.map Call.ConfigureVPPInterface :=
    List.map_congr_left (fun d _ => classify_nil L d)
  unfold expectedCreates
  rw [hmap, List.filter_eq_self]
  intro c hc
  obtain ⟨d, _, rfl⟩ := List.mem_map.mp hc
  rfl

/-- C2, refuted as stated: on the fresh forwarder both passes succeed without any drift in
between, and the second pass deletes the `eth1` the first pass created and creates it again. -/
theorem idempotence_counterexample : ¬ Idempotence vppCollaborators [eth1] freshPlugin := by
  intro h
  have h1 := (h (by decide) (by decide) ⟨Call.ConfigureVPPInterface eth1, none⟩ (by decide)).1
  exact absurd h1 (by decide)

/-- C2, amended: when every call of a first pass succeeds, a second pass run in succession
with the same desired list correlates nothing, since `resyncDoneOnce` is then true: its
configurator calls are one delete for every interface of its dump other than swIfIndex 0 and
the `ETHERNET_CSMACD` ones, then one create for every desired object, and no modify.  So the
second pass makes no create and no delete call exactly when the desired list is empty and its
dump holds nothing but swIfIndex 0 and `ETHERNET_CSMACD` interfaces. -/
theorem resync_second_pass_recreates {ω : Type} (env : Collaborators ω) (D : List Interfaces_Interface)
    (plugin : InterfaceConfigurator ω) (L : List (Nat × Interface))
    (hfirst : ∀ e ∈ (Resync env D plugin).trace, e.result = none)
    (hdump : env.DumpInterfaces (Resync env D plugin).plugin.vpp = Except.ok L) :
    configuratorCalls (Resync env D (Resync env D plugin).plugin).trace =
      expectedDeletes NewNameToIdx L ++ D.map Call.ConfigureVPPInterface ∧
    ((∀ e ∈ (Resync env D (Resync env D plugin).plugin).trace,
        e.call.isCreate = false ∧ e.call.isDelete = false) ↔
      D = [] ∧ ∀ kv ∈ L, kv.1 = 0 ∨ kv.2.Type_ = InterfaceType.ETHERNET_CSMACD) := by
  obtain ⟨⟨L1, hdump1⟩, hp1⟩ := succeeded_of_results env D plugin hfirst
  obtain ⟨-, -, -, -, -, -, -, hflag⟩ := resync_emits env D plugin L1 hdump1 hp1
  have hcalls := resync_calls env D (Resync env D plugin).plugin L hdump (Or.inl hflag)
  rw [correlation_later env D _ hflag, expectedModifies_nil, expectedCreates_nil,
    List.append_nil] at hcalls
  refine ⟨hcalls, ?_⟩
  constructor
  · intro h
    have hnil : expectedDeletes NewNameToIdx L ++ D.map Call.ConfigureVPPInterface = [] := by
      rw [← hcalls, List.eq_nil_iff_forall_not_mem]
      intro c hc
      obtain ⟨⟨e, he, rfl⟩, hcfg⟩ := mem_configuratorCalls.mp hc
      have hm : e.call.isModify = true := by
        simpa [Call.isConfigurator, (h e he).1, (h e he).2] using hcfg
      have hmem : e.call ∈ expectedDeletes NewNameToIdx L ++ D.map Call.ConfigureVPPInterface := by
        rw [← hcalls]; exact hc
      rcases List.mem_append.mp hmem with hmem | hmem
      · rw [(isDelete_of_mem_expectedDeletes hmem).2.1] at hm; exact absurd hm (by simp)
      · obtain ⟨d, _, hd⟩ := List.mem_map.mp hmem
        rw [← hd] at hm; exact absurd hm (by simp [Call.isModify])
    obtain ⟨hdel, hcre⟩ := List.append_eq_nil.mp hnil
    refine ⟨List.map_eq_nil_iff.mp hcre, ?_⟩
    intro kv hkv
    by_contra hcon
    push_neg at hcon
    have : Call.deleteVPPInterface kv.2.Interfaces_Interface kv.1 ∈
        expectedDeletes NewNameToIdx L :=
      mem_expectedDeletes.mpr ⟨kv, hkv, obsolete_iff.mpr ⟨hcon.1, hcon.2, by
        simp [NewNameToIdx, LookupName]⟩, rfl⟩
    rw [hdel] at this
    exact absurd this (by simp)
  · rintro ⟨hD, hL⟩ e he
    have hnil : configuratorCalls (Resync env D (Resync env D plugin).plugin).trace = [] := by
      rw [hcalls, hD, List.map_nil, List.append_nil, List.eq_nil_iff_forall_not_mem]
      intro c hc
      obtain ⟨kv, hkv, hobs, -⟩ := mem_expectedDeletes.mp hc
      obtain ⟨h0, hty, -⟩ := obsolete_iff.mp hobs
      rcases hL kv hkv with h | h
      · exact h0 h
      · exact hty h
    have hnot : e.call.isConfigurator = false := by
      by_contra hcon
      have : e.call ∈ configuratorCalls (Resync env D (Resync env D plugin).plugin).trace :=
        mem_configuratorCalls.mpr ⟨⟨e, he, rfl⟩, by simpa using hcon⟩
      rw [hnil] at this
      exact absurd this (by simp)
    simp only [Call.isConfigurator, Bool.or_eq_false_iff] at hnot
    exact ⟨hnot.2, hnot.1.1⟩

/-- C2 on a concrete run: the second pass on the fresh forwarder deletes handle 1, where the
first pass put `eth1`, and creates `eth1` again. -/
theorem resync_second_pass_recreates_witness :
    ((∀ e ∈ (Resync vppCollaborators [eth1] freshPlugin).trace, e.result = none) ∧
      vppCollaborators.DumpInterfaces (Resync vppCollaborators [eth1] freshPlugin).plugin.vpp =
        Except.ok (Resync vppCollaborators [eth1] freshPlugin).plugin.vpp.ifaces) ∧
    expectedDeletes NewNameToIdx (Resync vppCollaborators [eth1] freshPlugin).plugin.vpp.ifaces =
      [Call.deleteVPPInterface eth1 4] ∧
    (configuratorCalls
        (Resync vppCollaborators [eth1] (Resync vppCollaborators [eth1] freshPlugin).plugin).trace =
      expectedDeletes NewNameToIdx (Resync vppCollaborators [eth1] freshPlugin).plugin.vpp.ifaces
        ++ [eth1].map Call.ConfigureVPPInterface ∧
    ((∀ e ∈
        (Resync vppCollaborators [eth1] (Resync vppCollaborators [eth1] freshPlugin).plugin).trace,
        e.call.isCreate = false ∧ e.call.isDelete = false) ↔
      [eth1] = [] ∧ ∀ kv ∈ (Resync vppCollaborators [eth1] freshPlugin).plugin.vpp.ifaces,
        kv.1 = 0 ∨ kv.2.Type_ = InterfaceType.ETHERNET_CSMACD)) :=
  ⟨⟨by decide, rfl⟩, by decide,
    resync_second_pass_recreates vppCollaborators [eth1] freshPlugin
      (Resync vppCollaborators [eth1] freshPlugin).plugin.vpp.ifaces (by decide) rfl⟩


/-- C3, refuted as stated: after a restart with `eth0` persisted at the live handle 5, a
pass in which the af-packet `eth0` is pending ends without `eth0` in the registry. -/
theorem identity_counterexample :
    RestartOf vppCollaborators [eth0, eth1] restartedPendingPlugin "eth0" 5 ∧
      ¬ IdentityKept vppCollaborators [eth0, eth1] restartedPendingPlugin "eth0" 5 := by
  refine ⟨⟨rfl, ⟨_, rfl, by decide⟩, rfl, ⟨by decide, by decide⟩, eth0, by simp, rfl⟩, ?_⟩
  intro h
  have h1 := h.2.2.2
  revert h1
  decide

/-- C3, amended: on a first pass (`resyncDoneOnce = false`) in which the temporary registry
seeded from the persisted snapshot maps `n` to `h`, the desired list holds an interface named
`n` and the dump holds `h`, `Resync` calls neither `deleteVPPInterface` on `h` nor
`ConfigureVPPInterface` for `n`; and, the configurator methods meeting their contract,
`swIfIndexes` maps `n` to `h` at the end of the pass provided some desired interface named `n`
is not a pending af-packet during the pass (under a property `Inv` of the world that holds at
the start and that the collaborators keep). -/
theorem resync_keeps_identity_across_restart {ω : Type} (env : Collaborators ω)
    (D : List Interfaces_Interface) (plugin : InterfaceConfigurator ω) (n : String) (h : Nat)
    (hrestart : RestartOf env D plugin n h) :
    (∀ e ∈ (Resync env D plugin).trace, ∀ i, e.call ≠ Call.deleteVPPInterface i h) ∧
    (∀ e ∈ (Resync env D plugin).trace, ∀ d, e.call = Call.ConfigureVPPInterface d →
      d.Name ≠ n) ∧
    (ConfiguratorContract env → ∀ Inv : ω → Prop, Preserves env Inv → Inv plugin.vpp →
      (∃ d ∈ D, d.Name = n ∧ ∀ w, Inv w → env.IsPendingAfPacket d w = false) →
      MapsTo (Resync env D plugin).plugin.swIfIndexes n h) := by
  obtain ⟨hflag, ⟨L, hdump, hlive⟩, hm, htmp, d0, hd0, hname0⟩ := hrestart
  have hp : PersistenceSucceeds env plugin := Or.inr hm
  have hwf := correlation_wf env D plugin
  have hcorr : MapsTo (correlation env D plugin) n h := by
    rw [correlation_first env D plugin hflag hm]
    exact correlate_mapsTo (registryWF_seed _ _ registryWF_nil) htmp D _
      (Or.inr ⟨d0, hd0, hname0⟩)
  have hcreate : ∀ d ∈ D, (classify (correlation env D plugin) L d).isCreate = true →
      d.Name ≠ n := by
    intro d _ hcl hdn
    rw [classify_modify_of_mapsTo (d := d) (by rw [hdn]; exact hcorr) hlive] at hcl
    exact absurd hcl (by simp)
  refine ⟨?_, ?_, ?_⟩
  · intro e he i hcall
    obtain ⟨L', _, kv, _, hobs, _, hh⟩ := resync_delete_event env D plugin he hcall
    have := (obsolete_iff.mp hobs).2.2
    rw [← hh, lookupName_found hcorr] at this
    exact absurd this (by simp)
  · intro e he d hcall
    have hmem : Call.ConfigureVPPInterface d ∈ configuratorCalls (Resync env D plugin).trace :=
      mem_configuratorCalls.mpr ⟨⟨e, he, hcall⟩, rfl⟩
    rw [resync_calls env D plugin L hdump hp] at hmem
    rcases List.mem_append.mp hmem with hmem | hmem
    · rcases List.mem_append.mp hmem with hmem | hmem
      · exact absurd (isDelete_of_mem_expectedDeletes hmem).2.2 (by simp [Call.isCreate])
      · exact absurd (isModify_of_mem_expectedModifies hmem).2.2 (by simp [Call.isCreate])
    · rw [expectedCreates_eq] at hmem
      obtain ⟨d', hd', heq⟩ := List.mem_map.mp hmem
      injection heq with heq
      subst heq
      exact hcreate d' (List.mem_of_mem_filter hd') (by simpa using (List.mem_filter.mp hd').2)
  · intro hc Inv hpres hinv hnp
    obtain ⟨q, hq, hqinv⟩ := resync_eq_reconcile env D plugin L hdump hp
    rw [hq]
    unfold reconcile
    simp only []
    have hinv2 : Inv (step2 env (correlation env D plugin) L
        { q with wasError := none }).plugin.vpp :=
      step2_inv env Inv hpres _ L _ (hqinv Inv hpres hinv)
    obtain ⟨t, -, -, htb⟩ := step3_emits env (correlation env D plugin) L D
      (step2 env (correlation env D plugin) L { q with wasError := none }) []
    apply step4_mapsTo env hc
    · intro d hd
      rw [htb, List.nil_append] at hd
      exact hcreate d (List.mem_of_mem_filter hd) (by simpa using (List.mem_filter.mp hd).2)
    · exact step3_mapsTo env hc Inv hpres _ hwf L hcorr hlive D _ _ hinv2 (Or.inr hnp)

/-- C3 on a concrete restart: `eth0` was persisted at handle 5, handle 5 is still live and
nothing is pending; the pass keeps the identity of `eth0`. -/
theorem resync_keeps_identity_across_restart_witness :
    RestartOf vppCollaborators [eth0, eth1] restartedPlugin "eth0" 5 ∧
      IdentityKept vppCollaborators [eth0, eth1] restartedPlugin "eth0" 5 :=
  ⟨⟨rfl, ⟨_, rfl, by decide⟩, rfl, ⟨by decide, by decide⟩, eth0, by simp, rfl⟩,
    (resync_keeps_identity_across_restart vppCollaborators [eth0, eth1] restartedPlugin "eth0" 5
      ⟨rfl, ⟨_, rfl, by decide⟩, rfl, ⟨by decide, by decide⟩, eth0, by simp, rfl⟩).1,
    (resync_keeps_identity_across_restart vppCollaborators [eth0, eth1] restartedPlugin "eth0" 5
      ⟨rfl, ⟨_, rfl, by decide⟩, rfl, ⟨by decide, by decide⟩, eth0, by simp, rfl⟩).2.1,
    (resync_keeps_identity_across_restart vppCollaborators [eth0, eth1] restartedPlugin "eth0" 5
      ⟨rfl, ⟨_, rfl, by decide⟩, rfl, ⟨by decide, by decide⟩, eth0, by simp, rfl⟩).2.2
      vppCollaborators_contract (fun w => w.pendingAfPackets = []) vppCollaborators_preserves
      rfl ⟨eth0, by simp, rfl, fun w hw => vppCollaborators_not_pending eth0 w hw⟩⟩

/-! ## Order of the calls, later passes -/

theorem configuratorCalls_cases {ω : Type} (env : Collaborators ω)
    (D : List Interfaces_Interface) (plugin : InterfaceConfigurator ω) :
    configuratorCalls (Resync env D plugin).trace = [] ∨
      ∃ L, env.DumpInterfaces plugin.vpp = Except.ok L ∧ PersistenceSucceeds env plugin ∧
        configuratorCalls (Resync env D plugin).trace =
          expectedDeletes (correlation env D plugin) L ++
            expectedModifies (correlation env D plugin) L D ++
            expectedCreates (correlation env D plugin) L D := by
  cases hdump : env.DumpInterfaces plugin.vpp with
  | error err =>
    left
    rw [resync_dump_error env D plugin err hdump]
    rfl
  | ok L =>
    rcases persistence_cases env plugin with hp | ⟨hflag, err, hm⟩
    · right; exact ⟨L, rfl, hp, resync_calls env D plugin L hdump hp⟩
    · left
      rw [resync_persist_error env D plugin L err hflag hdump hm]
      rfl

/-- C12: delete before modify before create.  In the sequence of the configurator calls of
any pass, aborted or not, no modify and no create call comes before a delete call, and no
create call comes before a modify call. -/
theorem resync_orders_calls {ω : Type} (env : Collaborators ω) (D : List Interfaces_Interface)
    (plugin : InterfaceConfigurator ω) :
    (configuratorCalls (Resync env D plugin).trace).Pairwise Call.mayPrecede := by
  rcases configuratorCalls_cases env D plugin with h | ⟨L, -, -, h⟩
  · rw [h]; exact List.Pairwise.nil
  · rw [h]
    refine List.pairwise_append.mpr ⟨List.pairwise_append.mpr ⟨?_, ?_, ?_⟩, ?_, ?_⟩
    · refine List.pairwise_of_forall_mem_list (fun a ha b _ => ?_)
      have := isDelete_of_mem_expectedDeletes ha
      exact ⟨fun _ => ⟨this.2.1, this.2.2⟩, fun _ => this.2.2⟩
    · refine List.pairwise_of_forall_mem_list (fun a ha b hb => ?_)
      have h1 := isModify_of_mem_expectedModifies ha
      have h2 := isModify_of_mem_expectedModifies hb
      exact ⟨fun hd => by rw [h2.1] at hd; exact absurd hd (by simp), fun _ => h1.2.2⟩
    · intro a ha b hb
      have h1 := isDelete_of_mem_expectedDeletes ha
      exact ⟨fun _ => ⟨h1.2.1, h1.2.2⟩, fun _ => h1.2.2⟩
    · refine List.pairwise_of_forall_mem_list (fun a _ b hb => ?_)
      have h2 := isCreate_of_mem_expectedCreates hb
      exact ⟨fun hd => by rw [h2.1] at hd; exact absurd hd (by simp),
        fun hm => by rw [h2.2.1] at hm; exact absurd hm (by simp)⟩
    · intro a _ b hb
      have h2 := isCreate_of_mem_expectedCreates hb
      exact ⟨fun hd => by rw [h2.1] at hd; exact absurd hd (by simp),
        fun hm => by rw [h2.2.1] at hm; exact absurd hm (by simp)⟩

/-- The trace of a pass that starts with `resyncDoneOnce` set: the dump, then configurator
calls and registrations only. -/
theorem resync_later_trace {ω : Type} (env : Collaborators ω) (D : List Interfaces_Interface)
    (plugin : InterfaceConfigurator ω) (L : List (Nat × Interface))
    (hflag : plugin.resyncDoneOnce = true)
    (hdump : env.DumpInterfaces plugin.vpp = Except.ok L) :
    ∃ t, (Resync env D plugin).trace = ⟨Call.DumpInterfaces, none⟩ :: t ∧
      ∀ e ∈ t, e.call.isConfigurator = true ∨ (e.call.isRegister = true ∧ e.result = none) := by
  obtain ⟨t, ht, -⟩ := reconcile_emits env NewNameToIdx L D
    { plugin := plugin, wasError := none, trace := [⟨Call.DumpInterfaces, none⟩] }
  refine ⟨t, ?_, ht.kinds⟩
  have : Resync env D plugin = reconcile env NewNameToIdx L D
      { plugin := plugin, wasError := none, trace := [⟨Call.DumpInterfaces, none⟩] } := by
    simp [Resync, hdump, step1, hflag]
  rw [this, ht.trace_eq]
  rfl

/-- C18: passes after the first correlate nothing.  In a pass that starts with
`resyncDoneOnce = true` and whose dump succeeds, whatever `swIfIndexes` holds: the correlation
registry is empty, no call of `persist.Marshalling` is made, no call of `modifyVPPInterface` is
made, the configurator calls are one delete for every live interface with swIfIndex other
than 0 and type other than `ETHERNET_CSMACD`, then one create for every desired object; so
delete is called for every such live interface and create for every desired object. -/
theorem resync_later_pass_correlates_nothing {ω : Type} (env : Collaborators ω)
    (D : List Interfaces_Interface) (plugin : InterfaceConfigurator ω)
    (L : List (Nat × Interface)) (hflag : plugin.resyncDoneOnce = true)
    (hdump : env.DumpInterfaces plugin.vpp = Except.ok L) :
    correlation env D plugin = NewNameToIdx ∧
    (∀ e ∈ (Resync env D plugin).trace, ∀ label mapping,
      e.call ≠ Call.Marshalling label mapping) ∧
    (∀ e ∈ (Resync env D plugin).trace, e.call.isModify = false) ∧
    configuratorCalls (Resync env D plugin).trace =
      (L.filter (fun kv => decide (kv.1 ≠ 0) &&
          decide (kv.2.Type_ ≠ InterfaceType.ETHERNET_CSMACD))).map
        (fun kv => Call.deleteVPPInterface kv.2.Interfaces_Interface kv.1) ++
      D.map Call.ConfigureVPPInterface ∧
    (∀ kv ∈ L, kv.1 ≠ 0 → kv.2.Type_ ≠ InterfaceType.ETHERNET_CSMACD →
      ∃ e ∈ (Resync env D plugin).trace,
        e.call = Call.deleteVPPInterface kv.2.Interfaces_Interface kv.1) ∧
    (∀ d ∈ D, ∃ e ∈ (Resync env D plugin).trace, e.call = Call.ConfigureVPPInterface d) := by
  have hcorr := correlation_later env D plugin hflag
  have hcalls := resync_calls env D plugin L hdump (Or.inl hflag)
  rw [hcorr, expectedModifies_nil, expectedCreates_nil, List.append_nil] at hcalls
  have hdel : expectedDeletes NewNameToIdx L =
      (L.filter (fun kv => decide (kv.1 ≠ 0) &&
          decide (kv.2.Type_ ≠ InterfaceType.ETHERNET_CSMACD))).map
        (fun kv => Call.deleteVPPInterface kv.2.Interfaces_Interface kv.1) := by
    unfold expectedDeletes
    congr 1
    apply List.filter_congr
    intro kv _
    simp [obsolete, NewNameToIdx, LookupName]
  obtain ⟨t, htr, hkinds⟩ := resync_later_trace env D plugin L hflag hdump
  refine ⟨hcorr, ?_, ?_, by rw [hcalls, hdel], ?_, ?_⟩
  · intro e he label mapping hcall
    rw [htr] at he
    rcases List.mem_cons.mp he with rfl | he
    · exact absurd hcall (by simp)
    · rcases hkinds e he with hk | ⟨hk, -⟩ <;> rw [hcall] at hk <;>
        exact absurd hk (by simp [Call.isConfigurator, Call.isDelete, Call.isModify,
          Call.isCreate, Call.isRegister])
  · intro e he
    by_contra hcon
    have hm : e.call.isModify = true := by simpa using hcon
    have hmem : e.call ∈ configuratorCalls (Resync env D plugin).trace :=
      mem_configuratorCalls.mpr ⟨⟨e, he, rfl⟩, by simp [Call.isConfigurator, hm]⟩
    rw [hcalls] at hmem
    rcases List.mem_append.mp hmem with hmem | hmem
    · rw [(isDelete_of_mem_expectedDeletes hmem).2.1] at hm; exact absurd hm (by simp)
    · obtain ⟨d, _, hd⟩ := List.mem_map.mp hmem
      rw [← hd] at hm; exact absurd hm (by simp [Call.isModify])
  · intro kv hkv h0 hty
    have hmem : Call.deleteVPPInterface kv.2.Interfaces_Interface kv.1 ∈
        configuratorCalls (Resync env D plugin).trace := by
      rw [hcalls]
      exact List.mem_append_left _ (mem_expectedDeletes.mpr ⟨kv, hkv,
        obsolete_iff.mpr ⟨h0, hty, by simp [NewNameToIdx, LookupName]⟩, rfl⟩)
    exact (mem_configuratorCalls.mp hmem).1
  · intro d hd
    have hmem : Call.ConfigureVPPInterface d ∈
        configuratorCalls (Resync env D plugin).trace := by
      rw [hcalls]
      exact List.mem_append_right _ (List.mem_map_of_mem _ hd)
    exact (mem_configuratorCalls.mp hmem).1


/-! ## Registration after modify -/

theorem step3_append {ω : Type} (env : Collaborators ω) (corr : NameToIdx)
    (L : List (Nat × Interface)) (A B : List Interfaces_Interface) :
    ∀ (p : Pass ω) (tb : List Interfaces_Interface),
      step3 env corr L (A ++ B) p tb =
        step3 env corr L B (step3 env corr L A p tb).1 (step3 env corr L A p tb).2 := by
  induction A with
  | nil => intro p tb; rfl
  | cons d A ih =>
    intro p tb
    rcases classify_cases corr L d with ⟨v, hf, hd, _⟩ | ⟨hno, _⟩
    · simp only [List.cons_append, step3, hf, hd]
      exact ih _ _
    · have hstep : ∀ X, step3 env corr L (d :: X) p tb = step3 env corr L X p (tb ++ [d]) := by
        intro X
        rcases hno with hf | hd
        · simp [step3, hf]
        · cases hf : (LookupIdx corr d.Name).2.2 <;> simp [step3, hf, hd]
      rw [List.cons_append, hstep, hstep]
      exact ih _ _

theorem step3Modify_trace {ω : Type} (env : Collaborators ω) (p : Pass ω)
    (d : Interfaces_Interface) (h : Nat) (v : Interface) :
    (step3Modify env p d h v).trace = p.trace ++
      ⟨Call.modifyVPPInterface d v.Interfaces_Interface h v.Type_,
        (env.modifyVPPInterface d v.Interfaces_Interface h v.Type_ p.plugin.swIfIndexes
          p.plugin.vpp).err⟩ ::
      (if env.IsPendingAfPacket d (env.modifyVPPInterface d v.Interfaces_Interface h v.Type_
          p.plugin.swIfIndexes p.plugin.vpp).vpp = true then []
        else [⟨Call.RegisterName d.Name h (some d), none⟩]) := by
  unfold step3Modify
  simp only []
  cases hp : env.IsPendingAfPacket d (env.modifyVPPInterface d v.Interfaces_Interface h v.Type_
      p.plugin.swIfIndexes p.plugin.vpp).vpp
  · simp [Pass.invoke, Pass.register, hp]
  · simp [Pass.invoke, hp]

theorem step3_trace_head {ω : Type} (env : Collaborators ω) (corr : NameToIdx)
    (L : List (Nat × Interface)) (D : List Interfaces_Interface) :
    ∀ (p : Pass ω) (tb : List Interfaces_Interface), ∃ t,
      (step3 env corr L D p tb).1.trace = p.trace ++ t ∧
      ∀ e, t.head? = some e → e.call.isRegister = false := by
  induction D with
  | nil => intro p tb; exact ⟨[], by simp [step3], by simp⟩
  | cons d D ih =>
    intro p tb
    rcases classify_cases corr L d with ⟨v, hf, hd, _⟩ | ⟨hno, _⟩
    · obtain ⟨t, ht, -⟩ := ih (step3Modify env p d (LookupIdx corr d.Name).1 v) tb
      refine ⟨⟨Call.modifyVPPInterface d v.Interfaces_Interface (LookupIdx corr d.Name).1
          v.Type_, (env.modifyVPPInterface d v.Interfaces_Interface (LookupIdx corr d.Name).1
            v.Type_ p.plugin.swIfIndexes p.plugin.vpp).err⟩ ::
        ((if env.IsPendingAfPacket d (env.modifyVPPInterface d v.Interfaces_Interface
              (LookupIdx corr d.Name).1 v.Type_ p.plugin.swIfIndexes p.plugin.vpp).vpp = true
          then [] else [⟨Call.RegisterName d.Name (LookupIdx corr d.Name).1 (some d), none⟩])
          ++ t), ?_, ?_⟩
      · simp only [step3, hf, hd]
        rw [ht, step3Modify_trace]
        simp
      · intro e he
        simp only [List.head?_cons, Option.some.injEq] at he
        rw [← he]; rfl
    · have hstep : step3 env corr L (d :: D) p tb = step3 env corr L D p (tb ++ [d]) := by
        rcases hno with hf | hd
        · simp [step3, hf]
        · cases hf : (LookupIdx corr d.Name).2.2 <;> simp [step3, hf, hd]
      rw [hstep]
      exact ih _ _

theorem step4_trace {ω : Type} (env : Collaborators ω) (l : List Interfaces_Interface) :
    ∀ p : Pass ω, ∃ t, (step4 env l p).trace = p.trace ++ t ∧
      ∀ e ∈ t, e.call.isRegister = false := by
  induction l with
  | nil => intro p; exact ⟨[], by simp [step4], by simp⟩
  | cons d l ih =>
    intro p
    obtain ⟨t, ht, hreg⟩ := ih (p.invoke (Call.ConfigureVPPInterface d)
      (env.ConfigureVPPInterface d p.plugin.swIfIndexes p.plugin.vpp))
    refine ⟨⟨Call.ConfigureVPPInterface d,
      (env.ConfigureVPPInterface d p.plugin.swIfIndexes p.plugin.vpp).err⟩ :: t, ?_, ?_⟩
    · simp only [step4]; rw [ht]; simp [Pass.invoke]
    · intro e he
      rcases List.mem_cons.mp he with rfl | he
      · rfl
      · exact hreg e he

/-- C11: the registry update after modify does not depend on the result of modify.  In a pass
that is not aborted, take any desired interface `d`, at any position of the desired list, whose
name the correlation registry maps to a handle `h` that is a key of the dump.  From the point
where the loop of Step 3 reaches `d`, the trace goes on with the call of `modifyVPPInterface`,
with whatever error it returns; right after it comes the registration of `(d.Name, h, d)` in
`swIfIndexes` if `IsPendingAfPacket(d)` is false, and nothing if it is true: the call that
follows is then not a registration. -/
theorem resync_registers_after_modify {ω : Type} (env : Collaborators ω)
    (D : List Interfaces_Interface) (plugin : InterfaceConfigurator ω)
    (L : List (Nat × Interface)) (hdump : env.DumpInterfaces plugin.vpp = Except.ok L)
    (hp : PersistenceSucceeds env plugin) (D1 D2 : List Interfaces_Interface)
    (d : Interfaces_Interface) (hD : D = D1 ++ d :: D2) (v : Interface)
    (hfound : (LookupIdx (correlation env D plugin) d.Name).2.2 = true)
    (hlive : lookupDump L (LookupIdx (correlation env D plugin) d.Name).1 = some v) :
    ∃ rest : List Event,
      (Resync env D plugin).trace = (passBefore env D D1 plugin).trace ++
        ⟨Call.modifyVPPInterface d v.Interfaces_Interface
            (LookupIdx (correlation env D plugin) d.Name).1 v.Type_,
          (env.modifyVPPInterface d v.Interfaces_Interface
            (LookupIdx (correlation env D plugin) d.Name).1 v.Type_
            (passBefore env D D1 plugin).plugin.swIfIndexes
            (passBefore env D D1 plugin).plugin.vpp).err⟩ ::
        ((if env.IsPendingAfPacket d (env.modifyVPPInterface d v.Interfaces_Interface
              (LookupIdx (correlation env D plugin) d.Name).1 v.Type_
              (passBefore env D D1 plugin).plugin.swIfIndexes
              (passBefore env D D1 plugin).plugin.vpp).vpp = true then []
          else [⟨Call.RegisterName d.Name (LookupIdx (correlation env D plugin) d.Name).1
            (some d), none⟩]) ++ rest) ∧
      ∀ e, rest.head? = some e → e.call.isRegister = false := by
  obtain ⟨q, pre, hq, -⟩ := step1_correlated env D
    { plugin := plugin, wasError := none, trace := [⟨Call.DumpInterfaces, none⟩] } hp
  have hres : Resync env D plugin = reconcile env (correlation env D plugin) L D q := by
    simp only [Resync, hdump, hq]
  have hbefore : passBefore env D D1 plugin =
      (step3 env (correlation env D plugin) L D1
        (step2 env (correlation env D plugin) L { q with wasError := none }) []).1 := by
    simp only [passBefore, hdump, hq]
  rw [hres, hbefore]
  generalize correlation env D plugin = corr at hfound hlive ⊢
  subst hD
  have hsplit := step3_append env corr L D1 (d :: D2)
    (step2 env corr L { q with wasError := none }) []
  have hcons : ∀ (p : Pass ω) (tb : List Interfaces_Interface),
      step3 env corr L (d :: D2) p tb =
        step3 env corr L D2 (step3Modify env p d (LookupIdx corr d.Name).1 v) tb := by
    intro p tb
    simp [step3, hfound, hlive]
  rw [hcons] at hsplit
  obtain ⟨t3, ht3, hhead3⟩ := step3_trace_head env corr L D2
    (step3Modify env (step3 env corr L D1 (step2 env corr L { q with wasError := none }) []).1 d
      (LookupIdx corr d.Name).1 v)
    (step3 env corr L D1 (step2 env corr L { q with wasError := none }) []).2
  obtain ⟨t4, ht4, hreg4⟩ := step4_trace env
    (step3 env corr L (D1 ++ d :: D2) (step2 env corr L { q with wasError := none }) []).2
    (step3 env corr L (D1 ++ d :: D2) (step2 env corr L { q with wasError := none }) []).1
  refine ⟨t3 ++ t4, ?_, ?_⟩
  · unfold reconcile
    simp only []
    rw [ht4, hsplit, ht3, step3Modify_trace]
    simp
  · intro e he
    cases t3 with
    | nil =>
      rw [List.nil_append] at he
      exact hreg4 e (List.mem_of_mem_head? he)
    | cons x t3 =>
      apply hhead3
      simpa using he

/-- C11 on a concrete restart: `eth0` is correlated to the live handle 5, the forwarder rejects
its modification, and the registration is made all the same. -/
theorem resync_registers_after_modify_witness :
    (vppCollaborators.DumpInterfaces rejectingPlugin.vpp =
        Except.ok rejectingPlugin.vpp.ifaces ∧
      PersistenceSucceeds vppCollaborators rejectingPlugin ∧
      (LookupIdx (correlation vppCollaborators [eth0, eth1] rejectingPlugin)
        eth0.Name).2.2 = true ∧
      lookupDump rejectingPlugin.vpp.ifaces
        (LookupIdx (correlation vppCollaborators [eth0, eth1] rejectingPlugin) eth0.Name).1 =
        some hostEth0) ∧
    ((Resync vppCollaborators [eth0, eth1] rejectingPlugin).trace.drop 4).take 2 =
      [⟨Call.modifyVPPInterface eth0 hostEth0.Interfaces_Interface 5
          InterfaceType.AF_PACKET_INTERFACE, some "modify rejected"⟩,
        ⟨Call.RegisterName "eth0" 5 (some eth0), none⟩] ∧
    ∃ rest : List Event,
      (Resync vppCollaborators [eth0, eth1] rejectingPlugin).trace =
        (passBefore vppCollaborators [eth0, eth1] [] rejectingPlugin).trace ++
        ⟨Call.modifyVPPInterface eth0 hostEth0.Interfaces_Interface
            (LookupIdx (correlation vppCollaborators [eth0, eth1] rejectingPlugin)
              eth0.Name).1 hostEth0.Type_,
          (vppCollaborators.modifyVPPInterface eth0 hostEth0.Interfaces_Interface
            (LookupIdx (correlation vppCollaborators [eth0, eth1] rejectingPlugin)
              eth0.Name).1 hostEth0.Type_
            (passBefore vppCollaborators [eth0, eth1] [] rejectingPlugin).plugin.swIfIndexes
            (passBefore vppCollaborators [eth0, eth1] [] rejectingPlugin).plugin.vpp).err⟩ ::
        ((if vppCollaborators.IsPendingAfPacket eth0
              (vppCollaborators.modifyVPPInterface eth0 hostEth0.Interfaces_Interface
                (LookupIdx (correlation vppCollaborators [eth0, eth1] rejectingPlugin)
                  eth0.Name).1 hostEth0.Type_
                (passBefore vppCollaborators [eth0, eth1] [] rejectingPlugin).plugin.swIfIndexes
                (passBefore vppCollaborators [eth0, eth1] [] rejectingPlugin).plugin.vpp).vpp =
              true then []
          else [⟨Call.RegisterName eth0.Name
            (LookupIdx (correlation vppCollaborators [eth0, eth1] rejectingPlugin) eth0.Name).1
            (some eth0), none⟩]) ++ rest) ∧
      ∀ e, rest.head? = some e → e.call.isRegister = false :=
  ⟨⟨rfl, Or.inr rfl, by decide, by decide⟩, by decide,
    resync_registers_after_modify vppCollaborators [eth0, eth1] rejectingPlugin
      rejectingPlugin.vpp.ifaces rfl (Or.inr rfl) [] [eth1] eth0 rfl hostEth0 (by decide)
      (by decide)⟩


/-! ## The BFD resync methods -/

theorem foldl_recordError_eq_none {init : Option Err} {rs : List (Option Err)} :
    rs.foldl recordError init = none ↔ init = none ∧ ∀ r ∈ rs, r = none := by
  induction rs generalizing init with
  | nil => simp
  | cons r rs ih =>
    rw [List.foldl_cons, ih]
    constructor
    · rintro ⟨h1, h2⟩
      obtain ⟨h3, h4⟩ := recordError_eq_none h1
      exact ⟨h3, fun x hx => by
        rcases List.mem_cons.mp hx with rfl | h
        · exact h4
        · exact h2 x h⟩
    · rintro ⟨h1, h2⟩
      refine ⟨?_, fun x hx => h2 x (List.mem_cons_of_mem _ hx)⟩
      rw [h1, h2 r (List.mem_cons_self _ _)]
      rfl

theorem mostRecentError_split {Session Key : Type} {t : List (BFDEvent Session Key)} {err : Err}
    (h : mostRecentError (t.map BFDEvent.result) = some err) :
    ∃ before x after, t = before ++ x :: after ∧ x.result = some err ∧
      ∀ y ∈ after, y.result = none := by
  induction t using List.reverseRecOn with
  | nil => simp [mostRecentError] at h
  | append_singleton t x ih =>
    unfold mostRecentError at h ih
    rw [List.map_append, List.foldl_append] at h
    cases hx : x.result with
    | some e' =>
      simp only [List.map_cons, List.map_nil, List.foldl_cons, List.foldl_nil, hx,
        recordError, Option.some.injEq] at h
      exact ⟨t, x, [], rfl, by rw [hx, h], by simp⟩
    | none =>
      simp only [List.map_cons, List.map_nil, List.foldl_cons, List.foldl_nil, hx,
        recordError] at h
      obtain ⟨b, y, a, hsplit, hy, ha⟩ := ih h
      refine ⟨b, y, a ++ [x], by rw [hsplit]; simp, hy, ?_⟩
      intro z hz
      rcases List.mem_append.mp hz with hz | hz
      · exact ha z hz
      · rw [List.mem_singleton.mp hz]; exact hx

theorem configuresAll_of_suffix {Session Key : Type} (lookup : BFDCall Session Key)
    (configure : List (BFDCall Session Key)) (wasError : Option Err)
    (t : List (BFDEvent Session Key)) (hcalls : t.map BFDEvent.call = configure)
    (herr : wasError = (t.map BFDEvent.result).foldl recordError none) :
    ConfiguresAll lookup configure wasError (⟨lookup, none⟩ :: t) := by
  refine ⟨by simp [hcalls], by simpa [mostRecentError] using herr, ?_, ?_⟩
  · rw [herr, foldl_recordError_eq_none]
    simp
  · intro err h
    rw [herr] at h
    simpa using mostRecentError_split (t := t) h

theorem configureSessions_spec {ω Session Key : Type} (env : BFDCollaborators ω Session Key)
    (bfds : List Session) :
    ∀ p : BFDPass ω Session Key, ∃ t,
      (configureSessions env bfds p).trace = p.trace ++ t ∧
      t.map BFDEvent.call = bfds.map BFDCall.ConfigureBfdSession ∧
      (configureSessions env bfds p).wasError =
        (t.map BFDEvent.result).foldl recordError p.wasError := by
  induction bfds with
  | nil => intro p; exact ⟨[], by simp [configureSessions], rfl, rfl⟩
  | cons s bfds ih =>
    intro p
    obtain ⟨t, h1, h2, h3⟩ := ih
      { plugin := (env.ConfigureBfdSession s p.plugin).2
        wasError := recordError p.wasError (env.ConfigureBfdSession s p.plugin).1
        trace := p.trace ++ [⟨BFDCall.ConfigureBfdSession s,
          (env.ConfigureBfdSession s p.plugin).1⟩] }
    refine ⟨⟨BFDCall.ConfigureBfdSession s, (env.ConfigureBfdSession s p.plugin).1⟩ :: t,
      ?_, ?_, ?_⟩
    · simp only [configureSessions]; rw [h1]; simp
    · simp [h2]
    · simp only [configureSessions]; rw [h3]; rfl

theorem configureAuthKeys_spec {ω Session Key : Type} (env : BFDCollaborators ω Session Key)
    (bfds : List Key) :
    ∀ p : BFDPass ω Session Key, ∃ t,
      (configureAuthKeys env bfds p).trace = p.trace ++ t ∧
      t.map BFDEvent.call = bfds.map BFDCall.ConfigureBfdAuthKey ∧
      (configureAuthKeys env bfds p).wasError =
        (t.map BFDEvent.result).foldl recordError p.wasError := by
  induction bfds with
  | nil => intro p; exact ⟨[], by simp [configureAuthKeys], rfl, rfl⟩
  | cons k bfds ih =>
    intro p
    obtain ⟨t, h1, h2, h3⟩ := ih
      { plugin := (env.ConfigureBfdAuthKey k p.plugin).2
        wasError := recordError p.wasError (env.ConfigureBfdAuthKey k p.plugin).1
        trace := p.trace ++ [⟨BFDCall.ConfigureBfdAuthKey k,
          (env.ConfigureBfdAuthKey k p.plugin).1⟩] }
    refine ⟨⟨BFDCall.ConfigureBfdAuthKey k, (env.ConfigureBfdAuthKey k p.plugin).1⟩ :: t,
      ?_, ?_, ?_⟩
    · simp only [configureAuthKeys]; rw [h1]; simp
    · simp [h2]
    · simp only [configureAuthKeys]; rw [h3]; rfl

/-- C13: the session and auth-key variants.  `ResyncSession` returns the error of
`LookupBfdSessions` without any call of `ConfigureBfdSession` when the lookup fails; otherwise
it calls `ConfigureBfdSession` once for every desired session, in input order, whatever the
earlier calls returned, and returns the error of the last failing call, nil if none failed.
`ResyncAuthKey` does the same with `LookupBfdKeys` and `ConfigureBfdAuthKey`. -/
theorem bfd_resync_configures_all {ω Session Key : Type}
    (env : BFDCollaborators ω Session Key) (plugin : ω) :
    (∀ bfds : List Session,
      (∀ err, (env.LookupBfdSessions plugin).1 = some err →
        (ResyncSession env bfds plugin).wasError = some err ∧
        (ResyncSession env bfds plugin).trace = [⟨BFDCall.LookupBfdSessions, some err⟩]) ∧
      ((env.LookupBfdSessions plugin).1 = none →
        ConfiguresAll BFDCall.LookupBfdSessions (bfds.map BFDCall.ConfigureBfdSession)
          (ResyncSession env bfds plugin).wasError (ResyncSession env bfds plugin).trace)) ∧
    (∀ bfds : List Key,
      (∀ err, (env.LookupBfdKeys plugin).1 = some err →
        (ResyncAuthKey env bfds plugin).wasError = some err ∧
        (ResyncAuthKey env bfds plugin).trace = [⟨BFDCall.LookupBfdKeys, some err⟩]) ∧
      ((env.LookupBfdKeys plugin).1 = none →
        ConfiguresAll BFDCall.LookupBfdKeys (bfds.map BFDCall.ConfigureBfdAuthKey)
          (ResyncAuthKey env bfds plugin).wasError (ResyncAuthKey env bfds plugin).trace)) := by
  refine ⟨fun bfds => ⟨?_, ?_⟩, fun bfds => ⟨?_, ?_⟩⟩
  · intro err h
    simp [ResyncSession, h]
  · intro h
    obtain ⟨t, h1, h2, h3⟩ := configureSessions_spec env bfds
      { plugin := (env.LookupBfdSessions plugin).2
        wasError := none
        trace := [⟨BFDCall.LookupBfdSessions, none⟩] }
    have htr : (ResyncSession env bfds plugin).trace = ⟨BFDCall.LookupBfdSessions, none⟩ :: t := by
      simp only [ResyncSession, h]; rw [h1]; rfl
    have herr : (ResyncSession env bfds plugin).wasError =
        (t.map BFDEvent.result).foldl recordError none := by
      simp only [ResyncSession, h]; rw [h3]
    rw [htr]
    exact configuresAll_of_suffix _ _ _ t h2 herr
  · intro err h
    simp [ResyncAuthKey, h]
  · intro h
    obtain ⟨t, h1, h2, h3⟩ := configureAuthKeys_spec env bfds
      { plugin := (env.LookupBfdKeys plugin).2
        wasError := none
        trace := [⟨BFDCall.LookupBfdKeys, none⟩] }
    have htr : (ResyncAuthKey env bfds plugin).trace = ⟨BFDCall.LookupBfdKeys, none⟩ :: t := by
      simp only [ResyncAuthKey, h]; rw [h1]; rfl
    have herr : (ResyncAuthKey env bfds plugin).wasError =
        (t.map BFDEvent.result).foldl recordError none := by
      simp only [ResyncAuthKey, h]; rw [h3]
    rw [htr]
    exact configuresAll_of_suffix _ _ _ t h2 herr

/-- C13 on concrete runs: a failing lookup stops everything; after a successful lookup three
sessions are configured in order, the second and third are rejected, and the error of the
third is returned. -/
theorem bfd_resync_configures_all_witness :
    ((ResyncSession bfdCollaborators ["a", "b"]
        { lookupError := some "lookup failed", rejected := [] }).wasError = some "lookup failed" ∧
      (ResyncSession bfdCollaborators ["a", "b"]
        { lookupError := some "lookup failed", rejected := [] }).trace =
        [⟨BFDCall.LookupBfdSessions, some "lookup failed"⟩]) ∧
    (ResyncSession bfdCollaborators ["a", "b", "c"]
        { lookupError := none, rejected := ["b", "c"] }).wasError = some "session rejected: c" ∧
    ConfiguresAll BFDCall.LookupBfdSessions
      (["a", "b", "c"].map BFDCall.ConfigureBfdSession)
      (ResyncSession bfdCollaborators ["a", "b", "c"]
        { lookupError := none, rejected := ["b", "c"] }).wasError
      (ResyncSession bfdCollaborators ["a", "b", "c"]
        { lookupError := none, rejected := ["b", "c"] }).trace ∧
    ConfiguresAll BFDCall.LookupBfdKeys
      (["k1", "k2"].map BFDCall.ConfigureBfdAuthKey)
      (ResyncAuthKey bfdCollaborators ["k1", "k2"]
        { lookupError := none, rejected := ["k1"] }).wasError
      (ResyncAuthKey bfdCollaborators ["k1", "k2"]
        { lookupError := none, rejected := ["k1"] }).trace :=
  ⟨((bfd_resync_configures_all bfdCollaborators
      { lookupError := some "lookup failed", rejected := [] }).1 ["a", "b"]).1
      "lookup failed" rfl,
    by decide,
    ((bfd_resync_configures_all bfdCollaborators
      { lookupError := none, rejected := ["b", "c"] }).1 ["a", "b", "c"]).2 rfl,
    ((bfd_resync_configures_all bfdCollaborators
      { lookupError := none, rejected := ["k1"] }).2 ["k1", "k2"]).2 rfl⟩


/-! ## The example scenario -/

theorem step2_example {ω : Type} (env : Collaborators ω) (hc : ConfiguratorContract env)
    (L : List (Nat × Interface))
    (hL : L = [(0, local0), (7, hostEth1)] ∨ L = [(7, hostEth1), (0, local0)])
    (p : Pass ω) (hreg : p.plugin.swIfIndexes = [])
    (hok : (step2 env NewNameToIdx L { p with wasError := none }).wasError = none) :
    (step2 env NewNameToIdx L { p with wasError := none }).plugin.swIfIndexes =
      [⟨"local0", 0, some local0.Interfaces_Interface⟩] := by
  rcases hL with rfl | rfl
  · have hstep : step2 env NewNameToIdx [(0, local0), (7, hostEth1)] { p with wasError := none } =
        (({ p with wasError := none } : Pass ω).register "local0" 0
          (some local0.Interfaces_Interface)).invoke
          (Call.deleteVPPInterface hostEth1.Interfaces_Interface 7)
          (env.deleteVPPInterface hostEth1.Interfaces_Interface 7
            (RegisterName p.plugin.swIfIndexes "local0" 0 (some local0.Interfaces_Interface))
            p.plugin.vpp) := rfl
    rw [hstep] at hok ⊢
    have herr := (recordError_eq_none hok).2
    simp only [Pass.invoke]
    rw [hc.delete_success _ _ _ _ herr, hreg]
    decide
  · have hstep : step2 env NewNameToIdx [(7, hostEth1), (0, local0)] { p with wasError := none } =
        ((({ p with wasError := none } : Pass ω).invoke
          (Call.deleteVPPInterface hostEth1.Interfaces_Interface 7)
          (env.deleteVPPInterface hostEth1.Interfaces_Interface 7 p.plugin.swIfIndexes
            p.plugin.vpp)).register "local0" 0 (some local0.Interfaces_Interface)) := rfl
    rw [hstep] at hok ⊢
    have herr := (recordError_eq_none hok).2
    simp only [Pass.invoke, Pass.register]
    rw [hc.delete_success _ _ _ _ herr, hreg]
    decide

/-- C14: the example scenario.  With the desired list `[eth1]`, a dump holding the loopback at
handle 0 and a virtual interface `host-eth1` at handle 7 (in either order of iteration), an
empty registry, `resyncDoneOnce = false`, an empty persisted snapshot, every call succeeding
and `eth1` not pending, the configurator methods meeting their contract: `Resync` makes exactly
one delete call, on handle 7, no modify call and exactly one create call, for `eth1`; it
returns nil; and `swIfIndexes` ends with exactly two entries, the loopback at handle 0 and
`eth1` at the handle the create assigned. -/
theorem resync_example_scenario {ω : Type} (env : Collaborators ω)
    (hc : ConfiguratorContract env) (plugin : InterfaceConfigurator ω)
    (L : List (Nat × Interface))
    (hL : L = [(0, local0), (7, hostEth1)] ∨ L = [(7, hostEth1), (0, local0)])
    (hreg : plugin.swIfIndexes = []) (hflag : plugin.resyncDoneOnce = false)
    (hdump : env.DumpInterfaces plugin.vpp = Except.ok L)
    (hsnap : (env.Marshalling (env.GetAgentLabel plugin.vpp) plugin.swIfIndexes
      plugin.vpp).entries = [])
    (hok : ∀ e ∈ (Resync env [eth1] plugin).trace, e.result = none)
    (hnp : env.IsPendingAfPacket eth1 (Resync env [eth1] plugin).plugin.vpp = false) :
    configuratorCalls (Resync env [eth1] plugin).trace =
      [Call.deleteVPPInterface hostEth1.Interfaces_Interface 7,
        Call.ConfigureVPPInterface eth1] ∧
    (Resync env [eth1] plugin).wasError = none ∧
    ∃ h, h ≠ 0 ∧ (Resync env [eth1] plugin).plugin.swIfIndexes =
      [⟨"eth1", h, some eth1⟩, ⟨"local0", 0, some local0.Interfaces_Interface⟩] := by
  obtain ⟨-, hp⟩ := succeeded_of_results env [eth1] plugin hok
  have hnone := wasError_none_of_results env [eth1] plugin hok
  have hm : (env.Marshalling (env.GetAgentLabel plugin.vpp) plugin.swIfIndexes
      plugin.vpp).err = none := by
    rcases hp with h | h
    · rw [hflag] at h; exact absurd h (by simp)
    · exact h
  have hcorr : correlation env [eth1] plugin = NewNameToIdx := by
    rw [correlation_first env [eth1] plugin hflag hm, hsnap]
    rfl
  refine ⟨?_, hnone, ?_⟩
  · rw [resync_calls env [eth1] plugin L hdump hp, hcorr]
    rcases hL with rfl | rfl <;> decide
  · obtain ⟨q, pre, hq, -, hqreg, -⟩ := step1_correlated env [eth1]
      { plugin := plugin, wasError := none, trace := [⟨Call.DumpInterfaces, none⟩] } hp
    rw [hcorr] at hq
    have hres : Resync env [eth1] plugin =
        (step2 env NewNameToIdx L { q with wasError := none }).invoke
          (Call.ConfigureVPPInterface eth1)
          (env.ConfigureVPPInterface eth1
            (step2 env NewNameToIdx L { q with wasError := none }).plugin.swIfIndexes
            (step2 env NewNameToIdx L { q with wasError := none }).plugin.vpp) := by
      simp only [Resync, hdump, hq]
      rfl
    rw [hres] at hnone hnp ⊢
    obtain ⟨h2, herr⟩ := recordError_eq_none hnone
    have hR := step2_example env hc L hL q (by rw [hqreg, hreg]) h2
    obtain ⟨h, hfresh, hcreate⟩ := hc.create_success eth1 _ _ herr hnp
    rw [hR] at hfresh
    have h0 : h ≠ 0 := fun h0 => hfresh ⟨"local0", 0, some local0.Interfaces_Interface⟩
      (by simp) h0.symm
    refine ⟨h, h0, ?_⟩
    simp only [Pass.invoke]
    rw [hcreate, hR]
    simp [RegisterName, eth1, Ne.symm h0]

/-- C14 on the forwarder model: the scenario of the specification, evaluated. -/
theorem resync_example_scenario_witness :
    (examplePlugin.swIfIndexes = [] ∧ examplePlugin.resyncDoneOnce = false ∧
      vppCollaborators.DumpInterfaces examplePlugin.vpp =
        Except.ok [(0, local0), (7, hostEth1)] ∧
      (vppCollaborators.Marshalling (vppCollaborators.GetAgentLabel examplePlugin.vpp)
        examplePlugin.swIfIndexes examplePlugin.vpp).entries = [] ∧
      (∀ e ∈ (Resync vppCollaborators [eth1] examplePlugin).trace, e.result = none) ∧
      vppCollaborators.IsPendingAfPacket eth1
        (Resync vppCollaborators [eth1] examplePlugin).plugin.vpp = false) ∧
    (Resync vppCollaborators [eth1] examplePlugin).plugin.swIfIndexes =
      [⟨"eth1", 1, some eth1⟩, ⟨"local0", 0, some local0.Interfaces_Interface⟩] ∧
    (configuratorCalls (Resync vppCollaborators [eth1] examplePlugin).trace =
        [Call.deleteVPPInterface hostEth1.Interfaces_Interface 7,
          Call.ConfigureVPPInterface eth1] ∧
      (Resync vppCollaborators [eth1] examplePlugin).wasError = none ∧
      ∃ h, h ≠ 0 ∧ (Resync vppCollaborators [eth1] examplePlugin).plugin.swIfIndexes =
        [⟨"eth1", h, some eth1⟩, ⟨"local0", 0, some local0.Interfaces_Interface⟩]) :=
  ⟨⟨rfl, rfl, rfl, rfl, by decide, by decide⟩, by decide,
    resync_example_scenario vppCollaborators vppCollaborators_contract examplePlugin
      [(0, local0), (7, hostEth1)] (Or.inl rfl) rfl rfl rfl rfl (by decide) (by decide)⟩


/-- C18 on a concrete pass: the first pass is done and the registry holds `eth1` at the live
handle 7; the pass deletes handle 7 and creates `eth1` all the same. -/
theorem resync_later_pass_correlates_nothing_witness :
    (laterPlugin.resyncDoneOnce = true ∧
      vppCollaborators.DumpInterfaces laterPlugin.vpp = Except.ok laterPlugin.vpp.ifaces) ∧
    (Resync vppCollaborators [eth1] laterPlugin).trace.map Event.call =
      [Call.DumpInterfaces,
        Call.RegisterName "local0" 0 (some local0.Interfaces_Interface),
        Call.RegisterName "GigabitEthernet0/8/0" 3 (some gigabit.Interfaces_Interface),
        Call.deleteVPPInterface hostEth1.Interfaces_Interface 7,
        Call.ConfigureVPPInterface eth1] ∧
    (correlation vppCollaborators [eth1] laterPlugin = NewNameToIdx ∧
      (∀ e ∈ (Resync vppCollaborators [eth1] laterPlugin).trace, ∀ label mapping,
        e.call ≠ Call.Marshalling label mapping) ∧
      (∀ e ∈ (Resync vppCollaborators [eth1] laterPlugin).trace, e.call.isModify = false) ∧
      configuratorCalls (Resync vppCollaborators [eth1] laterPlugin).trace =
        (laterPlugin.vpp.ifaces.filter (fun kv => decide (kv.1 ≠ 0) &&
            decide (kv.2.Type_ ≠ InterfaceType.ETHERNET_CSMACD))).map
          (fun kv => Call.deleteVPPInterface kv.2.Interfaces_Interface kv.1) ++
        [eth1].map Call.ConfigureVPPInterface ∧
      (∀ kv ∈ laterPlugin.vpp.ifaces, kv.1 ≠ 0 →
        kv.2.Type_ ≠ InterfaceType.ETHERNET_CSMACD →
        ∃ e ∈ (Resync vppCollaborators [eth1] laterPlugin).trace,
          e.call = Call.deleteVPPInterface kv.2.Interfaces_Interface kv.1) ∧
      (∀ d ∈ [eth1], ∃ e ∈ (Resync vppCollaborators [eth1] laterPlugin).trace,
        e.call = Call.ConfigureVPPInterface d)) :=
  ⟨⟨rfl, rfl⟩, by decide,
    resync_later_pass_correlates_nothing vppCollaborators [eth1] laterPlugin
      laterPlugin.vpp.ifaces rfl rfl⟩

/-- C17, the code at a failing input: after a restart with `eth0` persisted at handle 5 and a
dump that no longer holds handle 5, Step 1 of the first pass (dump and save succeed) leaves
`eth0` at handle 5 in the correlation registry: Step 1 copies the loaded entries of the desired
names without looking at the dump.  Step 3 then finds no live interface at handle 5 and the
pass creates `eth0`. -/
theorem correlation_keeps_stale_handle :
    ¬ CorrelationLive vppCollaborators [eth0] stalePlugin ∧
    correlation vppCollaborators [eth0] stalePlugin =
      [{ name := "eth0", idx := 5, metadata := some eth0 }] ∧
    lookupDump stalePlugin.vpp.ifaces 5 = none ∧
    configuratorCalls (Resync vppCollaborators [eth0] stalePlugin).trace =
      [Call.deleteVPPInterface hostEth1.Interfaces_Interface 7,
        Call.ConfigureVPPInterface eth0] := by
  refine ⟨?_, by decide, by decide, by decide⟩
  intro h
  have h1 := h rfl rfl stalePlugin.vpp.ifaces rfl
    { name := "eth0", idx := 5, metadata := some eth0 } (by decide)
  revert h1
  decide

end ifplugin

namespace sql

/-- C15, the code at a failing input: the body of `Accept` makes one call, the visit method on
the expression itself, and never calls `Accept` on what follows the prefix or the field.  On
`WHERE(Exp("x"))` and on `Field(name, EQ(Bond))` a visitor that only writes down what it is
shown sees the first node of the chain and none of the others. -/
theorem accept_visits_only_the_head :
    (∀ (σ : Type) (exp : Expression) (visitor : Visitor σ) (s : σ),
      (exp.Accept visitor s).2 = [AcceptCall.VisitPrefixedExp exp] ∨
        (exp.Accept visitor s).2 = [AcceptCall.VisitFieldExpression exp]) ∧
    ¬ AcceptDescends (WHERE (some (Exp "x" []))) ∧
    ¬ AcceptDescends (Field "name" (some (EQ "Bond"))) ∧
    ((WHERE (some (Exp "x" []))).Accept recorder []).1 = ["WHERE"] ∧
    (WHERE (some (Exp "x" []))).chain.map Expression.label = ["WHERE", "x"] ∧
    ¬ VisitsChain (WHERE (some (Exp "x" []))) ∧
    ((Field "name" (some (EQ "Bond"))).Accept recorder []).1 = ["name"] ∧
    (Field "name" (some (EQ "Bond"))).chain.map Expression.label = ["name", "=", "?"] ∧
    ¬ VisitsChain (Field "name" (some (EQ "Bond"))) := by
  refine ⟨?_, ?_, ?_, by decide, by decide, ?_, by decide, by decide, ?_⟩
  · intro σ exp visitor s
    cases exp with
    | PrefixedExp p a su b => left; rfl
    | FieldExpression f a => right; rfl
  · intro h
    have h1 := (h (List String) recorder []).2
    simp [WHERE, Expression.Accept] at h1
  · intro h
    have h1 := (h (List String) recorder []).2
    simp [Field, Expression.Accept] at h1
  · unfold VisitsChain; decide
  · unfold VisitsChain; decide

/-- C16, the code at a failing input: `String` never appends the suffix, so the rendering of
`Parenthesis(inside)` is "( " followed by the rendering of `inside`, without the closing
parenthesis; `Parenthesis(Exp("a"))` renders as "( a", which does not end with ")". -/
theorem parenthesis_drops_suffix :
    (∀ inside : Expression, (Parenthesis (some inside)).String = "( " ++ inside.String) ∧
    (Parenthesis (some (Exp "a" []))).String = "( a" ∧
    ¬ ParenthesisSurrounds (Exp "a" []) := by
  refine ⟨fun inside => by simp [Parenthesis, Expression.String], by decide, ?_⟩
  rintro ⟨before, after, h⟩
  have hdata : (Parenthesis (some (Exp "a" []))).String.data = ['(', ' ', 'a'] := by decide
  rw [hdata] at h
  have h2 := congrArg List.getLast? h
  rw [List.getLast?_concat] at h2
  exact absurd h2 (by decide)

end sql

namespace editor

/-- C19, the code at a failing input: for the argument vector `editor foo bar` the check of
line 50 passes (two task words, the first is not "put"), the operation stays the default `Put`
and `data` holds the single word "bar", so that `put` reads `data[1]` and `data[2]` out of
bounds. -/
theorem processArgs_unknown_command_unsafe {Config ClientConfig : Type}
    (env : ConfigReaders Config ClientConfig) :
    (processArgs env ["editor", "foo", "bar"]).err = none ∧
    (processArgs env ["editor", "foo", "bar"]).op = Put ∧
    (processArgs env ["editor", "foo", "bar"]).data = ["bar"] ∧
    mainReads Put = [0, 1, 2] ∧
    ¬ IndexingSafe (processArgs env ["editor", "foo", "bar"]) := by
  refine ⟨rfl, rfl, rfl, rfl, ?_⟩
  intro h
  have h1 : 1 < ["bar"].length := h rfl 1 (by show 1 ∈ [0, 1, 2]; decide)
  exact absurd h1 (by decide)

/-- C20, the code at a failing input: for the argument vector `editor delete bob`, without
the optional `--cfg CONFIG_FILE`, `processArgs` returns a nil error, the operation `Delete`,
the data `[bob]` and a nil `cfg`, which `main` dereferences. -/
theorem processArgs_without_cfg_returns_nil_config {Config ClientConfig : Type}
    (env : ConfigReaders Config ClientConfig) :
    (processArgs env ["editor", "delete", "bob"]).err = none ∧
    (processArgs env ["editor", "delete", "bob"]).op = Delete ∧
    (processArgs env ["editor", "delete", "bob"]).data = ["bob"] ∧
    (processArgs env ["editor", "delete", "bob"]).cfg = none ∧
    ¬ ConfigUsable (processArgs env ["editor", "delete", "bob"]) := by
  refine ⟨rfl, rfl, rfl, rfl, ?_⟩
  intro h
  have h1 : (none : Option ClientConfig).isSome = true := h rfl
  exact absurd h1 (by simp)

end editor
